import Mathlib

/-!
# CampusConnect: messaging and notification core

A shallow embedding of the chat relay and the connection gateway (`server/server.js`,
`server/routes/chat.js`, `server/models/Chat.js`), of the notification fan-out
(`server/routes/notifications.js`, `server/models/Notification.js`) and of one domain
route that calls it (`PUT /api/reuseit/:id/request` in `server/routes/reuseit.js`).

Conventions of the embedding
* MongoDB ObjectIds (users, conversations, notifications) and socket ids are natural numbers.
* A collection is the list of its documents in insertion order.
* `Date` values are natural numbers supplied by the caller (`now`).
* Every awaited store call may reject; `Db` records which kinds of call answer.
* `populate` only decorates the in-memory document with `name`/`avatar`; identities are
  unchanged, so a populated document is represented by the document itself.
* The announcement routes (`server/routes/announcements.js`) and the wallet routes
  (`server/routes/wallet.js`) are embedded at the end; wallet balances and amounts are
  JavaScript Numbers, embedded as binary64 values with their rounding.
-/

namespace CampusConnect

/-! ## Data model (`models/Chat.js`) -/

abbrev UserId := Nat
abbrev ChatId := Nat
abbrev SocketId := Nat

/-- One element of `chatSchema.messages`. -/
structure Message where
  sender : UserId
  text : String
  read : Bool
  createdAt : Nat
deriving DecidableEq, Repr

/-- A document of the `Chat` collection. -/
structure Chat where
  id : ChatId
  participants : List UserId
  messages : List Message
  lastMessage : String
  lastMessageAt : Nat
deriving DecidableEq, Repr

/-- The `Chat` collection together with the next unused document id. -/
structure Store where
  chats : List Chat
  nextId : ChatId
deriving DecidableEq, Repr

/-- Which kinds of awaited store call answer (`true`) or reject (`false`). -/
structure Db where
  find : Bool
  create : Bool
  save : Bool
  populate : Bool
deriving DecidableEq, Repr

/-- A store on which every call answers. -/
def Db.up : Db := ⟨true, true, true, true⟩

/-- The empty collection. -/
def Store.empty : Store := ⟨[], 0⟩

/-- `Chat.findById(id)`. -/
def Store.findById (s : Store) (id : ChatId) : Option Chat :=
  s.chats.find? (fun d => d.id == id)

/-- `Chat.findOne({ participants: { $all: users } })`: the first document whose
participants array contains every listed user. -/
def Store.findOne (s : Store) (users : List UserId) : Option Chat :=
  s.chats.find? (fun d => users.all (fun u => d.participants.contains u))

/-- `Chat.find({ participants: user })`: the documents whose participants array
contains the user. -/
def Store.find (s : Store) (user : UserId) : List Chat :=
  s.chats.filter (fun d => d.participants.contains user)

/-- `Chat.create({ participants })`: messages default to `[]`, `lastMessage` to `''`,
`lastMessageAt` to `Date.now`. -/
def Store.create (s : Store) (participants : List UserId) (now : Nat) : Chat × Store :=
  let c : Chat := ⟨s.nextId, participants, [], "", now⟩
  (c, ⟨s.chats ++ [c], s.nextId + 1⟩)

/-- The write of `conversation.save()`: an `updateOne` on `_id`, which rewrites the
first document carrying that id. -/
def saveInto : List Chat → Chat → List Chat
  | [], _ => []
  | d :: ds, c => if d.id = c.id then c :: ds else d :: saveInto ds c

/-- `conversation.save()` once validation has passed. -/
def Store.save (s : Store) (c : Chat) : Store :=
  { s with chats := saveInto s.chats c }

/-- The `required: true` validator of `messages.text`: a string that is not empty. -/
def validText : Option String → Bool
  | some t => t != ""
  | none => false

/-- Lines 117-124 of `server.js` (154-162 of `chat.js`): push the new message and
refresh the denormalised last-message fields, in memory. -/
def Chat.push (c : Chat) (sender : UserId) (text : String) (now : Nat) : Chat :=
  { c with
    messages := c.messages ++ [⟨sender, text, false, now⟩]
    lastMessage := text
    lastMessageAt := now }

/-- The `forEach` of `mark-read` and of `PUT /messages/:chatId/read`. -/
def Chat.markRead (c : Chat) (reader : UserId) : Chat :=
  { c with
    messages := c.messages.map
      (fun msg => if msg.sender ≠ reader then { msg with read := true } else msg) }

/-! ## Sockets, registry, events -/

/-- A live connection: its socket id and the identity decoded from its token. -/
structure Socket where
  id : SocketId
  userId : UserId
deriving DecidableEq, Repr

/-- The `userSockets` map of `server.js`. -/
abbrev Registry := List (UserId × SocketId)

/-- `userSockets.get(userId)`. -/
def Registry.get (r : Registry) (u : UserId) : Option SocketId :=
  List.lookup u r

/-- Server-to-client events of the chat relay with their payloads. -/
inductive Event where
  | receiveMessage (chatId : ChatId) (message : Option Message) (conversation : Chat)
  | messageSent (chatId : ChatId) (message : Option Message)
  | messagesRead (chatId : ChatId)
  | error (message : String)
deriving DecidableEq, Repr

/-- Observable steps of a handler, in the order they happen. -/
inductive Effect where
  | created (c : Chat)
  | saved (c : Chat)
  | emit (target : SocketId) (ev : Event)
deriving DecidableEq, Repr

/-- The payload of `send-message` and the body of `POST /api/chat/message`. -/
structure SendPayload where
  chatId : Option ChatId
  text : Option String
  recipientId : Option UserId
deriving DecidableEq, Repr

/-- Outcome of resolving the conversation of a send. -/
inductive Lookup where
  | threw (s : Store) (fx : List Effect)
  | got (conversation : Option Chat) (s : Store) (fx : List Effect)
deriving DecidableEq, Repr

/-- Lines 96-110 of `server.js` (131-152 of `chat.js`): by id when `chatId` is given,
else by participants when `recipientId` is given (creating the conversation when
none matches), else nothing. -/
def lookupConversation (db : Db) (now : Nat) (user : UserId)
    (chatId : Option ChatId) (recipientId : Option UserId) (s : Store) : Lookup :=
  match chatId with
  | some c => if db.find then .got (s.findById c) s [] else .threw s []
  | none =>
    match recipientId with
    | some r =>
      if db.find then
        match s.findOne [user, r] with
        | some conv => .got (some conv) s []
        | none =>
          if db.create then
            .got (some (s.create [user, r] now).1) (s.create [user, r] now).2
              [.created (s.create [user, r] now).1]
          else .threw s []
      else .threw s []
    | none => .got none s []

/-- The `send-message` handler (`server.js` 92-151). -/
def sendMessage (db : Db) (now : Nat) (userSockets : Registry) (socket : Socket)
    (data : SendPayload) (s : Store) : Store × List Effect :=
  match lookupConversation db now socket.userId data.chatId data.recipientId s with
  | .threw s1 fx => (s1, fx ++ [.emit socket.id (.error "Failed to send message")])
  | .got none s1 fx => (s1, fx ++ [.emit socket.id (.error "Conversation not found")])
  | .got (some found) s1 fx =>
    let conversation := found.push socket.userId (data.text.getD "") now
    if db.save && validText data.text then
      if db.populate then
        let newMessage := conversation.messages.getLast?
        let toRecipient : List Effect :=
          match data.recipientId.bind userSockets.get with
          | some recipientSocketId =>
            [.emit recipientSocketId (.receiveMessage conversation.id newMessage conversation)]
          | none => []
        (s1.save conversation,
          fx ++ [.saved conversation] ++ toRecipient ++
            [.emit socket.id (.messageSent conversation.id newMessage)])
      else
        (s1.save conversation,
          fx ++ [.saved conversation, .emit socket.id (.error "Failed to send message")])
    else (s1, fx ++ [.emit socket.id (.error "Failed to send message")])

/-- The `mark-read` handler (`server.js` 166-191); its `catch` only logs. -/
def markRead (db : Db) (userSockets : Registry) (socket : Socket) (chatId : ChatId)
    (s : Store) : Store × List Effect :=
  if db.find then
    match s.findById chatId with
    | none => (s, [])
    | some found =>
      let conversation := found.markRead socket.userId
      if db.save then
        match conversation.participants.find? (fun p => p != socket.userId) with
        | some otherParticipant =>
          match userSockets.get otherParticipant with
          | some otherSocketId =>
            (s.save conversation,
              [.saved conversation, .emit otherSocketId (.messagesRead chatId)])
          | none => (s.save conversation, [.saved conversation])
        | none => (s.save conversation, [.saved conversation])
      else (s, [])
  else (s, [])

/-! ## REST surface (`routes/chat.js`) -/

/-- JSON bodies of the chat routes. -/
inductive Body where
  | message (text : String)
  | failure
  | count (n : Nat)
  | messages (ms : List Message)
  | conversation (c : Chat)
  | sent (message : Option Message) (conversation : Chat)
deriving DecidableEq, Repr

/-- An HTTP answer: status code and body. `Body.failure` is the body of a 500,
whose text is the caught error's. -/
structure Response where
  status : Nat
  body : Body
deriving DecidableEq, Repr

/-- `GET /api/chat/unread-count` (`chat.js` 48-66). -/
def getUnreadCount (db : Db) (user : UserId) (s : Store) : Store × Response :=
  if db.find then
    let conversations := s.find user
    let totalUnread := conversations.foldl
      (fun total conv =>
        total + (conv.messages.filter (fun m => m.sender != user && !m.read)).length) 0
    (s, ⟨200, .count totalUnread⟩)
  else (s, ⟨500, .failure⟩)

/-- `GET /api/chat/conversation/:userId` (`chat.js` 71-99). -/
def getConversation (db : Db) (now : Nat) (user userId : UserId) (s : Store) :
    Store × Response :=
  if userId = user then (s, ⟨400, .message "Cannot chat with yourself"⟩)
  else if db.find then
    match s.findOne [user, userId] with
    | some conversation =>
      if db.populate then (s, ⟨200, .conversation conversation⟩) else (s, ⟨500, .failure⟩)
    | none =>
      if db.create then
        if db.populate then
          ((s.create [user, userId] now).2, ⟨200, .conversation (s.create [user, userId] now).1⟩)
        else ((s.create [user, userId] now).2, ⟨500, .failure⟩)
      else (s, ⟨500, .failure⟩)
  else (s, ⟨500, .failure⟩)

/-- `GET /api/chat/messages/:chatId` (`chat.js` 104-122). -/
def getMessages (db : Db) (user : UserId) (chatId : ChatId) (s : Store) : Store × Response :=
  if db.find then
    match s.findById chatId with
    | none => (s, ⟨404, .message "Conversation not found"⟩)
    | some conversation =>
      if db.populate then
        if !conversation.participants.contains user then (s, ⟨403, .message "Not authorized"⟩)
        else (s, ⟨200, .messages conversation.messages⟩)
      else (s, ⟨500, .failure⟩)
  else (s, ⟨500, .failure⟩)

/-- `POST /api/chat/message` (`chat.js` 127-177). -/
def postMessage (db : Db) (now : Nat) (user : UserId) (body : SendPayload) (s : Store) :
    Store × Response :=
  match lookupConversation db now user body.chatId body.recipientId s with
  | .threw s1 _ => (s1, ⟨500, .failure⟩)
  | .got none s1 _ =>
    if body.chatId.isSome then (s1, ⟨404, .message "Conversation not found"⟩)
    else (s1, ⟨400, .message "chatId or recipientId required"⟩)
  | .got (some found) s1 _ =>
    let conversation := found.push user (body.text.getD "") now
    if db.save && validText body.text then
      if db.populate then
        (s1.save conversation, ⟨200, .sent conversation.messages.getLast? conversation⟩)
      else (s1.save conversation, ⟨500, .failure⟩)
    else (s1, ⟨500, .failure⟩)

/-- `PUT /api/chat/messages/:chatId/read` (`chat.js` 182-202). -/
def putRead (db : Db) (user : UserId) (chatId : ChatId) (s : Store) : Store × Response :=
  if db.find then
    match s.findById chatId with
    | none => (s, ⟨404, .message "Conversation not found"⟩)
    | some found =>
      let conversation := found.markRead user
      if db.save then (s.save conversation, ⟨200, .message "Messages marked as read"⟩)
      else (s, ⟨500, .failure⟩)
  else (s, ⟨500, .failure⟩)

/-! ## Sequences of chat operations -/

/-- One chat operation together with everything its handler reads besides the store. -/
inductive Op where
  | sendMessage (db : Db) (now : Nat) (userSockets : Registry) (socket : Socket)
      (data : SendPayload)
  | postMessage (db : Db) (now : Nat) (user : UserId) (body : SendPayload)
  | getConversation (db : Db) (now : Nat) (user userId : UserId)
  | markRead (db : Db) (userSockets : Registry) (socket : Socket) (chatId : ChatId)
  | putRead (db : Db) (user : UserId) (chatId : ChatId)
deriving DecidableEq, Repr

/-- The store after one operation. -/
def step (s : Store) : Op → Store
  | .sendMessage db now reg socket data => (sendMessage db now reg socket data s).1
  | .postMessage db now user body => (postMessage db now user body s).1
  | .getConversation db now user userId => (getConversation db now user userId s).1
  | .markRead db reg socket chatId => (markRead db reg socket chatId s).1
  | .putRead db user chatId => (putRead db user chatId s).1

/-- The store after a sequential series of operations. -/
def run (ops : List Op) (s : Store) : Store :=
  ops.foldl step s

/-! ## Notifications (`models/Notification.js`, `routes/notifications.js`) -/

/-- The `enum` of `notificationSchema.type`. -/
def notificationTypes : List String :=
  ["reuseit_request", "reuseit_approved", "reuseit_declined", "reuseit_exchanged",
    "youthgig_application", "youthgig_selected", "youthgig_declined", "youthgig_completed",
    "skillswap_match", "skillswap_completed",
    "mentorship_booking", "mentorship_confirmed", "mentorship_declined",
    "mentorship_completed",
    "chat_message",
    "announcement"]

/-- The non-null members of the `enum` of `notificationSchema.relatedModel`. -/
def relatedModels : List String :=
  ["ReUseIt", "YouthGig", "SkillSwap", "Mentorship", "Chat", "Announcement"]

/-- The object handed to `createNotification`; a field that is absent is `none`. -/
structure NotificationData where
  user : Option UserId
  type : Option String
  title : Option String
  message : Option String
  relatedItem : Option Nat
  relatedModel : Option String
  fromUser : Option UserId
  read : Option Bool
  readAt : Option Nat
deriving DecidableEq, Repr

/-- A document of the `Notification` collection. -/
structure Notification where
  id : Nat
  user : UserId
  type : String
  title : String
  message : String
  relatedItem : Option Nat
  relatedModel : Option String
  fromUser : Option UserId
  read : Bool
  readAt : Option Nat
  createdAt : Nat
deriving DecidableEq, Repr

/-- The `Notification` collection together with the next unused document id. -/
structure NotificationStore where
  notifications : List Notification
  nextId : Nat
deriving DecidableEq, Repr

/-- Schema validation of `Notification.create`: `user`, `type`, `title` and `message`
are required, `type` and a given `relatedModel` must belong to their `enum`. -/
def NotificationData.valid (d : NotificationData) : Bool :=
  d.user.isSome &&
    (match d.type with
      | some t => notificationTypes.contains t
      | none => false) &&
    validText d.title && validText d.message &&
    (match d.relatedModel with
      | some m => relatedModels.contains m
      | none => true)

/-- A notification after `populate('fromUser')` and `populate('user')`: a reference
whose user does not exist is replaced by `null`, here `none`. -/
structure PopulatedNotification where
  doc : Notification
  user : Option UserId
  fromUser : Option UserId
deriving DecidableEq, Repr

/-- What a call of `createNotification` leaves: the collection, the `new-notification`
emissions as pairs of the addressed user room and the payload, and the value returned. -/
structure NotifyResult where
  store : NotificationStore
  emitted : List (UserId × PopulatedNotification)
  returned : Option PopulatedNotification
deriving DecidableEq, Repr

/-- The helper `createNotification` (`notifications.js` 15-33). `ioInstance` tells whether
`setIO` has been called; `users` are the ids of the existing users. Reading
`notification.user._id` of a `null` user throws, and the `catch` returns `null`. -/
def createNotification (db : Db) (ioInstance : Bool) (users : List UserId) (now : Nat)
    (data : NotificationData) (s : NotificationStore) : NotifyResult :=
  if db.create && data.valid then
    let notification : Notification :=
      { id := s.nextId
        user := data.user.getD 0
        type := data.type.getD ""
        title := data.title.getD ""
        message := data.message.getD ""
        relatedItem := data.relatedItem
        relatedModel := data.relatedModel
        fromUser := data.fromUser
        read := data.read.getD false
        readAt := data.readAt
        createdAt := now }
    let s1 : NotificationStore := ⟨s.notifications ++ [notification], s.nextId + 1⟩
    if db.populate then
      let populated : PopulatedNotification :=
        { doc := notification
          user := if users.contains notification.user then some notification.user else none
          fromUser := data.fromUser.filter (fun f => users.contains f) }
      if ioInstance then
        match populated.user with
        | some room => ⟨s1, [(room, populated)], some populated⟩
        | none => ⟨s1, [], none⟩
      else ⟨s1, [], some populated⟩
    else ⟨s1, [], none⟩
  else ⟨s, [], none⟩

/-! ## Vocabulary of the properties -/

/-- A `receive-message` or a `message-sent` event. -/
def Event.isDelivery : Event → Bool
  | .receiveMessage _ _ _ => true
  | .messageSent _ _ => true
  | _ => false

/-- An emission, as opposed to a store write. -/
def Effect.isEmit : Effect → Bool
  | .emit _ _ => true
  | _ => false

/-- A `receive-message` emission. -/
def Effect.isReceiveMessage : Effect → Bool
  | .emit _ (.receiveMessage _ _ _) => true
  | _ => false

/-- A `message-sent` emission. -/
def Effect.isMessageSent : Effect → Bool
  | .emit _ (.messageSent _ _) => true
  | _ => false

/-- Document ids are unique and below the next unused id (what MongoDB guarantees of `_id`). -/
def Store.WF (s : Store) : Prop :=
  (s.chats.map Chat.id).Nodup ∧ ∀ d ∈ s.chats, d.id < s.nextId

instance (s : Store) : Decidable s.WF := by
  unfold Store.WF
  infer_instance

/-- The stored messages of a conversation, `[]` when no conversation has the id. -/
def Store.messagesOf (s : Store) (id : ChatId) : List Message :=
  match s.findById id with
  | some c => c.messages
  | none => []

/-- The conversation id under which a send was answered with success: the `chatId` of
the `message-sent` acknowledgement, or the id of the conversation in the 200 answer. -/
def Op.acked (s : Store) : Op → Option ChatId
  | .sendMessage db now reg socket data =>
    (CampusConnect.sendMessage db now reg socket data s).2.findSome? fun e =>
      match e with
      | .emit _ (.messageSent chatId _) => some chatId
      | _ => none
  | .postMessage db now user body =>
    match (CampusConnect.postMessage db now user body s).2 with
    | ⟨200, .sent _ conversation⟩ => some conversation.id
    | _ => none
  | _ => none

/-- The message a send submits, in the words of the append postcondition: its sender
is the sending user, its text the submitted text, its read flag false. -/
def Op.submitted : Op → Option Message
  | .sendMessage _ now _ socket data => data.text.map fun t => ⟨socket.userId, t, false, now⟩
  | .postMessage _ now user body => body.text.map fun t => ⟨user, t, false, now⟩
  | _ => none

/-- Two conversations have the same unordered participant set. -/
def samePair (c d : Chat) : Bool :=
  c.participants.all (fun u => d.participants.contains u) &&
    d.participants.all (fun u => c.participants.contains u)

/-- The participant set of the conversation is `{a, b}`. -/
def Chat.isBetween (c : Chat) (a b : UserId) : Bool :=
  c.participants.all (fun u => u == a || u == b) &&
    c.participants.contains a && c.participants.contains b

/-- The same message at a later time: identity fields equal, read flag not reverted. -/
def Message.laterOf (m later : Message) : Prop :=
  later.sender = m.sender ∧ later.text = m.text ∧ later.createdAt = m.createdAt ∧
    (m.read = true → later.read = true)

/-- The number of messages of a conversation sent by someone else than `u` and unread. -/
def Chat.unreadFor (c : Chat) (u : UserId) : Nat :=
  c.messages.countP fun m => decide (m.sender ≠ u) && decide (m.read = false)

/-- `unreadMessageCount(userId)` in the words of the specification: the count, across
all conversations where the user is a participant, of messages with another sender
and `read = false`. -/
def unreadMessageCount (s : Store) (u : UserId) : Nat :=
  ((s.chats.filter fun c => decide (u ∈ c.participants)).map fun c => c.unreadFor u).sum

/-- The participants columns a handler can leave behind: that of the store, or that of
the store followed by the pair of a conversation created because none matched. -/
def ParticipantsStep (s s' : Store) : Prop :=
  s'.chats.map Chat.participants = s.chats.map Chat.participants ∨
  ∃ a b, s.findOne [a, b] = none ∧
    s'.chats.map Chat.participants = s.chats.map Chat.participants ++ [[a, b]]

/-- The markRead postcondition between the stored conversation before and after:
same number of messages, each at its place with the same sender, text and date; the
messages of other senders read, those of the reader with their previous flag; same
participants and last message. -/
def MarkedRead (reader : UserId) (before after : Chat) : Prop :=
  after.messages.length = before.messages.length ∧
  after.lastMessage = before.lastMessage ∧
  after.lastMessageAt = before.lastMessageAt ∧
  after.participants = before.participants ∧
  ∀ (i : Nat) (m : Message), before.messages[i]? = some m →
    ∃ m' : Message, after.messages[i]? = some m' ∧
      m'.sender = m.sender ∧ m'.text = m.text ∧ m'.createdAt = m.createdAt ∧
      (m.sender ≠ reader → m'.read = true) ∧ (m.sender = reader → m'.read = m.read)

/-- How one operation can change the messages stored under one id: not at all, by
one appended unread message, or by a read mark. -/
def MessagesStep (ms ms' : List Message) : Prop :=
  ms' = ms ∨ (∃ sender t now, ms' = ms ++ [⟨sender, t, false, now⟩]) ∨
    ∃ u, ms' = ms.map (fun msg => if msg.sender ≠ u then { msg with read := true } else msg)

/-- How one operation can change the store: possibly one `create`, then possibly one
save of a stored conversation after a push or a read mark. -/
def StoreStep (s s' : Store) : Prop :=
  ∃ s1, (s1 = s ∨ ∃ ps now, s1 = (s.create ps now).2) ∧
    (s' = s1 ∨ ∃ found, found ∈ s1.chats ∧
      ((∃ sender t now, s' = s1.save (found.push sender t now)) ∨
        ∃ u, s' = s1.save (found.markRead u)))

/-! ## Concrete data used to exercise the theorems -/

/-- One empty conversation, id 0, between users 1 and 2. -/
def demoStore : Store := ⟨[⟨0, [1, 2], [], "", 0⟩], 1⟩

/-- User 2 is connected on socket 20. -/
def demoRegistry : Registry := [(2, 20)]

/-- User 1 is connected on socket 10. -/
def demoSocket : Socket := ⟨10, 1⟩

/-- Conversation 0 between users 1 and 2 with one message of each, both unread. -/
def demoThread : Store :=
  ⟨[⟨0, [1, 2], [⟨1, "hi", false, 5⟩, ⟨2, "yo", false, 6⟩], "yo", 6⟩], 1⟩

/-- Conversation 0 between users 1 and 2 whose only message has been read. -/
def demoReadThread : Store := ⟨[⟨0, [1, 2], [⟨1, "hi", true, 5⟩], "hi", 5⟩], 1⟩

/-- User 1 sends "hi" into conversation 0, naming the recipient 2. -/
def demoSend : SendPayload := ⟨some 0, some "hi", some 2⟩

/-- User 1 sends an empty text into conversation 0. -/
def demoEmptySend : SendPayload := ⟨some 0, some "", some 2⟩

/-- Conversation 0 after the send of `demoSend` by user 1 at time 5. -/
def demoSaved : Chat := ⟨0, [1, 2], [⟨1, "hi", false, 5⟩], "hi", 5⟩

/-- Two sends into conversation 0, then a read mark by each participant. -/
def demoOps : List Op :=
  [.sendMessage Db.up 7 demoRegistry demoSocket demoSend,
    .postMessage Db.up 8 2 ⟨some 0, some "re", none⟩,
    .markRead Db.up demoRegistry demoSocket 0,
    .putRead Db.up 2 0]

/-- User 1 sends "hi" to user 2 by `recipientId`, user 2 answers by POST naming user 1,
user 1 opens the conversation with user 3 and sends "yo" to user 3. -/
def demoPairOps : List Op :=
  [.sendMessage Db.up 5 demoRegistry demoSocket ⟨none, some "hi", some 2⟩,
    .postMessage Db.up 6 2 ⟨none, some "re", some 1⟩,
    .getConversation Db.up 7 1 3,
    .sendMessage Db.up 8 demoRegistry demoSocket ⟨none, some "yo", some 3⟩]

/-- The notification of `demoNotification` for user 4, who has no user document. -/
def demoOrphanNotification : NotificationData :=
  ⟨some 4, some "reuseit_request", some "New Exchange Request", some "wants your item",
    some 7, some "ReUseIt", some 1, none, none⟩

/-- An exchange request on item 7 of user 2, made by user 1. -/
def demoNotification : NotificationData :=
  ⟨some 2, some "reuseit_request", some "New Exchange Request", some "wants your item",
    some 7, some "ReUseIt", some 1, none, none⟩

/-! ## Connection gateway (`server.js` 64-89, 193-197) -/

/-- `userSockets.set(userId, socketId)`: a `Map` keeps one value per key; an existing
key keeps its place and takes the new value. -/
def Registry.set : Registry → UserId → SocketId → Registry
  | [], u, h => [(u, h)]
  | (k, v) :: r, u, h => if k = u then (k, h) :: r else (k, v) :: Registry.set r u h

/-- `userSockets.delete(userId)`. -/
def Registry.delete (r : Registry) (u : UserId) : Registry :=
  r.filter (fun e => e.1 != u)

/-- How the `io.use` middleware calls `next`: with an error, or with none after
binding `socket.userId`. -/
inductive Handshake where
  | rejected (error : String)
  | accepted (userId : UserId)
deriving DecidableEq, Repr

/-- The `io.use` middleware (`server.js` 67-80). `verify` stands for
`jwt.verify(token, process.env.JWT_SECRET)` followed by `.id`: `none` when it throws
(bad signature, expired). A token that is absent or the empty string is falsy. -/
def authenticate (verify : String → Option UserId) (token : Option String) : Handshake :=
  match token with
  | none => .rejected "Authentication error"
  | some t =>
    if t = "" then .rejected "Authentication error"
    else
      match verify t with
      | some userId => .accepted userId
      | none => .rejected "Authentication error"

/-- A connection attempt: the middleware, then for an accepted handshake line 86 of the
`connection` handler. -/
def connect (verify : String → Option UserId) (socketId : SocketId) (token : Option String)
    (userSockets : Registry) : Registry × Handshake :=
  match authenticate verify token with
  | .accepted userId => (Registry.set userSockets userId socketId, .accepted userId)
  | .rejected error => (userSockets, .rejected error)

/-- The `disconnect` handler (`server.js` 194-197). -/
def disconnect (socket : Socket) (userSockets : Registry) : Registry :=
  Registry.delete userSockets socket.userId

/-- What happens to connections: an attempt with a socket id and a handshake token, or
the disconnect of a socket. -/
inductive ConnectionEvent where
  | connect (socketId : SocketId) (token : Option String)
  | disconnect (socket : Socket)
deriving DecidableEq, Repr

/-- The registry after one connection event. -/
def registryStep (verify : String → Option UserId) (r : Registry) : ConnectionEvent → Registry
  | .connect socketId token => (connect verify socketId token r).1
  | .disconnect socket => disconnect socket r

/-- The registry after a series of connection events. -/
def registryRun (verify : String → Option UserId) (events : List ConnectionEvent)
    (r : Registry) : Registry :=
  events.foldl (registryStep verify) r

/-! ## Notification routes (`routes/notifications.js` 58-113) -/

/-- JSON bodies of the notification routes. -/
inductive NotificationBody where
  | message (text : String)
  | failure
  | count (n : Nat)
  | notification (n : Notification)
deriving DecidableEq, Repr

/-- An HTTP answer of a notification route. -/
structure NotificationResponse where
  status : Nat
  body : NotificationBody
deriving DecidableEq, Repr

/-- `Notification.findById(id)`. -/
def NotificationStore.findById (s : NotificationStore) (id : Nat) : Option Notification :=
  s.notifications.find? (fun n => n.id == id)

/-- `Notification.countDocuments({ user, read: false })`. -/
def NotificationStore.countDocuments (s : NotificationStore) (user : UserId) : Nat :=
  s.notifications.countP (fun n => n.user == user && n.read == false)

/-- The write of `notification.save()`: rewrites the first document carrying the id. -/
def saveNotificationInto : List Notification → Notification → List Notification
  | [], _ => []
  | d :: ds, n => if d.id = n.id then n :: ds else d :: saveNotificationInto ds n

/-- `Notification.updateMany({ user, read: false }, { read: true, readAt: now })`. -/
def NotificationStore.updateMany (s : NotificationStore) (user : UserId) (now : Nat) :
    NotificationStore :=
  { s with
    notifications := s.notifications.map fun n =>
      if n.user = user ∧ n.read = false then { n with read := true, readAt := some now } else n }

/-- `GET /api/notifications/unread-count` (`notifications.js` 61-72). -/
def getUnreadNotificationCount (db : Db) (user : UserId) (s : NotificationStore) :
    NotificationStore × NotificationResponse :=
  if db.find then (s, ⟨200, .count (s.countDocuments user)⟩) else (s, ⟨500, .failure⟩)

/-- `PUT /api/notifications/:id/read` (`notifications.js` 77-97). -/
def putNotificationRead (db : Db) (now : Nat) (user : UserId) (id : Nat)
    (s : NotificationStore) : NotificationStore × NotificationResponse :=
  if db.find then
    match s.findById id with
    | none => (s, ⟨404, .message "Notification not found"⟩)
    | some found =>
      if found.user != user then (s, ⟨403, .message "Not authorized"⟩)
      else
        let notification := { found with read := true, readAt := some now }
        if db.save then
          ({ s with notifications := saveNotificationInto s.notifications notification },
            ⟨200, .notification notification⟩)
        else (s, ⟨500, .failure⟩)
  else (s, ⟨500, .failure⟩)

/-- `PUT /api/notifications/read-all` (`notifications.js` 102-113). -/
def putReadAll (db : Db) (now : Nat) (user : UserId) (s : NotificationStore) :
    NotificationStore × NotificationResponse :=
  if db.save then (s.updateMany user now, ⟨200, .message "All notifications marked as read"⟩)
  else (s, ⟨500, .failure⟩)

/-- One operation on the notification collection, with what it reads besides it. -/
inductive NotificationOp where
  | create (db : Db) (ioInstance : Bool) (users : List UserId) (now : Nat)
      (data : NotificationData)
  | read (db : Db) (now : Nat) (user : UserId) (id : Nat)
  | readAll (db : Db) (now : Nat) (user : UserId)
deriving DecidableEq, Repr

/-- The collection after one operation. -/
def notificationStep (s : NotificationStore) : NotificationOp → NotificationStore
  | .create db ioInstance users now data => (createNotification db ioInstance users now data s).store
  | .read db now user id => (putNotificationRead db now user id s).1
  | .readAll db now user => (putReadAll db now user s).1

/-- The collection after a series of operations. -/
def notificationRun (ops : List NotificationOp) (s : NotificationStore) : NotificationStore :=
  ops.foldl notificationStep s

/-- A `create` as the domain routes issue it: neither `read` nor `readAt` is supplied. -/
def NotificationOp.asRoutesCall : NotificationOp → Prop
  | .create _ _ _ _ data => data.read = none ∧ data.readAt = none
  | _ => True

/-- The read/readAt invariant of one notification. -/
def Notification.readIffReadAt (n : Notification) : Prop :=
  n.read = true ↔ n.readAt.isSome = true

/-! ## `createNotification` as a `try` block and its `catch` -/

/-- What the `try` block of `createNotification` can throw: the `ValidationError` of
`Notification.create`, a rejected store call of `create` or of a `populate`, or the
`TypeError` of reading `_id` of a `null` user on the emit line. -/
inductive NotifyError where
  | validation
  | store
  | populate
  | nullUser
deriving DecidableEq, Repr

/-- How the `try` block ends. -/
inductive NotifyOutcome where
  | returned (notification : PopulatedNotification)
  | threw (error : NotifyError)
deriving DecidableEq, Repr

/-- The collection and the emissions when the `try` block ends, and how it ends. -/
structure NotifyAttempt where
  store : NotificationStore
  emitted : List (UserId × PopulatedNotification)
  outcome : NotifyOutcome
deriving DecidableEq, Repr

/-- Lines 17-28 of `notifications.js`, the `try` block of `createNotification`, with its
exceptions explicit. -/
def createNotificationTry (db : Db) (ioInstance : Bool) (users : List UserId) (now : Nat)
    (data : NotificationData) (s : NotificationStore) : NotifyAttempt :=
  if !data.valid then ⟨s, [], .threw .validation⟩
  else if !db.create then ⟨s, [], .threw .store⟩
  else
    let notification : Notification :=
      { id := s.nextId
        user := data.user.getD 0
        type := data.type.getD ""
        title := data.title.getD ""
        message := data.message.getD ""
        relatedItem := data.relatedItem
        relatedModel := data.relatedModel
        fromUser := data.fromUser
        read := data.read.getD false
        readAt := data.readAt
        createdAt := now }
    let s1 : NotificationStore := ⟨s.notifications ++ [notification], s.nextId + 1⟩
    if !db.populate then ⟨s1, [], .threw .populate⟩
    else
      let populated : PopulatedNotification :=
        { doc := notification
          user := if users.contains notification.user then some notification.user else none
          fromUser := data.fromUser.filter (fun f => users.contains f) }
      if ioInstance then
        match populated.user with
        | some room => ⟨s1, [(room, populated)], .returned populated⟩
        | none => ⟨s1, [], .threw .nullUser⟩
      else ⟨s1, [], .returned populated⟩

/-- Lines 29-32 of `notifications.js`: the `catch` logs and returns `null`. -/
def catchReturnNull (a : NotifyAttempt) : NotifyResult :=
  ⟨a.store, a.emitted,
    match a.outcome with
    | .returned notification => some notification
    | .threw _ => none⟩

/-! ## A calling domain route: `PUT /api/reuseit/:id/request` (`routes/reuseit.js` 133-176) -/

/-- The fields of a `ReUseIt` document that the route reads or writes. -/
structure Item where
  id : Nat
  owner : UserId
  title : String
  status : String
  requestedBy : Option UserId
deriving DecidableEq, Repr

/-- The fields of a `User` document that the route reads or writes. -/
structure UserDoc where
  id : UserId
  name : String
  points : Nat
deriving DecidableEq, Repr

/-- The collections the route touches. -/
structure Domain where
  items : List Item
  users : List UserDoc
  notifications : NotificationStore
deriving DecidableEq, Repr

/-- Which of the route's own awaited store calls answer: `ReUseIt.findById`,
`item.save`, `User.findByIdAndUpdate`, and the final `findById` with its populates. -/
structure RequestDb where
  find : Bool
  save : Bool
  update : Bool
  refetch : Bool
deriving DecidableEq, Repr

/-- JSON bodies of the route. -/
inductive ItemBody where
  | message (text : String)
  | failure
  | item (i : Option Item)
deriving DecidableEq, Repr

/-- An HTTP answer of the route. -/
structure ItemResponse where
  status : Nat
  body : ItemBody
deriving DecidableEq, Repr

/-- The write of `item.save()`. -/
def saveItemInto : List Item → Item → List Item
  | [], _ => []
  | d :: ds, i => if d.id = i.id then i :: ds else d :: saveItemInto ds i

/-- `User.findByIdAndUpdate(id, { $inc: { points: n } })`. -/
def incPoints : List UserDoc → UserId → Nat → List UserDoc
  | [], _, _ => []
  | d :: ds, id, n => if d.id = id then { d with points := d.points + n } :: ds
    else d :: incPoints ds id n

/-- The object the route hands to `createNotification` (`reuseit.js` 159-167). -/
def requestNotification (reqUser : UserDoc) (item : Item) : NotificationData :=
  { user := some item.owner
    type := some "reuseit_request"
    title := some "New Exchange Request"
    message := some (reqUser.name ++ " has requested to exchange \"" ++ item.title ++ "\"")
    relatedItem := some item.id
    relatedModel := some "ReUseIt"
    fromUser := some reqUser.id
    read := none
    readAt := none }

/-- `PUT /api/reuseit/:id/request`. `rdb` tells which of the route's own store calls
answer, `ndb` and `ioInstance` are what `createNotification` meets. The result is the
collections, the `new-notification` emissions and the answer. -/
def requestExchange (rdb : RequestDb) (ndb : Db) (ioInstance : Bool) (now : Nat)
    (reqUser : UserDoc) (itemId : Nat) (d : Domain) :
    Domain × List (UserId × PopulatedNotification) × ItemResponse :=
  if rdb.find then
    match d.items.find? (fun i => i.id == itemId) with
    | none => (d, [], ⟨404, .message "Item not found"⟩)
    | some found =>
      if found.owner = reqUser.id then (d, [], ⟨400, .message "Cannot request your own item"⟩)
      else if found.status ≠ "available" then
        (d, [], ⟨400, .message "Item is not available for exchange"⟩)
      else
        let item : Item := { found with status := "pending", requestedBy := some reqUser.id }
        if rdb.save then
          let items := saveItemInto d.items item
          if rdb.update then
            let users := incPoints d.users reqUser.id 5
            let notified := createNotification ndb ioInstance (users.map UserDoc.id) now
              (requestNotification reqUser item) d.notifications
            if rdb.refetch then
              (⟨items, users, notified.store⟩, notified.emitted,
                ⟨200, .item (items.find? (fun i => i.id == item.id))⟩)
            else (⟨items, users, notified.store⟩, notified.emitted, ⟨500, .failure⟩)
          else (⟨items, d.users, d.notifications⟩, [], ⟨500, .failure⟩)
        else (d, [], ⟨500, .failure⟩)
  else (d, [], ⟨500, .failure⟩)

/-- A verifier that accepts exactly the token of user 7. -/
def demoVerify : String → Option UserId :=
  fun t => if t = "token-7" then some 7 else none

/-- User 7 connects on socket 1, connects again on socket 2, then socket 1 disconnects. -/
def demoReconnect : List ConnectionEvent :=
  [.connect 1 (some "token-7"), .connect 2 (some "token-7"), .disconnect ⟨1, 7⟩]

/-- The store as the resolution of a send leaves it. -/
def Lookup.store : Lookup → Store
  | .threw s _ => s
  | .got _ s _ => s

/-- Users 2 and 3 are connected, on sockets 20 and 30. -/
def demoRegistry3 : Registry := [(2, 20), (3, 30)]

/-- User 3, who takes part in no conversation, is connected on socket 30. -/
def demoOutsider : Socket := ⟨30, 3⟩

/-- The thread of `demoThread` once every message is read. -/
def demoAllRead : Chat :=
  ⟨0, [1, 2], [⟨1, "hi", true, 5⟩, ⟨2, "yo", true, 6⟩], "yo", 6⟩

/-- The thread of `demoThread` followed by a message "hi" of user 3 at time 9. -/
def demoIntruded : Chat :=
  ⟨0, [1, 2], [⟨1, "hi", false, 5⟩, ⟨2, "yo", false, 6⟩, ⟨3, "hi", false, 9⟩], "hi", 9⟩

instance (op : NotificationOp) : Decidable op.asRoutesCall := by
  cases op <;> simp only [NotificationOp.asRoutesCall] <;> infer_instance

/-- A notification whose type is not in the enum. -/
def demoBadNotification : NotificationData :=
  ⟨some 2, some "unknown_type", some "Title", some "text", none, none, some 1, none, none⟩

/-- A store on which every call rejects. -/
def Db.down : Db := ⟨false, false, false, false⟩

/-- Item 7 of user 2 is available; users 1 and 2 exist; no notification yet. -/
def demoDomain : Domain :=
  ⟨[⟨7, 2, "Lamp", "available", none⟩], [⟨1, "Ann", 0⟩, ⟨2, "Bob", 0⟩], ⟨[], 0⟩⟩

/-- User 2 has one unread and one read notification, user 1 one unread notification. -/
def demoNotifications : NotificationStore :=
  ⟨[⟨0, 2, "chat_message", "t", "m", none, none, none, false, none, 1⟩,
    ⟨1, 2, "announcement", "t", "m", none, none, none, true, some 3, 2⟩,
    ⟨2, 1, "chat_message", "t", "m", none, none, none, false, none, 4⟩], 3⟩

/-- A notification is created for user 2, who reads it, then marks all read. -/
def demoNotificationOps : List NotificationOp :=
  [.create Db.up true [1, 2, 3] 9 demoNotification, .read Db.up 10 2 0, .readAll Db.up 11 2]

/-! ## The conversation list (`routes/chat.js` 11-43) -/

/-- The value of `x.toString()` for the two kinds of value that the chat routes compare:
an ObjectId prints as its hexadecimal id, a populated Mongoose document prints as the
inspection of its fields, which is never the print of an id. -/
inductive Printed where
  | objectId (id : Nat)
  | document (id : Nat)
deriving DecidableEq, Repr

/-- One entry of the list answered by `GET /api/chat/conversations`. -/
structure ConversationSummary where
  id : ChatId
  otherUser : Option UserId
  lastMessage : String
  lastMessageAt : Nat
  unreadCount : Nat
deriving DecidableEq, Repr

/-- JSON bodies of `GET /api/chat/conversations`. -/
inductive ConversationsBody where
  | failure
  | list (entries : List ConversationSummary)
deriving DecidableEq, Repr

/-- `GET /api/chat/conversations`. `users` are the ids of the existing users: populate
replaces a sender by the user document, or by `null` when there is none, and keeps of
the participants those that exist. The unread filter prints the populated sender,
lines 25-27; printing a `null` sender throws. -/
def getConversations (db : Db) (users : List UserId) (user : UserId) (s : Store) :
    Store × Nat × ConversationsBody :=
  if db.find && db.populate then
    let conversations :=
      (s.find user).insertionSort (fun a b => a.lastMessageAt ≥ b.lastMessageAt)
    if conversations.all (fun conv => conv.messages.all (fun m => users.contains m.sender)) then
      (s, 200, .list (conversations.map fun conv =>
        { id := conv.id
          otherUser := (conv.participants.filter (fun p => users.contains p)).find?
            (fun p => Printed.objectId p != Printed.objectId user)
          lastMessage := conv.lastMessage
          lastMessageAt := conv.lastMessageAt
          unreadCount := (conv.messages.filter
            (fun m => Printed.document m.sender != Printed.objectId user && !m.read)).length }))
    else (s, 500, .failure)
  else (s, 500, .failure)

/-- User 1, connected on socket 10, sends "hello" to user 2 on a fresh pair. -/
def demoHello : Op := .sendMessage Db.up 5 [(1, 10)] demoSocket ⟨none, some "hello", some 2⟩

/-- User 1 sends "hi" with its own id as `recipientId`. -/
def demoSelfSend : SendPayload := ⟨none, some "hi", some 1⟩

/-! ## Two `send-message` handlers between their awaits -/

/-- The write of `conversation.save()` as Mongoose sends it after `messages.push` and
the two assignments: one `updateOne` on `_id` carrying `$push` of the pushed messages
and `$set` of `lastMessage` and `lastMessageAt`, applied to the first document with
the id as it is stored at that moment. -/
def applyPush : List Chat → ChatId → List Message → String → Nat → List Chat
  | [], _, _, _, _ => []
  | d :: ds, id, pushed, lastMessage, lastMessageAt =>
    if d.id = id then
      { d with messages := d.messages ++ pushed, lastMessage := lastMessage,
               lastMessageAt := lastMessageAt } :: ds
    else d :: applyPush ds id pushed lastMessage lastMessageAt

/-- `conversation.save()` of a handler that pushed `pushed` and assigned the two fields. -/
def Store.savePushed (s : Store) (id : ChatId) (pushed : List Message) (lastMessage : String)
    (lastMessageAt : Nat) : Store :=
  { s with chats := applyPush s.chats id pushed lastMessage lastMessageAt }

/-- Where a `send-message` handler stands: before `await Chat.findById`, between that
await and the one of `save` (holding its in-memory document), or past the save. -/
inductive SendPhase where
  | start
  | loaded (conversation : Chat)
  | finished
deriving DecidableEq, Repr

/-- A `send-message` event that names its conversation by id and carries a text that
passes validation, on a store that answers. -/
structure SendTask where
  socket : Socket
  chatId : ChatId
  text : String
  now : Nat
deriving DecidableEq, Repr

/-- The message the handler of the task pushes. -/
def SendTask.message (t : SendTask) : Message :=
  ⟨t.socket.userId, t.text, false, t.now⟩

/-- One run of the handler from an await to the next (`server.js` 99, 117-125): the
load, after which the message is pushed in memory, then the save. A conversation that
is not found ends the handler. -/
def SendTask.advance (t : SendTask) (phase : SendPhase) (s : Store) : SendPhase × Store :=
  match phase with
  | .start =>
    match s.findById t.chatId with
    | some conversation => (.loaded (conversation.push t.socket.userId t.text t.now), s)
    | none => (.finished, s)
  | .loaded _ => (.finished, s.savePushed t.chatId [t.message] t.text t.now)
  | .finished => (.finished, s)

/-- Two handlers resumed in the order of the schedule: `true` resumes the first,
`false` the second. -/
def interleave (a b : SendTask) : List Bool → SendPhase × SendPhase × Store →
    SendPhase × SendPhase × Store
  | [], state => state
  | true :: rest, (pa, pb, s) => interleave a b rest ((a.advance pa s).1, pb, (a.advance pa s).2)
  | false :: rest, (pa, pb, s) => interleave a b rest (pa, (b.advance pb s).1, (b.advance pb s).2)

/-- The awaits a handler still has to pass. -/
def SendPhase.pending : SendPhase → Nat
  | .start => 2
  | .loaded _ => 1
  | .finished => 0

/-- A conversation after the pushes of the given messages, in order. -/
def pushAll (c : Chat) (ms : List Message) : Chat :=
  ms.foldl (fun c m => c.push m.sender m.text m.createdAt) c

/-- The messages saved so far, given where the two handlers stand. -/
def SavedSoFar (a b : SendTask) (pa pb : SendPhase) (saved : List Message) : Prop :=
  match pa, pb with
  | .finished, .finished => saved = [a.message, b.message] ∨ saved = [b.message, a.message]
  | .finished, _ => saved = [a.message]
  | _, .finished => saved = [b.message]
  | _, _ => saved = []

/-- User 1 sends "one" and user 2 sends "two" into conversation 0. -/
def demoTaskA : SendTask := ⟨⟨10, 1⟩, 0, "one", 7⟩

/-- The send of user 2 into conversation 0. -/
def demoTaskB : SendTask := ⟨⟨20, 2⟩, 0, "two", 8⟩

/-! ## Announcements (`models/Announcement.js`, `routes/announcements.js` 16-84) -/

/-- A document of the `Announcement` collection; `readBy` lists the users who read it. -/
structure Announcement where
  id : Nat
  title : String
  message : String
  createdBy : UserId
  targetAudience : String
  priority : String
  isActive : Bool
  readBy : List UserId
  createdAt : Nat
deriving DecidableEq, Repr

/-- The fields of `req.user` that the announcement routes read; `role` is one of
`'student'`, `'alumni'`, `'admin'` (`models/User.js` 37-41). -/
structure Viewer where
  id : UserId
  role : String
deriving DecidableEq, Repr

/-- An announcement as the routes answer it, with its `isRead` flag. -/
structure AnnouncementView where
  announcement : Announcement
  isRead : Bool
deriving DecidableEq, Repr

/-- JSON bodies of the announcement routes. -/
inductive AnnouncementBody where
  | message (text : String)
  | failure
  | list (views : List AnnouncementView)
  | one (view : AnnouncementView)
deriving DecidableEq, Repr

/-- Lines 39-47: the announcement with its read status for the user. -/
def Announcement.viewFor (a : Announcement) (user : Viewer) : AnnouncementView :=
  ⟨a, a.readBy.any (fun r => r == user.id)⟩

/-- `GET /api/announcements`: the query on `isActive` and `targetAudience`, newest
first, at most `limit` of them (a limit of 0 is no limit). -/
def getAnnouncements (db : Db) (limit : Nat) (user : Viewer) (all : List Announcement) :
    Nat × AnnouncementBody :=
  if db.find && db.populate then
    let found := all.filter
      (fun a => a.isActive && (a.targetAudience == "all" || a.targetAudience == user.role))
    let sorted := found.insertionSort (fun a b => a.createdAt ≥ b.createdAt)
    let announcements := if limit = 0 then sorted else sorted.take limit
    (200, .list (announcements.map (fun a => a.viewFor user)))
  else (500, .failure)

/-- `GET /api/announcements/:id`. -/
def getAnnouncement (db : Db) (user : Viewer) (id : Nat) (all : List Announcement) :
    Nat × AnnouncementBody :=
  if db.find && db.populate then
    match all.find? (fun a => a.id == id) with
    | none => (404, .message "Announcement not found")
    | some announcement =>
      if announcement.targetAudience != "all" && announcement.targetAudience != user.role then
        (403, .message "Not authorized")
      else (200, .one (announcement.viewFor user))
  else (500, .failure)

/-- The audience group of a role, after the two enums: students, alumni, admins. -/
def audienceOf (role : String) : String :=
  if role = "student" then "students"
  else if role = "admin" then "admins"
  else role

/-- Three active announcements, for the students, the alumni and the admins. -/
def demoAnnouncements : List Announcement :=
  [⟨0, "Exams", "text", 9, "students", "medium", true, [], 1⟩,
    ⟨1, "Reunion", "text", 9, "alumni", "medium", true, [], 2⟩,
    ⟨2, "Audit", "text", 9, "admins", "medium", true, [], 3⟩]

/-! ## JavaScript Numbers (`routes/wallet.js` 93-94, 125-129)

The wallet routes compute with JavaScript Numbers, that is with IEEE 754 binary64 values
under round-to-nearest, ties-to-even. -/

/-- A JavaScript Number. A finite value is `± mantissa * 2 ^ exponent` in its one
binary64 form: `mantissa < 2 ^ 53`, `-1074 ≤ exponent ≤ 971`, and `2 ^ 52 ≤ mantissa`
unless `exponent = -1074` (the subnormal values); zero is written with mantissa 0 and
exponent 0. -/
inductive Number where
  | nan
  | infinite (negative : Bool)
  | finite (negative : Bool) (mantissa : Nat) (exponent : Int)
deriving DecidableEq, Repr

/-- The number of binary digits of `n`, with `fuel` bounding the digits looked at. -/
def bitLengthAux : Nat → Nat → Nat
  | 0, _ => 0
  | fuel + 1, n => if n = 0 then 0 else bitLengthAux fuel (n / 2) + 1

/-- The number of binary digits of `n`. -/
def bitLength (n : Nat) : Nat := bitLengthAux n n

/-- The integer `floor (log2 (num / den))` for positive `num` and `den`. -/
def floorLog2 (num den : Nat) : Int :=
  let b : Int := (bitLength num : Int) - (bitLength den : Int)
  if den * 2 ^ b.toNat ≤ num * 2 ^ (-b).toNat then b else b - 1

/-- The binary64 value nearest to `± (num / den) * 2 ^ e`, for `den` positive: the
quotient is cut to 53 binary digits, or to the multiples of `2 ^ -1074` when it is in the
subnormal range, a remainder of more than half a unit rounds up, and one of exactly half
a unit rounds to the even mantissa; a result beyond the largest finite value is infinite. -/
def Number.round (negative : Bool) (num den : Nat) (e : Int) : Number :=
  if num = 0 then .finite negative 0 0
  else
    let exponent : Int := max (e + floorLog2 num den - 52) (-1074)
    let n := num * 2 ^ (e - exponent).toNat
    let d := den * 2 ^ (exponent - e).toNat
    let q := n / d
    let r := n % d
    let mantissa := if d < 2 * r ∨ (2 * r = d ∧ q % 2 = 1) then q + 1 else q
    if mantissa = 0 then .finite negative 0 0
    else if mantissa = 2 ^ 53 then
      if 971 < exponent + 1 then .infinite negative else .finite negative (2 ^ 52) (exponent + 1)
    else if 971 < exponent then .infinite negative
    else .finite negative mantissa exponent

/-- The Number of a decimal literal `± num / den`, as `JSON.parse` reads it. -/
def Number.ofDecimal (negative : Bool) (num den : Nat) : Number :=
  Number.round negative num den 0

/-- The Number of a natural number literal. -/
def Number.ofNat (n : Nat) : Number := Number.round false n 1 0

/-- Unary minus. -/
def Number.neg : Number → Number
  | .nan => .nan
  | .infinite negative => .infinite (!negative)
  | .finite negative mantissa exponent => .finite (!negative) mantissa exponent

/-- The sum `x + y`: the exact sum of two finite values, rounded; a sum that is exactly
zero is `-0` only when both terms are negative. -/
def Number.add : Number → Number → Number
  | .nan, _ => .nan
  | _, .nan => .nan
  | .infinite a, .infinite b => if a = b then .infinite a else .nan
  | .infinite a, .finite _ _ _ => .infinite a
  | .finite _ _ _, .infinite b => .infinite b
  | .finite a x ex, .finite b y ey =>
    let e := min ex ey
    let x1 := x * 2 ^ (ex - e).toNat
    let y1 := y * 2 ^ (ey - e).toNat
    if a = b then Number.round a (x1 + y1) 1 e
    else if y1 < x1 then Number.round a (x1 - y1) 1 e
    else if x1 < y1 then Number.round b (y1 - x1) 1 e
    else .finite false 0 0

/-- The difference `x - y`. -/
def Number.sub (x y : Number) : Number := x.add y.neg

/-- The quotient `x / y`. -/
def Number.div : Number → Number → Number
  | .nan, _ => .nan
  | _, .nan => .nan
  | .infinite _, .infinite _ => .nan
  | .infinite a, .finite b _ _ => .infinite (a != b)
  | .finite a _ _, .infinite b => .finite (a != b) 0 0
  | .finite a x ex, .finite b y ey =>
    if y = 0 then
      if x = 0 then .nan else .infinite (a != b)
    else Number.round (a != b) x y (ex - ey)

/-- The comparison `x < y`: false whenever an operand is `NaN`, and `-0 < 0` is false. -/
def Number.lt : Number → Number → Bool
  | .nan, _ => false
  | _, .nan => false
  | .infinite a, .infinite b => a && !b
  | .infinite a, .finite _ _ _ => a
  | .finite _ _ _, .infinite b => !b
  | .finite a x ex, .finite b y ey =>
    let e := min ex ey
    let x1 := x * 2 ^ (ex - e).toNat
    let y1 := y * 2 ^ (ey - e).toNat
    match a, b with
    | false, false => decide (x1 < y1)
    | true, true => decide (y1 < x1)
    | true, false => decide (0 < x1) || decide (0 < y1)
    | false, true => false

/-! ## Wallet (`routes/wallet.js` 66-143) -/

/-- An element of `wallet.transactions`, with the fields the routes write. -/
structure Transaction where
  type : String
  amount : Number
  description : String
  status : String
  paystackReference : Option String
deriving DecidableEq, Repr

/-- A document of the `Wallet` collection, with the fields the routes read or write. -/
structure Wallet where
  id : Nat
  user : UserId
  balance : Number
  transactions : List Transaction
deriving DecidableEq, Repr

/-- The `Wallet` collection together with the next unused document id. -/
structure WalletStore where
  wallets : List Wallet
  nextId : Nat
deriving DecidableEq, Repr

/-- Document ids are unique and below the next unused id. -/
def WalletStore.WF (w : WalletStore) : Prop :=
  (w.wallets.map Wallet.id).Nodup ∧ ∀ d ∈ w.wallets, d.id < w.nextId

instance (w : WalletStore) : Decidable w.WF := by
  unfold WalletStore.WF; infer_instance

/-- JSON bodies of the wallet routes. -/
inductive WalletBody where
  | message (text : String)
  | failure
  | success (wallet : Wallet)
deriving DecidableEq, Repr

/-- An HTTP answer of a wallet route. -/
structure WalletResponse where
  status : Nat
  body : WalletBody
deriving DecidableEq, Repr

/-- `Wallet.findOne({ user })`. -/
def WalletStore.findOne (w : WalletStore) (user : UserId) : Option Wallet :=
  w.wallets.find? (fun d => d.user == user)

/-- The write of `wallet.save()`: rewrites the first document carrying the id. -/
def saveWalletInto : List Wallet → Wallet → List Wallet
  | [], _ => []
  | d :: ds, x => if d.id = x.id then x :: ds else d :: saveWalletInto ds x

/-- The wallet as `POST /api/wallet/withdraw` writes it (`wallet.js` 129-134). -/
def Wallet.debit (found : Wallet) (amount : Number) : Wallet :=
  { found with
    balance := found.balance.sub amount
    transactions := found.transactions ++ [⟨"debit", amount, "Withdrawal", "pending", none⟩] }

/-- `POST /api/wallet/withdraw` for a body whose `amount` is a JSON number. `accepts`
stands for the validators of `models/Wallet.js`, which is not among the sources, run by
`wallet.save()`. -/
def withdraw (accepts : Wallet → Bool) (db : Db) (user : UserId) (amount : Number)
    (w : WalletStore) : WalletStore × WalletResponse :=
  if db.find then
    match w.findOne user with
    | none => (w, ⟨400, .message "Insufficient balance"⟩)
    | some found =>
      if found.balance.lt amount then (w, ⟨400, .message "Insufficient balance"⟩)
      else
        let wallet := found.debit amount
        if db.save && accepts wallet then
          ({ w with wallets := saveWalletInto w.wallets wallet }, ⟨200, .success wallet⟩)
        else (w, ⟨500, .failure⟩)
  else (w, ⟨500, .failure⟩)

/-- What `GET transaction/verify/:reference` of Paystack answers: `data.status` and
`data.amount`. -/
structure PaystackData where
  status : String
  amount : Number
deriving DecidableEq, Repr

/-- The wallet as `POST /api/wallet/verify-payment` writes it (`wallet.js` 93-101):
`paid` is `data.amount` of the verification. -/
def Wallet.credit (found : Wallet) (paid : Number) (reference : String) : Wallet :=
  { found with
    balance := found.balance.add (paid.div (Number.ofNat 100))
    transactions := found.transactions ++
      [⟨"credit", paid.div (Number.ofNat 100), "Fund added via Paystack", "completed",
        some reference⟩] }

/-- The document of `Wallet.create({ user, balance: 0 })`. -/
def WalletStore.fresh (w : WalletStore) (user : UserId) : Wallet :=
  ⟨w.nextId, user, Number.ofNat 0, []⟩

/-- The wallet that `verify-payment` credits: the wallet of the user, or the one the
route creates when the user has none. -/
def WalletStore.walletOf (w : WalletStore) (user : UserId) : Wallet :=
  (w.findOne user).getD (w.fresh user)

/-- `POST /api/wallet/verify-payment`. `paystack` stands for the verification request,
`none` when it throws; `accepts` for the validators of `models/Wallet.js`, run by
`Wallet.create` and by `wallet.save()`. -/
def verifyPayment (paystack : String → Option PaystackData) (accepts : Wallet → Bool)
    (db : Db) (user : UserId) (reference : String) (w : WalletStore) :
    WalletStore × WalletResponse :=
  match paystack reference with
  | none => (w, ⟨500, .failure⟩)
  | some data =>
    if data.status = "success" then
      if db.find then
        let credit (found : Wallet) (w1 : WalletStore) : WalletStore × WalletResponse :=
          let wallet := found.credit data.amount reference
          if db.save && accepts wallet then
            ({ w1 with wallets := saveWalletInto w1.wallets wallet }, ⟨200, .success wallet⟩)
          else (w1, ⟨500, .failure⟩)
        match w.findOne user with
        | some found => credit found w
        | none =>
          if db.create && accepts (w.fresh user) then
            credit (w.fresh user) ⟨w.wallets ++ [w.fresh user], w.nextId + 1⟩
          else (w, ⟨500, .failure⟩)
      else (w, ⟨500, .failure⟩)
    else (w, ⟨400, .message "Payment verification failed"⟩)

/-- A schema that accepts every wallet. -/
def acceptsAll : Wallet → Bool := fun _ => true

/-- Paystack reports the reference "ref-1" paid, 5000 kobo. -/
def demoPaystack : String → Option PaystackData :=
  fun reference => if reference = "ref-1" then some ⟨"success", Number.ofNat 5000⟩ else none

/-- User 1 holds a wallet with balance 100. -/
def demoWallets : WalletStore := ⟨[⟨0, 1, Number.ofNat 100, []⟩], 1⟩

/-- User 1 holds a wallet with balance 0.3, as `JSON.parse` reads that literal. -/
def demoCents : WalletStore := ⟨[⟨0, 1, Number.ofDecimal false 3 10, []⟩], 1⟩

/-! ## Store lemmas -/

theorem saveInto_length (l : List Chat) (c : Chat) : (saveInto l c).length = l.length := by
  induction l with
  | nil => rfl
  | cons d ds ih => by_cases h : d.id = c.id <;> simp [saveInto, h, ih]

theorem find?_saveInto_self (l : List Chat) (c : Chat) (h : ∃ d ∈ l, d.id = c.id) :
    (saveInto l c).find? (fun d => d.id == c.id) = some c := by
  induction l with
  | nil => simp at h
  | cons d ds ih =>
    by_cases hd : d.id = c.id
    · simp [saveInto, hd]
    · have : ∃ d ∈ ds, d.id = c.id := by
        obtain ⟨e, he, hid⟩ := h
        rcases List.mem_cons.1 he with rfl | he
        · exact absurd hid hd
        · exact ⟨e, he, hid⟩
      simp [saveInto, hd, List.find?_cons, ih this]

theorem find?_saveInto_other (l : List Chat) (c : Chat) (id : ChatId) (h : id ≠ c.id) :
    (saveInto l c).find? (fun d => d.id == id) = l.find? (fun d => d.id == id) := by
  induction l with
  | nil => rfl
  | cons d ds ih =>
    by_cases hd : d.id = c.id
    · have h1 : ¬ c.id = id := fun e => h e.symm
      have h2 : ¬ d.id = id := hd ▸ h1
      simp [saveInto, hd, List.find?_cons, h1]
    · by_cases hi : d.id = id
      · subst hi
        simp [saveInto, hd, List.find?_cons]
      · simp [saveInto, hd, List.find?_cons, hi, ih]

/-- What resolving the conversation of a send can produce: a rejection or a miss with
the store untouched, or a conversation that is stored, either found or just created. -/
theorem lookupConversation_cases (db : Db) (now : Nat) (user : UserId)
    (chatId : Option ChatId) (recipientId : Option UserId) (s : Store) :
    lookupConversation db now user chatId recipientId s = .threw s [] ∨
    lookupConversation db now user chatId recipientId s = .got none s [] ∨
    (∃ found s1 fx,
      lookupConversation db now user chatId recipientId s = .got (some found) s1 fx ∧
      found ∈ s1.chats ∧ (fx = [] ∨ fx = [.created found]) ∧
      ((s1 = s ∧ found ∈ s.chats ∧
          (s.findById found.id = some found ∨ s.findOne [user, recipientId.getD 0] = some found)) ∨
        (∃ r, chatId = none ∧ recipientId = some r ∧ s.findOne [user, r] = none ∧
          found = (s.create [user, r] now).1 ∧ s1 = (s.create [user, r] now).2))) := by
  cases chatId with
  | some c =>
    cases hf : db.find
    · simp [lookupConversation, hf]
    · cases hc : s.findById c with
      | none => simp [lookupConversation, hf, hc]
      | some found =>
        have hm : found ∈ s.chats := List.mem_of_find?_eq_some hc
        have hid : found.id = c := by
          have := List.find?_some hc
          simpa using this
        refine Or.inr (Or.inr ⟨found, s, [], by simp [lookupConversation, hf, hc], hm,
          Or.inl rfl, Or.inl ⟨rfl, hm, Or.inl ?_⟩⟩)
        rw [hid]; exact hc
  | none =>
    cases recipientId with
    | none => simp [lookupConversation]
    | some r =>
      cases hf : db.find
      · simp [lookupConversation, hf]
      · cases hc : s.findOne [user, r] with
        | some found =>
          have hm : found ∈ s.chats := List.mem_of_find?_eq_some hc
          exact Or.inr (Or.inr ⟨found, s, [], by simp [lookupConversation, hf, hc], hm,
            Or.inl rfl, Or.inl ⟨rfl, hm, Or.inr (by simpa using hc)⟩⟩)
        | none =>
          cases hcr : db.create
          · simp [lookupConversation, hf, hc, hcr]
          · refine Or.inr (Or.inr ⟨(s.create [user, r] now).1, (s.create [user, r] now).2,
              [.created (s.create [user, r] now).1], by simp [lookupConversation, hf, hc, hcr],
              ?_, Or.inr rfl, Or.inr ⟨r, rfl, rfl, hc, rfl, rfl⟩⟩)
            simp [Store.create]

/-! ## C1 -/

theorem findById_save_self (s : Store) (c : Chat) (h : ∃ d ∈ s.chats, d.id = c.id) :
    (s.save c).findById c.id = some c :=
  find?_saveInto_self s.chats c h

theorem push_id (c : Chat) (u : UserId) (t : String) (n : Nat) : (c.push u t n).id = c.id := rfl

theorem push_getLast? (c : Chat) (u : UserId) (t : String) (n : Nat) :
    (c.push u t n).messages.getLast? = some ⟨u, t, false, n⟩ := by
  simp [Chat.push]

/-- The trace of `send-message`: deliveries follow the save; a failed save leaves one
`error` emission and no write. -/
theorem sendMessage_trace_facts (db : Db) (now : Nat) (userSockets : Registry)
    (socket : Socket) (data : SendPayload) (s : Store) :
    (∀ i target ev,
        (sendMessage db now userSockets socket data s).2[i]? = some (.emit target ev) →
        ev.isDelivery = true →
        ∃ conv text, data.text = some text ∧
          Effect.saved conv ∈ (sendMessage db now userSockets socket data s).2.take i ∧
          conv.messages.getLast? = some ⟨socket.userId, text, false, now⟩ ∧
          (ev = .receiveMessage conv.id conv.messages.getLast? conv ∨
            ev = .messageSent conv.id conv.messages.getLast?) ∧
          (sendMessage db now userSockets socket data s).1.findById conv.id = some conv) ∧
    ((db.save && validText data.text) = false →
        (∃ msg, (sendMessage db now userSockets socket data s).2.filter Effect.isEmit =
            [.emit socket.id (.error msg)]) ∧
        (∀ conv, Effect.saved conv ∉ (sendMessage db now userSockets socket data s).2) ∧
        ((sendMessage db now userSockets socket data s).1.chats = s.chats ∨
          ∃ conv, conv.messages = [] ∧
            (sendMessage db now userSockets socket data s).1.chats = s.chats ++ [conv])) := by
  have htext : validText data.text = true → ∃ t, data.text = some t := by
    cases data.text <;> simp [validText]
  rcases lookupConversation_cases db now socket.userId data.chatId data.recipientId s with
    h | h | ⟨found, s1, fx, h, hmem, hfx, hst⟩
  · simp [sendMessage, h, Event.isDelivery, Effect.isEmit]
    intro i target ev hi
    rcases i with _ | i <;> simp at hi
    rcases hi with ⟨-, rfl⟩
    simp [Event.isDelivery]
  · simp [sendMessage, h, Event.isDelivery, Effect.isEmit]
    intro i target ev hi
    rcases i with _ | i <;> simp at hi
    rcases hi with ⟨-, rfl⟩
    simp [Event.isDelivery]
  · have hex : ∃ d ∈ s1.chats, d.id = found.id := ⟨found, hmem, rfl⟩
    have hchats : s1.chats = s.chats ∨ ∃ conv, conv.messages = [] ∧ s1.chats = s.chats ++ [conv] := by
      rcases hst with ⟨rfl, -⟩ | ⟨r, -, -, -, -, rfl⟩
      · exact Or.inl rfl
      · exact Or.inr ⟨_, rfl, rfl⟩
    cases hsv : (db.save && validText data.text)
    · refine ⟨?_, fun _ => ⟨?_, ?_, ?_⟩⟩
      · intro i target ev hi hdel
        rcases hfx with rfl | rfl <;> simp [sendMessage, h, hsv] at hi
        · rcases i with _ | i <;> simp at hi
          rcases hi with ⟨-, rfl⟩
          simp [Event.isDelivery] at hdel
        · rcases i with _ | _ | i <;> simp at hi
          rcases hi with ⟨-, rfl⟩
          simp [Event.isDelivery] at hdel
      · rcases hfx with rfl | rfl <;> simp [sendMessage, h, hsv, Effect.isEmit]
      · rcases hfx with rfl | rfl <;> simp [sendMessage, h, hsv]
      · simpa [sendMessage, h, hsv] using hchats
    · obtain ⟨hs, hv⟩ : db.save = true ∧ validText data.text = true := by simpa using hsv
      obtain ⟨t, ht⟩ := htext hv
      have hg : data.text.getD "" = t := by simp [ht]
      refine ⟨?_, by simp [hs, hv]⟩
      intro i target ev hi hdel
      have hfin : ((s1.save (found.push socket.userId t now)).findById
          (found.push socket.userId t now).id) = some (found.push socket.userId t now) :=
        findById_save_self _ _ hex
      cases hp : db.populate
      · rcases hfx with rfl | rfl <;> simp [sendMessage, h, hs, hv, hp, hg] at hi
        · rcases i with _ | _ | i <;> simp at hi
          rcases hi with ⟨-, rfl⟩
          simp [Event.isDelivery] at hdel
        · rcases i with _ | _ | _ | i <;> simp at hi
          rcases hi with ⟨-, rfl⟩
          simp [Event.isDelivery] at hdel
      · cases hr : data.recipientId.bind userSockets.get
        · rcases hfx with rfl | rfl <;> simp [sendMessage, h, hs, hv, hp, hg, hr] at hi
          · rcases i with _ | _ | i <;> simp at hi
            rcases hi with ⟨-, rfl⟩
            refine ⟨found.push socket.userId t now, t, ht, ?_, push_getLast? _ _ _ _, Or.inr rfl, ?_⟩
            · simp [sendMessage, h, hs, hv, hp, hg, hr]
            · simpa [sendMessage, h, hs, hv, hp, hg, hr] using hfin
          · rcases i with _ | _ | _ | i <;> simp at hi
            rcases hi with ⟨-, rfl⟩
            refine ⟨found.push socket.userId t now, t, ht, ?_, push_getLast? _ _ _ _, Or.inr rfl, ?_⟩
            · simp [sendMessage, h, hs, hv, hp, hg, hr]
            · simpa [sendMessage, h, hs, hv, hp, hg, hr] using hfin
        · rcases hfx with rfl | rfl <;> simp [sendMessage, h, hs, hv, hp, hg, hr] at hi
          · rcases i with _ | _ | _ | i <;> simp at hi
            · rcases hi with ⟨-, rfl⟩
              refine ⟨found.push socket.userId t now, t, ht, ?_, push_getLast? _ _ _ _, Or.inl rfl, ?_⟩
              · simp [sendMessage, h, hs, hv, hp, hg, hr]
              · simpa [sendMessage, h, hs, hv, hp, hg, hr] using hfin
            · rcases hi with ⟨-, rfl⟩
              refine ⟨found.push socket.userId t now, t, ht, ?_, push_getLast? _ _ _ _, Or.inr rfl, ?_⟩
              · simp [sendMessage, h, hs, hv, hp, hg, hr]
              · simpa [sendMessage, h, hs, hv, hp, hg, hr] using hfin
          · rcases i with _ | _ | _ | _ | i <;> simp at hi
            · rcases hi with ⟨-, rfl⟩
              refine ⟨found.push socket.userId t now, t, ht, ?_, push_getLast? _ _ _ _, Or.inl rfl, ?_⟩
              · simp [sendMessage, h, hs, hv, hp, hg, hr]
              · simpa [sendMessage, h, hs, hv, hp, hg, hr] using hfin
            · rcases hi with ⟨-, rfl⟩
              refine ⟨found.push socket.userId t now, t, ht, ?_, push_getLast? _ _ _ _, Or.inr rfl, ?_⟩
              · simp [sendMessage, h, hs, hv, hp, hg, hr]
              · simpa [sendMessage, h, hs, hv, hp, hg, hr] using hfin

theorem mem_filter_isEmit {fx : List Effect} {target : SocketId} {ev : Event}
    (h : Effect.emit target ev ∈ fx) : Effect.emit target ev ∈ fx.filter Effect.isEmit :=
  List.mem_filter.2 ⟨h, rfl⟩

/-- The store after a `send-message` whose save did not take place: the store as it
was, except that a send without `chatId` to a `recipientId` whose pair with the sender
had no conversation leaves the conversation that `Chat.create` stored for the pair,
without a message. -/
theorem sendMessage_failed_store (db : Db) (now : Nat) (userSockets : Registry)
    (socket : Socket) (data : SendPayload) (s : Store)
    (hfail : (db.save && validText data.text) = false) :
    (∀ r, data.chatId = none → data.recipientId = some r → db.find = true →
      db.create = true → s.findOne [socket.userId, r] = none →
      (sendMessage db now userSockets socket data s).1 =
        ⟨s.chats ++ [⟨s.nextId, [socket.userId, r], [], "", now⟩], s.nextId + 1⟩) ∧
    ((sendMessage db now userSockets socket data s).1 = s ∨
      ∃ r, data.chatId = none ∧ data.recipientId = some r ∧ db.find = true ∧
        db.create = true ∧ s.findOne [socket.userId, r] = none ∧
        (sendMessage db now userSockets socket data s).1 =
          ⟨s.chats ++ [⟨s.nextId, [socket.userId, r], [], "", now⟩], s.nextId + 1⟩) := by
  have hcreate : ∀ r, data.chatId = none → data.recipientId = some r → db.find = true →
      db.create = true → s.findOne [socket.userId, r] = none →
      (sendMessage db now userSockets socket data s).1 =
        ⟨s.chats ++ [⟨s.nextId, [socket.userId, r], [], "", now⟩], s.nextId + 1⟩ := by
    intro r hc hr hf hcr hnone
    simp [sendMessage, lookupConversation, hc, hr, hf, hcr, hnone, hfail, Store.create]
  refine ⟨hcreate, ?_⟩
  cases hc : data.chatId with
  | some c =>
    left
    cases hf : db.find
    · simp [sendMessage, lookupConversation, hc, hf]
    · cases hfound : s.findById c <;>
        simp [sendMessage, lookupConversation, hc, hf, hfound, hfail]
  | none =>
    cases hr : data.recipientId with
    | none => left; simp [sendMessage, lookupConversation, hc, hr]
    | some r =>
      cases hf : db.find
      · left; simp [sendMessage, lookupConversation, hc, hr, hf]
      · cases hfound : s.findOne [socket.userId, r] with
        | some conv =>
          left; simp [sendMessage, lookupConversation, hc, hr, hf, hfound, hfail]
        | none =>
          cases hcr : db.create
          · left; simp [sendMessage, lookupConversation, hc, hr, hf, hfound, hcr]
          · exact Or.inr ⟨r, rfl, rfl, rfl, rfl, hfound, hcreate r hc hr hf hcr hfound⟩

/-- C1, as the code has it. Durability before delivery in the `send-message` handler.
Every `receive-message` or `message-sent` emission comes after the write that saved the
conversation with the new message as its last element, and the store still holds that
conversation when the handler ends. If the save fails (the store rejects it or the text
does not pass validation), the only emission is one `error` event on the sender's own
socket, no save took place and every conversation stored before the event is unchanged.
The store itself is unchanged, except for an event without `chatId` whose `recipientId`
had no conversation with the sender, on a store that answers the lookup and the
creation: then the conversation created for the pair stays stored, without a message. -/
theorem sendMessage_durable_before_delivery (db : Db) (now : Nat) (userSockets : Registry)
    (socket : Socket) (data : SendPayload) (s : Store) :
    (∀ i target ev,
        (sendMessage db now userSockets socket data s).2[i]? = some (.emit target ev) →
        ev.isDelivery = true →
        ∃ conv text, data.text = some text ∧
          Effect.saved conv ∈ (sendMessage db now userSockets socket data s).2.take i ∧
          conv.messages.getLast? = some ⟨socket.userId, text, false, now⟩ ∧
          (ev = .receiveMessage conv.id conv.messages.getLast? conv ∨
            ev = .messageSent conv.id conv.messages.getLast?) ∧
          (sendMessage db now userSockets socket data s).1.findById conv.id = some conv) ∧
    ((db.save && validText data.text) = false →
        (∀ target ev, Effect.emit target ev ∈ (sendMessage db now userSockets socket data s).2 →
          ev.isDelivery = false ∧ target = socket.id ∧ ∃ msg, ev = .error msg) ∧
        (∃ msg, (sendMessage db now userSockets socket data s).2.filter Effect.isEmit =
            [.emit socket.id (.error msg)]) ∧
        (∀ conv, Effect.saved conv ∉ (sendMessage db now userSockets socket data s).2) ∧
        (∀ id conv, s.findById id = some conv →
          (sendMessage db now userSockets socket data s).1.findById id = some conv) ∧
        (∀ r, data.chatId = none → data.recipientId = some r → db.find = true →
          db.create = true → s.findOne [socket.userId, r] = none →
          (sendMessage db now userSockets socket data s).1 =
            ⟨s.chats ++ [⟨s.nextId, [socket.userId, r], [], "", now⟩], s.nextId + 1⟩) ∧
        ((sendMessage db now userSockets socket data s).1 = s ∨
          ∃ r, data.chatId = none ∧ data.recipientId = some r ∧ db.find = true ∧
            db.create = true ∧ s.findOne [socket.userId, r] = none ∧
            (sendMessage db now userSockets socket data s).1 =
              ⟨s.chats ++ [⟨s.nextId, [socket.userId, r], [], "", now⟩], s.nextId + 1⟩)) := by
  obtain ⟨h1, h2⟩ := sendMessage_trace_facts db now userSockets socket data s
  refine ⟨h1, fun hfail => ?_⟩
  obtain ⟨⟨msg, hmsg⟩, hsaved, hchats⟩ := h2 hfail
  obtain ⟨hcreate, hstore⟩ := sendMessage_failed_store db now userSockets socket data s hfail
  refine ⟨?_, ⟨msg, hmsg⟩, hsaved, ?_, hcreate, hstore⟩
  swap
  · intro id conv hfind
    rcases hchats with he | ⟨c, -, he⟩
    · unfold Store.findById at hfind ⊢
      rw [he]; exact hfind
    · unfold Store.findById at hfind ⊢
      rw [he, List.find?_append, hfind]
      rfl
  intro target ev hmem
  have := mem_filter_isEmit hmem
  rw [hmsg] at this
  simp only [List.mem_singleton, Effect.emit.injEq] at this
  obtain ⟨rfl, rfl⟩ := this
  exact ⟨rfl, rfl, msg, rfl⟩

/-- C1 fails on the code. The store is empty and rejects saves; user 1 sends "hi" with
`recipientId` 2. The sender gets one `error` event and nothing else is emitted, but the
store is not as before: the conversation created for the pair is stored, empty. The
same holds on a store that answers when the text is empty. -/
theorem failed_send_leaves_created_conversation :
    (sendMessage ⟨true, true, false, true⟩ 5 demoRegistry demoSocket
        ⟨none, some "hi", some 2⟩ Store.empty) =
      (⟨[⟨0, [1, 2], [], "", 5⟩], 1⟩,
        [.created ⟨0, [1, 2], [], "", 5⟩, .emit 10 (.error "Failed to send message")]) ∧
    (sendMessage ⟨true, true, false, true⟩ 5 demoRegistry demoSocket
        ⟨none, some "hi", some 2⟩ Store.empty).1 ≠ Store.empty ∧
    (sendMessage Db.up 5 demoRegistry demoSocket ⟨none, some "", some 2⟩ Store.empty).1 =
      ⟨[⟨0, [1, 2], [], "", 5⟩], 1⟩ := by
  decide

/-! ## Well-formed stores -/

theorem saveInto_map_id (l : List Chat) (c : Chat) :
    (saveInto l c).map Chat.id = l.map Chat.id := by
  induction l with
  | nil => rfl
  | cons d ds ih =>
    by_cases h : d.id = c.id
    · simp [saveInto, h]
    · simp [saveInto, h, ih]

theorem save_WF {s : Store} (hwf : s.WF) (c : Chat) : (s.save c).WF := by
  obtain ⟨hnd, hlt⟩ := hwf
  refine ⟨?_, ?_⟩
  · simpa [Store.save, saveInto_map_id] using hnd
  · intro d hd
    have hmem : d.id ∈ (saveInto s.chats c).map Chat.id := List.mem_map_of_mem _ hd
    rw [saveInto_map_id] at hmem
    obtain ⟨e, he, hid⟩ := List.mem_map.1 hmem
    have := hlt e he
    rw [hid] at this
    exact this

theorem create_WF {s : Store} (hwf : s.WF) (ps : List UserId) (now : Nat) :
    (s.create ps now).2.WF := by
  obtain ⟨hnd, hlt⟩ := hwf
  refine ⟨?_, ?_⟩
  · simp only [Store.create, List.map_append, List.map_cons, List.map_nil]
    refine List.Nodup.append hnd (List.nodup_singleton _) ?_
    intro x hx hx'
    obtain ⟨e, he, rfl⟩ := List.mem_map.1 hx
    have hlt' := hlt e he
    rw [List.mem_singleton] at hx'
    rw [hx'] at hlt'
    exact Nat.lt_irrefl _ hlt'
  · intro d hd
    simp only [Store.create, List.mem_append, List.mem_singleton] at hd ⊢
    rcases hd with hd | rfl
    · exact Nat.lt_succ_of_lt (hlt d hd)
    · exact Nat.lt_succ_self _

theorem find?_id_of_mem (l : List Chat) (hnd : (l.map Chat.id).Nodup) {c : Chat}
    (hmem : c ∈ l) : l.find? (fun d => d.id == c.id) = some c := by
  induction l with
  | nil => simp at hmem
  | cons d ds ih =>
    simp only [List.map_cons, List.nodup_cons] at hnd
    rcases List.mem_cons.1 hmem with rfl | h
    · simp
    · have hne : d.id ≠ c.id := by
        intro e
        exact hnd.1 (e ▸ List.mem_map_of_mem _ h)
      simp [List.find?_cons, hne, ih hnd.2 h]

theorem findById_of_mem {s : Store} (hwf : s.WF) {c : Chat} (hmem : c ∈ s.chats) :
    s.findById c.id = some c :=
  find?_id_of_mem s.chats hwf.1 hmem

theorem findById_nextId {s : Store} (hwf : s.WF) : s.findById s.nextId = none := by
  unfold Store.findById
  rw [List.find?_eq_none]
  intro d hd
  have hlt := hwf.2 d hd
  have hne : d.id ≠ s.nextId := Nat.ne_of_lt hlt
  simpa using hne

theorem findById_id {s : Store} {id : ChatId} {c : Chat} (h : s.findById id = some c) :
    c.id = id := by
  have := List.find?_some h
  simpa using this

theorem findById_mem {s : Store} {id : ChatId} {c : Chat} (h : s.findById id = some c) :
    c ∈ s.chats :=
  List.mem_of_find?_eq_some h

/-- The store after a handler that resolved `found`, pushed onto it and saved. -/
theorem lookup_then_save (db : Db) (now : Nat) (user : UserId) (chatId : Option ChatId)
    (recipientId : Option UserId) (s : Store) (hwf : s.WF) {found : Chat} {s1 : Store}
    {fx : List Effect}
    (hl : lookupConversation db now user chatId recipientId s = .got (some found) s1 fx)
    (sender : UserId) (t : String) (now' : Nat) :
    s1.WF ∧
    (s1.save (found.push sender t now')).findById found.id = some (found.push sender t now') ∧
    (found.push sender t now').messages = s.messagesOf found.id ++ [⟨sender, t, false, now'⟩] := by
  rcases lookupConversation_cases db now user chatId recipientId s with
    h | h | ⟨found', s1', fx', h, hmem, -, hst⟩
  · rw [h] at hl; cases hl
  · rw [h] at hl; cases hl
  · rw [h] at hl
    cases hl
    have hex : ∃ d ∈ s1.chats, d.id = (found.push sender t now').id := ⟨found, hmem, rfl⟩
    refine ⟨?_, findById_save_self _ _ hex, ?_⟩
    · rcases hst with ⟨rfl, -⟩ | ⟨r, -, -, -, -, rfl⟩
      · exact hwf
      · exact create_WF hwf _ _
    · rcases hst with ⟨rfl, hm, -⟩ | ⟨r, -, -, -, rfl, -⟩
      · simp [Store.messagesOf, findById_of_mem hwf hm, Chat.push]
      · simp [Store.messagesOf, Store.create, findById_nextId hwf, Chat.push]

theorem lookup_WF (db : Db) (now : Nat) (user : UserId) (chatId : Option ChatId)
    (recipientId : Option UserId) {s : Store} (hwf : s.WF) {found : Option Chat} {s1 : Store}
    {fx : List Effect}
    (hl : lookupConversation db now user chatId recipientId s = .got found s1 fx) : s1.WF := by
  rcases lookupConversation_cases db now user chatId recipientId s with
    h | h | ⟨found', s1', fx', h, -, -, hst⟩
  · rw [h] at hl; cases hl
  · rw [h] at hl; cases hl; exact hwf
  · rw [h] at hl; cases hl
    rcases hst with ⟨rfl, -⟩ | ⟨r, -, -, -, -, rfl⟩
    · exact hwf
    · exact create_WF hwf _ _

theorem lookup_threw_store (db : Db) (now : Nat) (user : UserId) (chatId : Option ChatId)
    (recipientId : Option UserId) {s : Store} {s1 : Store} {fx : List Effect}
    (hl : lookupConversation db now user chatId recipientId s = .threw s1 fx) :
    s1 = s ∧ fx = [] := by
  rcases lookupConversation_cases db now user chatId recipientId s with
    h | h | ⟨found', s1', fx', h, -, -, hst⟩
  · rw [h] at hl; cases hl; exact ⟨rfl, rfl⟩
  · rw [h] at hl; cases hl
  · rw [h] at hl; cases hl

theorem sendMessage_WF (db : Db) (now : Nat) (userSockets : Registry) (socket : Socket)
    (data : SendPayload) {s : Store} (hwf : s.WF) :
    (sendMessage db now userSockets socket data s).1.WF := by
  unfold sendMessage
  split
  · next s1 fx h => rw [(lookup_threw_store _ _ _ _ _ h).1]; exact hwf
  · next s1 fx h => exact lookup_WF _ _ _ _ _ hwf h
  · next found s1 fx h =>
    have := lookup_WF _ _ _ _ _ hwf h
    dsimp only
    split_ifs
    · exact save_WF this _
    · exact save_WF this _
    · exact this

theorem postMessage_WF (db : Db) (now : Nat) (user : UserId) (body : SendPayload)
    {s : Store} (hwf : s.WF) : (postMessage db now user body s).1.WF := by
  unfold postMessage
  split
  · next s1 fx h => rw [(lookup_threw_store _ _ _ _ _ h).1]; exact hwf
  · next s1 fx h =>
    have := lookup_WF _ _ _ _ _ hwf h
    split_ifs <;> exact this
  · next found s1 fx h =>
    have := lookup_WF _ _ _ _ _ hwf h
    dsimp only
    split_ifs
    · exact save_WF this _
    · exact save_WF this _
    · exact this

theorem getConversation_WF (db : Db) (now : Nat) (user userId : UserId)
    {s : Store} (hwf : s.WF) : (getConversation db now user userId s).1.WF := by
  by_cases hu : userId = user
  · simp [getConversation, hu, hwf]
  · cases hf : db.find <;> cases hp : db.populate <;> cases hc : db.create <;>
      cases ho : s.findOne [user, userId] <;>
      simp [getConversation, hu, hf, hp, hc, ho, hwf, create_WF hwf]

theorem markRead_WF (db : Db) (userSockets : Registry) (socket : Socket) (chatId : ChatId)
    {s : Store} (hwf : s.WF) : (markRead db userSockets socket chatId s).1.WF := by
  cases hf : db.find
  · simp [markRead, hf, hwf]
  · cases ho : s.findById chatId with
    | none => simp [markRead, hf, ho, hwf]
    | some found =>
      cases hs : db.save
      · simp [markRead, hf, ho, hs, hwf]
      · cases hp : (found.markRead socket.userId).participants.find?
          (fun p => p != socket.userId) with
        | none => simp [markRead, hf, ho, hs, hp, save_WF hwf]
        | some other =>
          cases hr : userSockets.get other <;>
            simp [markRead, hf, ho, hs, hp, hr, save_WF hwf]

theorem putRead_WF (db : Db) (user : UserId) (chatId : ChatId)
    {s : Store} (hwf : s.WF) : (putRead db user chatId s).1.WF := by
  cases hf : db.find
  · simp [putRead, hf, hwf]
  · cases ho : s.findById chatId with
    | none => simp [putRead, hf, ho, hwf]
    | some found =>
      cases hs : db.save <;> simp [putRead, hf, ho, hs, hwf, save_WF hwf]

theorem step_WF {s : Store} (hwf : s.WF) (op : Op) : (step s op).WF := by
  cases op with
  | sendMessage db now reg socket data => exact sendMessage_WF _ _ _ _ _ hwf
  | postMessage db now user body => exact postMessage_WF _ _ _ _ hwf
  | getConversation db now user userId => exact getConversation_WF _ _ _ _ hwf
  | markRead db reg socket chatId => exact markRead_WF _ _ _ _ hwf
  | putRead db user chatId => exact putRead_WF _ _ _ hwf

theorem empty_WF : Store.empty.WF := by
  simp [Store.WF, Store.empty]

/-- Every store reached from a well-formed one is well-formed. -/
theorem run_WF (ops : List Op) {s : Store} (hwf : s.WF) : (run ops s).WF := by
  induction ops generalizing s with
  | nil => exact hwf
  | cons op ops ih => exact ih (step_WF hwf op)

/-! ## C2 -/

/-- A `send-message` that was acknowledged resolved a conversation, passed validation,
saved, and the acknowledgement names that conversation. -/
theorem sendMessage_acked (db : Db) (now : Nat) (userSockets : Registry) (socket : Socket)
    (data : SendPayload) (s : Store) (cid : ChatId)
    (h : Op.acked s (.sendMessage db now userSockets socket data) = some cid) :
    ∃ found s1 fx t,
      lookupConversation db now socket.userId data.chatId data.recipientId s =
        .got (some found) s1 fx ∧
      data.text = some t ∧ cid = found.id ∧
      (sendMessage db now userSockets socket data s).1 = s1.save (found.push socket.userId t now) := by
  rcases lookupConversation_cases db now socket.userId data.chatId data.recipientId s with
    hl | hl | ⟨found, s1, fx, hl, -, hfx, -⟩
  · simp [Op.acked, sendMessage, hl] at h
  · simp [Op.acked, sendMessage, hl] at h
  · cases hs : db.save
    · rcases hfx with rfl | rfl <;> simp [Op.acked, sendMessage, hl, hs] at h
    · cases hv : validText data.text
      · rcases hfx with rfl | rfl <;> simp [Op.acked, sendMessage, hl, hs, hv] at h
      · cases hp : db.populate
        · rcases hfx with rfl | rfl <;> simp [Op.acked, sendMessage, hl, hs, hv, hp] at h
        · obtain ⟨t, ht⟩ : ∃ t, data.text = some t := by
            cases hd : data.text with
            | none => simp [hd, validText] at hv
            | some t => exact ⟨t, rfl⟩
          have hg : data.text.getD "" = t := by simp [ht]
          refine ⟨found, s1, fx, t, hl, ht, ?_, by simp [sendMessage, hl, hs, hv, hp, hg]⟩
          cases hr : data.recipientId.bind userSockets.get <;>
            rcases hfx with rfl | rfl <;>
            simp [Op.acked, sendMessage, hl, hs, hv, hp, hr, Chat.push] at h <;>
            exact h.symm

/-- A `POST /api/chat/message` answered 200 resolved a conversation, passed validation
and saved; the answer carries that conversation. -/
theorem postMessage_acked (db : Db) (now : Nat) (user : UserId)
    (body : SendPayload) (s : Store) (cid : ChatId)
    (h : Op.acked s (.postMessage db now user body) = some cid) :
    ∃ found s1 fx t,
      lookupConversation db now user body.chatId body.recipientId s =
        .got (some found) s1 fx ∧
      body.text = some t ∧ cid = found.id ∧
      (postMessage db now user body s).1 = s1.save (found.push user t now) := by
  rcases lookupConversation_cases db now user body.chatId body.recipientId s with
    hl | hl | ⟨found, s1, fx, hl, -, -, -⟩
  · simp [Op.acked, postMessage, hl] at h
  · cases hc : body.chatId <;> rw [hc] at hl <;> simp [Op.acked, postMessage, hl, hc] at h
  · cases hs : db.save
    · simp [Op.acked, postMessage, hl, hs] at h
    · cases hv : validText body.text
      · simp [Op.acked, postMessage, hl, hs, hv] at h
      · cases hp : db.populate
        · simp [Op.acked, postMessage, hl, hs, hv, hp] at h
        · obtain ⟨t, ht⟩ : ∃ t, body.text = some t := by
            cases hd : body.text with
            | none => simp [hd, validText] at hv
            | some t => exact ⟨t, rfl⟩
          have hg : body.text.getD "" = t := by simp [ht]
          refine ⟨found, s1, fx, t, hl, ht, ?_, by simp [postMessage, hl, hs, hv, hp, hg]⟩
          simp [Op.acked, postMessage, hl, hs, hv, hp, Chat.push] at h
          exact h.symm

/-- One successful send appends exactly the submitted message. -/
theorem send_appends_one {s : Store} (hwf : s.WF) (op : Op) (cid : ChatId)
    (h : op.acked s = some cid) :
    ∃ conv msg, op.submitted = some msg ∧ (step s op).findById cid = some conv ∧
      conv.messages = s.messagesOf cid ++ [msg] ∧ conv.lastMessage = msg.text := by
  cases op with
  | sendMessage db now reg socket data =>
    obtain ⟨found, s1, fx, t, hl, ht, rfl, hst⟩ := sendMessage_acked _ _ _ _ _ _ _ h
    obtain ⟨-, h1, h2⟩ := lookup_then_save _ _ _ _ _ s hwf hl socket.userId t now
    exact ⟨_, _, by simp [Op.submitted, ht], by simpa [step, hst] using h1, h2, rfl⟩
  | postMessage db now user body =>
    obtain ⟨found, s1, fx, t, hl, ht, rfl, hst⟩ := postMessage_acked _ _ _ _ _ _ h
    obtain ⟨-, h1, h2⟩ := lookup_then_save _ _ _ _ _ s hwf hl user t now
    exact ⟨_, _, by simp [Op.submitted, ht], by simpa [step, hst] using h1, h2, rfl⟩
  | getConversation db now user userId => simp [Op.acked] at h
  | markRead db reg socket chatId => simp [Op.acked] at h
  | putRead db user chatId => simp [Op.acked] at h

/-- C2. Append postcondition of a successful send, by socket (`send-message`
acknowledged with `message-sent`) or by `POST /api/chat/message` (answered 200), on a
store whose ids are unique. The conversation's stored messages afterwards are its
previous messages, unchanged and in order, followed by one new message whose sender is
the sending user, whose text is the submitted text and whose read flag is false, and
`lastMessage` is the submitted text. Hence after two successive successful sends into
the same conversation its messages end with the two submitted messages in that order
and `lastMessage` is the second text. -/
theorem send_appends (s : Store) (hwf : s.WF) :
    (∀ op cid, op.acked s = some cid →
      ∃ conv msg, op.submitted = some msg ∧ msg.read = false ∧
        (step s op).findById cid = some conv ∧
        conv.messages = s.messagesOf cid ++ [msg] ∧ conv.lastMessage = msg.text) ∧
    (∀ op1 op2 cid, op1.acked s = some cid → op2.acked (step s op1) = some cid →
      ∃ conv m1 m2, op1.submitted = some m1 ∧ op2.submitted = some m2 ∧
        (step (step s op1) op2).findById cid = some conv ∧
        conv.messages = s.messagesOf cid ++ [m1, m2] ∧ conv.lastMessage = m2.text) := by
  have hread : ∀ (op : Op) msg, op.submitted = some msg → msg.read = false := by
    intro op msg hm
    cases op <;> simp [Op.submitted] at hm
    · obtain ⟨t, -, rfl⟩ := hm; rfl
    · obtain ⟨t, -, rfl⟩ := hm; rfl
  constructor
  · intro op cid h
    obtain ⟨conv, msg, h1, h2, h3, h4⟩ := send_appends_one hwf op cid h
    exact ⟨conv, msg, h1, hread op msg h1, h2, h3, h4⟩
  · intro op1 op2 cid h1 h2
    obtain ⟨c1, m1, hm1, hf1, hmsg1, -⟩ := send_appends_one hwf op1 cid h1
    obtain ⟨c2, m2, hm2, hf2, hmsg2, hlast⟩ := send_appends_one (step_WF hwf op1) op2 cid h2
    refine ⟨c2, m1, m2, hm1, hm2, hf2, ?_, hlast⟩
    rw [hmsg2]
    simp [Store.messagesOf, hf1, hmsg1]

/-! ## C3 and C4 -/

/-- The handler on its success path: the save, then the optional push to the socket
registered under the payload's `recipientId`, then the acknowledgement. -/
theorem sendMessage_success (db : Db) (now : Nat) (userSockets : Registry) (socket : Socket)
    (data : SendPayload) (s : Store) {found : Chat} {s1 : Store} {fx : List Effect}
    (hl : lookupConversation db now socket.userId data.chatId data.recipientId s =
      .got (some found) s1 fx)
    (hs : db.save = true) (hv : validText data.text = true) (hp : db.populate = true) :
    sendMessage db now userSockets socket data s =
      (s1.save (found.push socket.userId (data.text.getD "") now),
        fx ++ [.saved (found.push socket.userId (data.text.getD "") now)] ++
          (match data.recipientId.bind userSockets.get with
            | some recipientSocketId =>
              [.emit recipientSocketId
                (.receiveMessage (found.push socket.userId (data.text.getD "") now).id
                  (found.push socket.userId (data.text.getD "") now).messages.getLast?
                  (found.push socket.userId (data.text.getD "") now))]
            | none => []) ++
          [.emit socket.id
            (.messageSent (found.push socket.userId (data.text.getD "") now).id
              (found.push socket.userId (data.text.getD "") now).messages.getLast?)]) := by
  simp [sendMessage, hl, hs, hv, hp]

/-- A save in the trace of `send-message` means the resolution succeeded, the store
accepted the write and the text passed validation. -/
theorem sendMessage_saved (db : Db) (now : Nat) (userSockets : Registry) (socket : Socket)
    (data : SendPayload) (s : Store) (conv : Chat)
    (h : Effect.saved conv ∈ (sendMessage db now userSockets socket data s).2) :
    ∃ found s1 fx,
      lookupConversation db now socket.userId data.chatId data.recipientId s =
        .got (some found) s1 fx ∧
      found ∈ s1.chats ∧ (fx = [] ∨ fx = [.created found]) ∧
      db.save = true ∧ validText data.text = true ∧
      conv = found.push socket.userId (data.text.getD "") now := by
  rcases lookupConversation_cases db now socket.userId data.chatId data.recipientId s with
    hl | hl | ⟨found, s1, fx, hl, hmem, hfx, -⟩
  · simp [sendMessage, hl] at h
  · simp [sendMessage, hl] at h
  · cases hs : db.save
    · rcases hfx with rfl | rfl <;> simp [sendMessage, hl, hs] at h
    · cases hv : validText data.text
      · rcases hfx with rfl | rfl <;> simp [sendMessage, hl, hs, hv] at h
      · refine ⟨found, s1, fx, hl, hmem, hfx, rfl, rfl, ?_⟩
        cases hp : db.populate
        · rcases hfx with rfl | rfl <;> simpa [sendMessage, hl, hs, hv, hp] using h
        · rw [sendMessage_success db now userSockets socket data s hl hs hv hp] at h
          cases hr : data.recipientId.bind userSockets.get <;>
            rcases hfx with rfl | rfl <;> simpa [hr] using h

/-- The `receive-message` emissions of a successful `send-message`: one to the socket
registered under the payload's `recipientId`, none when the payload has no
`recipientId` or the registry has no entry for it. -/
theorem sendMessage_receive_emissions (db : Db) (now : Nat) (userSockets : Registry)
    (socket : Socket) (data : SendPayload) (s : Store) (conv : Chat)
    (h : Effect.saved conv ∈ (sendMessage db now userSockets socket data s).2)
    (hp : db.populate = true) :
    (sendMessage db now userSockets socket data s).2.filter Effect.isReceiveMessage =
      match data.recipientId.bind userSockets.get with
      | some recipientSocketId =>
        [.emit recipientSocketId (.receiveMessage conv.id conv.messages.getLast? conv)]
      | none => [] := by
  obtain ⟨found, s1, fx, hl, -, hfx, hs, hv, rfl⟩ := sendMessage_saved _ _ _ _ _ _ _ h
  rw [sendMessage_success db now userSockets socket data s hl hs hv hp]
  cases hr : data.recipientId.bind userSockets.get <;>
    rcases hfx with rfl | rfl <;> simp [Effect.isReceiveMessage]

/-- C3, evaluated on the code. Conversation 0 is between users 1 and 2 and user 2 is
registered under socket 20. User 1 sends "hi" naming the conversation by `chatId`
alone: the message is saved and acknowledged, and `GET /api/chat/messages/0` returns
it to user 2, but no `receive-message` event is emitted; the same send carrying
`recipientId` 2 emits one to socket 20. -/
theorem sendMessage_chatId_alone_not_delivered :
    demoRegistry.get 2 = some 20 ∧
    (sendMessage Db.up 5 demoRegistry demoSocket ⟨some 0, some "hi", none⟩ demoStore).2 =
      [.saved ⟨0, [1, 2], [⟨1, "hi", false, 5⟩], "hi", 5⟩,
        .emit 10 (.messageSent 0 (some ⟨1, "hi", false, 5⟩))] ∧
    (sendMessage Db.up 5 demoRegistry demoSocket ⟨some 0, some "hi", none⟩
      demoStore).2.filter Effect.isReceiveMessage = [] ∧
    (getMessages Db.up 2 0
      (sendMessage Db.up 5 demoRegistry demoSocket ⟨some 0, some "hi", none⟩ demoStore).1).2 =
      ⟨200, .messages [⟨1, "hi", false, 5⟩]⟩ ∧
    (sendMessage Db.up 5 demoRegistry demoSocket ⟨some 0, some "hi", some 2⟩
      demoStore).2.filter Effect.isReceiveMessage =
      [.emit 20 (.receiveMessage 0 (some ⟨1, "hi", false, 5⟩)
        ⟨0, [1, 2], [⟨1, "hi", false, 5⟩], "hi", 5⟩)] := by
  decide

/-- When the two populate queries after the save answer, a `send-message` whose message
was persisted emits exactly one `message-sent` event, on the sender's own socket,
carrying the conversation id and the last element of the stored messages, which is the
submitted message; the registry is arbitrary. -/
theorem sendMessage_populated (db : Db) (now : Nat) (userSockets : Registry)
    (socket : Socket) (data : SendPayload) (s : Store) (conv : Chat)
    (hsaved : Effect.saved conv ∈ (sendMessage db now userSockets socket data s).2)
    (hp : db.populate = true) :
    (sendMessage db now userSockets socket data s).2.filter Effect.isMessageSent =
      [.emit socket.id (.messageSent conv.id conv.messages.getLast?)] ∧
    (sendMessage db now userSockets socket data s).1.findById conv.id = some conv ∧
    ∃ text, data.text = some text ∧
      conv.messages.getLast? = some ⟨socket.userId, text, false, now⟩ := by
  obtain ⟨found, s1, fx, hl, hmem, hfx, hs, hv, rfl⟩ := sendMessage_saved _ _ _ _ _ _ _ hsaved
  obtain ⟨t, ht⟩ : ∃ t, data.text = some t := by
    cases hd : data.text with
    | none => simp [hd, validText] at hv
    | some t => exact ⟨t, rfl⟩
  have hex : ∃ d ∈ s1.chats, d.id = (found.push socket.userId (data.text.getD "") now).id :=
    ⟨found, hmem, rfl⟩
  rw [sendMessage_success db now userSockets socket data s hl hs hv hp]
  refine ⟨?_, findById_save_self _ _ hex, t, ht, ?_⟩
  · cases hr : data.recipientId.bind userSockets.get <;>
      rcases hfx with rfl | rfl <;> simp [Effect.isMessageSent]
  · simp [ht, Chat.push]

/-- When a populate query after the save rejects, the message stays stored and the
sender receives `error` instead of `message-sent`. -/
theorem sendMessage_populate_rejected (db : Db) (now : Nat) (userSockets : Registry)
    (socket : Socket) (data : SendPayload) (s : Store) (conv : Chat)
    (hsaved : Effect.saved conv ∈ (sendMessage db now userSockets socket data s).2)
    (hp : db.populate = false) :
    (sendMessage db now userSockets socket data s).2.filter Effect.isEmit =
      [.emit socket.id (.error "Failed to send message")] ∧
    (sendMessage db now userSockets socket data s).1.findById conv.id = some conv := by
  obtain ⟨found, s1, fx, hl, hmem, hfx, hs, hv, rfl⟩ := sendMessage_saved _ _ _ _ _ _ _ hsaved
  have hex : ∃ d ∈ s1.chats, d.id = (found.push socket.userId (data.text.getD "") now).id :=
    ⟨found, hmem, rfl⟩
  have hst : (sendMessage db now userSockets socket data s).1 =
      s1.save (found.push socket.userId (data.text.getD "") now) := by
    simp [sendMessage, hl, hs, hv, hp]
  refine ⟨?_, by rw [hst]; exact findById_save_self _ _ hex⟩
  rcases hfx with rfl | rfl <;> simp [sendMessage, hl, hs, hv, hp, Effect.isEmit]

/-- C4, as the code has it. For a `send-message` whose message was persisted, the store
holds the conversation with the submitted message as its last element. When the two
populate queries that follow the save answer, exactly one `message-sent` event is
emitted, on the sender's own socket, carrying the conversation id and that message,
whatever the registry holds. When one of them rejects, the message stays stored, the
only emission is one `error` event on the sender's socket, and no `message-sent` is
emitted. -/
theorem sendMessage_acknowledges_sender (db : Db) (now : Nat) (userSockets : Registry)
    (socket : Socket) (data : SendPayload) (s : Store) (conv : Chat)
    (hsaved : Effect.saved conv ∈ (sendMessage db now userSockets socket data s).2) :
    (sendMessage db now userSockets socket data s).1.findById conv.id = some conv ∧
    (∃ text, data.text = some text ∧
      conv.messages.getLast? = some ⟨socket.userId, text, false, now⟩) ∧
    (db.populate = true →
      (sendMessage db now userSockets socket data s).2.filter Effect.isMessageSent =
        [.emit socket.id (.messageSent conv.id conv.messages.getLast?)]) ∧
    (db.populate = false →
      (sendMessage db now userSockets socket data s).2.filter Effect.isEmit =
          [.emit socket.id (.error "Failed to send message")] ∧
      (sendMessage db now userSockets socket data s).2.filter Effect.isMessageSent = []) := by
  cases hp : db.populate
  · obtain ⟨hemit, hstored⟩ := sendMessage_populate_rejected db now userSockets socket data s
      conv hsaved hp
    obtain ⟨found, s1, fx, hl, hmem, hfx, hs, hv, rfl⟩ :=
      sendMessage_saved _ _ _ _ _ _ _ hsaved
    have htext : ∃ t, data.text = some t := by
      cases ht : data.text with
      | none => simp [ht, validText] at hv
      | some t => exact ⟨t, rfl⟩
    obtain ⟨t, ht⟩ := htext
    refine ⟨hstored, ⟨t, ht, by simp [ht, Chat.push]⟩, fun h => by simp at h, fun _ => ⟨hemit, ?_⟩⟩
    rcases hfx with rfl | rfl <;>
      simp [sendMessage, hl, hs, hv, hp, Effect.isMessageSent]
  · obtain ⟨hsent, hstored, htext⟩ := sendMessage_populated db now userSockets socket data s
      conv hsaved hp
    exact ⟨hstored, htext, fun _ => hsent, fun h => by simp at h⟩

/-- C4 fails on the code. The store answers the save and rejects the populate queries
that follow it; user 1 sends "hi" into conversation 0 while user 2 is connected. The
message is persisted, and the sender gets an `error` event and no `message-sent`. -/
theorem persisted_send_not_acknowledged :
    sendMessage ⟨true, true, true, false⟩ 5 demoRegistry demoSocket demoSend demoStore =
      (⟨[demoSaved], 1⟩,
        [.saved demoSaved, .emit 10 (.error "Failed to send message")]) ∧
    demoSaved.messages = [⟨1, "hi", false, 5⟩] ∧
    (sendMessage ⟨true, true, true, false⟩ 5 demoRegistry demoSocket demoSend
      demoStore).2.filter Effect.isMessageSent = [] := by
  decide

/-! ## C5 -/

theorem saveInto_map_participants (l : List Chat) (c : Chat)
    (h : ∀ d ∈ l, d.id = c.id → d.participants = c.participants) :
    (saveInto l c).map Chat.participants = l.map Chat.participants := by
  induction l with
  | nil => rfl
  | cons d ds ih =>
    by_cases hd : d.id = c.id
    · simp [saveInto, hd, h d (List.mem_cons_self _ _) hd]
    · simp [saveInto, hd, ih (fun e he => h e (List.mem_cons_of_mem _ he))]

theorem eq_of_id_eq {s : Store} (hwf : s.WF) {c d : Chat} (hc : c ∈ s.chats)
    (hd : d ∈ s.chats) (h : d.id = c.id) : d = c := by
  have h1 := findById_of_mem hwf hc
  have h2 := findById_of_mem hwf hd
  rw [h, h1] at h2
  exact (Option.some.inj h2).symm

/-- Saving a conversation that keeps the participants of the stored one keeps the
participants column of the collection. -/
theorem save_map_participants {s : Store} (hwf : s.WF) {found : Chat} (hmem : found ∈ s.chats)
    (c : Chat) (hid : c.id = found.id) (hps : c.participants = found.participants) :
    (s.save c).chats.map Chat.participants = s.chats.map Chat.participants := by
  apply saveInto_map_participants
  intro d hd hdc
  rw [eq_of_id_eq hwf hmem hd (hdc.trans hid), hps]

theorem lookup_participants (db : Db) (now : Nat) (user : UserId) (chatId : Option ChatId)
    (recipientId : Option UserId) (s : Store) {found : Option Chat} {s1 : Store}
    {fx : List Effect}
    (hl : lookupConversation db now user chatId recipientId s = .got found s1 fx) :
    ParticipantsStep s s1 := by
  rcases lookupConversation_cases db now user chatId recipientId s with
    h | h | ⟨found', s1', fx', h, -, -, hst⟩
  · rw [h] at hl; cases hl
  · rw [h] at hl; cases hl; exact Or.inl rfl
  · rw [h] at hl; cases hl
    rcases hst with ⟨rfl, -⟩ | ⟨r, -, -, hnone, -, rfl⟩
    · exact Or.inl rfl
    · exact Or.inr ⟨user, r, hnone, by simp [Store.create]⟩

theorem push_save_participants (db : Db) (now : Nat) (user : UserId)
    (chatId : Option ChatId) (recipientId : Option UserId) {s : Store} (hwf : s.WF)
    {found : Chat} {s1 : Store} {fx : List Effect}
    (hl : lookupConversation db now user chatId recipientId s = .got (some found) s1 fx)
    (sender : UserId) (t : String) (now' : Nat) :
    ParticipantsStep s (s1.save (found.push sender t now')) := by
  have hwf1 := lookup_WF _ _ _ _ _ hwf hl
  have hstep := lookup_participants _ _ _ _ _ s hl
  have hmem : found ∈ s1.chats := by
    rcases lookupConversation_cases db now user chatId recipientId s with
      h | h | ⟨found', s1', fx', h, hm, -, -⟩
    · rw [h] at hl; cases hl
    · rw [h] at hl; cases hl
    · rw [h] at hl; cases hl; exact hm
  have := save_map_participants hwf1 hmem (found.push sender t now') rfl rfl
  unfold ParticipantsStep at *
  rw [this]
  exact hstep

theorem sendMessage_participants (db : Db) (now : Nat) (userSockets : Registry)
    (socket : Socket) (data : SendPayload) {s : Store} (hwf : s.WF) :
    ParticipantsStep s (sendMessage db now userSockets socket data s).1 := by
  unfold sendMessage
  split
  · next s1 fx h => rw [(lookup_threw_store _ _ _ _ _ h).1]; exact Or.inl rfl
  · next s1 fx h => exact lookup_participants _ _ _ _ _ s h
  · next found s1 fx h =>
    dsimp only
    split_ifs
    · exact push_save_participants _ _ _ _ _ hwf h _ _ _
    · exact push_save_participants _ _ _ _ _ hwf h _ _ _
    · exact lookup_participants _ _ _ _ _ s h

theorem postMessage_participants (db : Db) (now : Nat) (user : UserId)
    (body : SendPayload) {s : Store} (hwf : s.WF) :
    ParticipantsStep s (postMessage db now user body s).1 := by
  unfold postMessage
  split
  · next s1 fx h => rw [(lookup_threw_store _ _ _ _ _ h).1]; exact Or.inl rfl
  · next s1 fx h =>
    have := lookup_participants _ _ _ _ _ s h
    split_ifs <;> exact this
  · next found s1 fx h =>
    dsimp only
    split_ifs
    · exact push_save_participants _ _ _ _ _ hwf h _ _ _
    · exact push_save_participants _ _ _ _ _ hwf h _ _ _
    · exact lookup_participants _ _ _ _ _ s h

theorem getConversation_participants (db : Db) (now : Nat) (user userId : UserId)
    (s : Store) : ParticipantsStep s (getConversation db now user userId s).1 := by
  by_cases hu : userId = user
  · simp [getConversation, hu, ParticipantsStep]
  · cases hf : db.find <;> cases hp : db.populate <;> cases hc : db.create <;>
      cases ho : s.findOne [user, userId] <;>
      simp [getConversation, hu, hf, hp, hc, ho, ParticipantsStep, Store.create]

theorem markRead_save_participants {s : Store} (hwf : s.WF) {chatId : ChatId} {found : Chat}
    (h : s.findById chatId = some found) (reader : UserId) :
    ParticipantsStep s (s.save (found.markRead reader)) :=
  Or.inl (save_map_participants hwf (findById_mem h) _ rfl rfl)

theorem markRead_participants (db : Db) (userSockets : Registry) (socket : Socket)
    (chatId : ChatId) {s : Store} (hwf : s.WF) :
    ParticipantsStep s (markRead db userSockets socket chatId s).1 := by
  cases hf : db.find
  · simp [markRead, hf, ParticipantsStep]
  · cases ho : s.findById chatId with
    | none => simp [markRead, hf, ho, ParticipantsStep]
    | some found =>
      have := markRead_save_participants hwf ho socket.userId
      cases hs : db.save
      · simp [markRead, hf, ho, hs, ParticipantsStep]
      · cases hp : (found.markRead socket.userId).participants.find?
          (fun p => p != socket.userId) with
        | none => simpa [markRead, hf, ho, hs, hp] using this
        | some other =>
          cases hr : userSockets.get other <;> simpa [markRead, hf, ho, hs, hp, hr] using this

theorem putRead_participants (db : Db) (user : UserId) (chatId : ChatId)
    {s : Store} (hwf : s.WF) : ParticipantsStep s (putRead db user chatId s).1 := by
  cases hf : db.find
  · simp [putRead, hf, ParticipantsStep]
  · cases ho : s.findById chatId with
    | none => simp [putRead, hf, ho, ParticipantsStep]
    | some found =>
      have := markRead_save_participants hwf ho user
      cases hs : db.save
      · simp [putRead, hf, ho, hs, ParticipantsStep]
      · simpa [putRead, hf, ho, hs] using this

theorem step_participants {s : Store} (hwf : s.WF) (op : Op) :
    ParticipantsStep s (step s op) := by
  cases op with
  | sendMessage db now reg socket data => exact sendMessage_participants _ _ _ _ _ hwf
  | postMessage db now user body => exact postMessage_participants _ _ _ _ hwf
  | getConversation db now user userId => exact getConversation_participants _ _ _ _ _
  | markRead db reg socket chatId => exact markRead_participants _ _ _ _ hwf
  | putRead db user chatId => exact putRead_participants _ _ _ hwf

theorem pairwise_samePair_iff (l : List Chat) :
    l.Pairwise (fun c d => samePair c d = false) ↔
      (l.map Chat.participants).Pairwise
        (fun p q => (p.all (fun u => q.contains u) && q.all (fun u => p.contains u)) = false) := by
  rw [List.pairwise_map]
  rfl

theorem findOne_none_iff (s : Store) (a b : UserId) :
    s.findOne [a, b] = none ↔
      ∀ c ∈ s.chats, ¬ (c.participants.contains a = true ∧ c.participants.contains b = true) := by
  simp [Store.findOne, List.find?_eq_none]

theorem pairwise_step {s s' : Store} (hstep : ParticipantsStep s s')
    (h : s.chats.Pairwise (fun c d => samePair c d = false)) :
    s'.chats.Pairwise (fun c d => samePair c d = false) := by
  rw [pairwise_samePair_iff] at h ⊢
  rcases hstep with he | ⟨a, b, hnone, he⟩
  · rw [he]; exact h
  · rw [he, List.pairwise_append]
    refine ⟨h, List.pairwise_singleton _ _, ?_⟩
    intro p hp q hq
    rw [List.mem_singleton] at hq
    subst hq
    obtain ⟨c, hc, rfl⟩ := List.mem_map.1 hp
    have := (findOne_none_iff s a b).1 hnone c hc
    cases h1 : c.participants.contains a <;> cases h2 : c.participants.contains b <;>
      simp_all

theorem run_pairwise (ops : List Op) {s : Store} (hwf : s.WF)
    (h : s.chats.Pairwise (fun c d => samePair c d = false)) :
    (run ops s).chats.Pairwise (fun c d => samePair c d = false) := by
  induction ops generalizing s with
  | nil => exact h
  | cons op ops ih => exact ih (step_WF hwf op) (pairwise_step (step_participants hwf op) h)

theorem findOne_comm (s : Store) (a b : UserId) : s.findOne [a, b] = s.findOne [b, a] := by
  unfold Store.findOne
  congr 1
  funext d
  simp [Bool.and_comm]

theorem findOne_create (s : Store) (a b : UserId) (now : Nat) (h : s.findOne [a, b] = none) :
    (s.create [a, b] now).2.findOne [b, a] = some (s.create [a, b] now).1 := by
  rw [findOne_comm] at h
  unfold Store.findOne at h ⊢
  simp only [Store.create, List.find?_append, h, Option.none_or]
  simp

theorem countP_isBetween_eq (l l' : List Chat) (a b : UserId)
    (h : l'.map Chat.participants = l.map Chat.participants) :
    l'.countP (fun c => c.isBetween a b) = l.countP (fun c => c.isBetween a b) := by
  have key : ∀ m : List Chat, m.countP (fun c => c.isBetween a b) =
      (m.map Chat.participants).countP
        (fun ps => ps.all (fun u => u == a || u == b) && ps.contains a && ps.contains b) := by
    intro m
    rw [List.countP_map]
    rfl
  rw [key, key, h]

theorem countP_isBetween_zero (s : Store) (a b : UserId) (h : s.findOne [a, b] = none) :
    s.chats.countP (fun c => c.isBetween a b) = 0 := by
  rw [List.countP_eq_zero]
  intro c hc
  have := (findOne_none_iff s a b).1 h c hc
  simp only [Chat.isBetween, Bool.and_eq_true]
  intro hh
  exact this ⟨hh.1.2, hh.2⟩

theorem countP_isBetween_succ (l l' : List Chat) (a b : UserId)
    (h : l'.map Chat.participants = l.map Chat.participants ++ [[a, b]]) :
    l'.countP (fun c => c.isBetween a b) = l.countP (fun c => c.isBetween a b) + 1 := by
  have key : ∀ m : List Chat, m.countP (fun c => c.isBetween a b) =
      (m.map Chat.participants).countP
        (fun ps => ps.all (fun u => u == a || u == b) && ps.contains a && ps.contains b) := by
    intro m
    rw [List.countP_map]
    rfl
  rw [key, key, h, List.countP_append]
  simp

/-- A send by `recipientId` alone, on a store that answers and holds no conversation
for the pair, leaves the participants column of the store followed by the new pair. -/
theorem send_creates_column (db : Db) (now : Nat) (user : UserId) (recipient : UserId)
    {s : Store} (hwf : s.WF) (hf : db.find = true) (hc : db.create = true)
    (hnone : s.findOne [user, recipient] = none) :
    (∀ userSockets socketId text,
      (sendMessage db now userSockets ⟨socketId, user⟩ ⟨none, text, some recipient⟩ s).1.chats.map
        Chat.participants = s.chats.map Chat.participants ++ [[user, recipient]]) ∧
    (∀ text,
      (postMessage db now user ⟨none, text, some recipient⟩ s).1.chats.map
        Chat.participants = s.chats.map Chat.participants ++ [[user, recipient]]) := by
  have hl : lookupConversation db now user none (some recipient) s =
      .got (some (s.create [user, recipient] now).1) (s.create [user, recipient] now).2
        [.created (s.create [user, recipient] now).1] := by
    simp [lookupConversation, hf, hc, hnone]
  have hwf1 : (s.create [user, recipient] now).2.WF := create_WF hwf _ _
  have hmem : (s.create [user, recipient] now).1 ∈ (s.create [user, recipient] now).2.chats := by
    simp [Store.create]
  have hcol : (s.create [user, recipient] now).2.chats.map Chat.participants =
      s.chats.map Chat.participants ++ [[user, recipient]] := by
    simp [Store.create]
  have hsave : ∀ sender t now',
      ((s.create [user, recipient] now).2.save
        ((s.create [user, recipient] now).1.push sender t now')).chats.map Chat.participants =
      s.chats.map Chat.participants ++ [[user, recipient]] := by
    intro sender t now'
    rw [save_map_participants hwf1 hmem
      ((s.create [user, recipient] now).1.push sender t now') rfl rfl, hcol]
  constructor
  · intro userSockets socketId text
    cases hs : db.save <;> cases hv : validText text <;> cases hp : db.populate <;>
      simp only [sendMessage, hl, hs, hv, hp, Bool.and_self, Bool.and_true, Bool.and_false,
        Bool.false_eq_true, if_true, if_false, hcol, hsave]
  · intro text
    cases hs : db.save <;> cases hv : validText text <;> cases hp : db.populate <;>
      simp only [postMessage, hl, hs, hv, hp, Bool.and_self, Bool.and_true, Bool.and_false,
        Bool.false_eq_true, if_true, if_false, hcol, hsave]

/-- C5. Uniqueness of conversations per unordered pair. In every store reached from
the empty one by a sequential series of chat operations (sends by socket or by POST,
get-or-create calls, read marks, whatever their arguments), no two stored
conversations have the same participant set; the lookup by pair does not depend on
the order of the pair, and a conversation created for (A,B) is found for (B,A); a send
by `recipientId` (by socket or by POST) on a store that answers and holds no
conversation for the pair leaves exactly one stored conversation between the two. -/
theorem conversation_unique_per_pair (ops : List Op) :
    (run ops Store.empty).chats.Pairwise (fun c d => samePair c d = false) ∧
    (∀ a b, (run ops Store.empty).findOne [a, b] = (run ops Store.empty).findOne [b, a]) ∧
    (∀ a b now, (run ops Store.empty).findOne [a, b] = none →
      ((run ops Store.empty).create [a, b] now).2.findOne [b, a] =
        some ((run ops Store.empty).create [a, b] now).1) ∧
    (∀ db now userSockets socketId a b text, db.find = true → db.create = true →
      (run ops Store.empty).findOne [a, b] = none →
      (sendMessage db now userSockets ⟨socketId, a⟩ ⟨none, text, some b⟩
        (run ops Store.empty)).1.chats.countP (fun c => c.isBetween a b) = 1) ∧
    (∀ db now a b text, db.find = true → db.create = true →
      (run ops Store.empty).findOne [a, b] = none →
      (postMessage db now a ⟨none, text, some b⟩
        (run ops Store.empty)).1.chats.countP (fun c => c.isBetween a b) = 1) := by
  have hwf : (run ops Store.empty).WF := run_WF ops empty_WF
  refine ⟨run_pairwise ops empty_WF (by simp [Store.empty]), fun a b => findOne_comm _ a b,
    fun a b now h => findOne_create _ a b now h, ?_, ?_⟩
  · intro db now userSockets socketId a b text hf hc hnone
    have := (send_creates_column db now a b hwf hf hc hnone).1 userSockets socketId text
    rw [countP_isBetween_succ _ _ a b this, countP_isBetween_zero _ a b hnone]
  · intro db now a b text hf hc hnone
    have := (send_creates_column db now a b hwf hf hc hnone).2 text
    rw [countP_isBetween_succ _ _ a b this, countP_isBetween_zero _ a b hnone]

/-! ## C6 -/

theorem markRead_store (db : Db) (userSockets : Registry) (socket : Socket) (chatId : ChatId)
    (s : Store) :
    (markRead db userSockets socket chatId s).1 =
      if db.find && db.save then
        match s.findById chatId with
        | some found => s.save (found.markRead socket.userId)
        | none => s
      else s := by
  cases hf : db.find
  · simp [markRead, hf]
  · cases ho : s.findById chatId with
    | none => simp [markRead, hf, ho]
    | some found =>
      cases hs : db.save
      · simp [markRead, hf, ho, hs]
      · cases hp : (found.markRead socket.userId).participants.find?
          (fun p => p != socket.userId) with
        | none => simp [markRead, hf, ho, hs, hp]
        | some other =>
          cases hr : userSockets.get other <;> simp [markRead, hf, ho, hs, hp, hr]

theorem putRead_store (db : Db) (user : UserId) (chatId : ChatId) (s : Store) :
    (putRead db user chatId s).1 =
      if db.find && db.save then
        match s.findById chatId with
        | some found => s.save (found.markRead user)
        | none => s
      else s := by
  cases hf : db.find
  · simp [putRead, hf]
  · cases ho : s.findById chatId with
    | none => simp [putRead, hf, ho]
    | some found => cases hs : db.save <;> simp [putRead, hf, ho, hs]

theorem markedRead_markRead (reader : UserId) (c : Chat) : MarkedRead reader c (c.markRead reader) := by
  refine ⟨by simp [Chat.markRead], rfl, rfl, rfl, ?_⟩
  intro i m hm
  refine ⟨if m.sender ≠ reader then { m with read := true } else m, ?_, ?_⟩
  · simp [Chat.markRead, List.getElem?_map, hm]
  · by_cases h : m.sender = reader <;> simp [h]

theorem findById_save_found {s : Store} {chatId : ChatId} {found : Chat}
    (h : s.findById chatId = some found) (c : Chat) (hid : c.id = found.id) :
    (s.save c).findById chatId = some c := by
  have hex : ∃ d ∈ s.chats, d.id = c.id := ⟨found, findById_mem h, hid.symm⟩
  have := findById_save_self s c hex
  rwa [hid, findById_id h] at this

/-- C6. markRead postcondition, on a store that answers, for the socket `mark-read`
and for `PUT /api/chat/messages/:chatId/read`: afterwards the stored conversation has
the same number of messages, in the same order with the same senders and texts; every
message whose sender is not the reader has `read = true`, every message of the reader
keeps its flag; `lastMessage` is unchanged. -/
theorem markRead_postcondition (db : Db) (hf : db.find = true) (hs : db.save = true)
    (reader : UserId) (chatId : ChatId) (s : Store) (found : Chat)
    (h : s.findById chatId = some found) :
    (∀ userSockets socketId, ∃ conv,
      (markRead db userSockets ⟨socketId, reader⟩ chatId s).1.findById chatId = some conv ∧
      MarkedRead reader found conv) ∧
    (∃ conv, (putRead db reader chatId s).1.findById chatId = some conv ∧
      (putRead db reader chatId s).2 = ⟨200, .message "Messages marked as read"⟩ ∧
      MarkedRead reader found conv) := by
  constructor
  · intro userSockets socketId
    refine ⟨found.markRead reader, ?_, markedRead_markRead reader found⟩
    rw [markRead_store]
    simp only [hf, hs, h, Bool.and_self, if_true]
    exact findById_save_found h _ rfl
  · refine ⟨found.markRead reader, ?_, ?_, markedRead_markRead reader found⟩
    · rw [putRead_store]
      simp only [hf, hs, h, Bool.and_self, if_true]
      exact findById_save_found h _ rfl
    · simp [putRead, hf, hs, h]

/-! ## C7 -/

theorem lookup_storeStep (db : Db) (now : Nat) (user : UserId) (chatId : Option ChatId)
    (recipientId : Option UserId) (s : Store) {found : Option Chat} {s1 : Store}
    {fx : List Effect}
    (hl : lookupConversation db now user chatId recipientId s = .got found s1 fx) :
    (s1 = s ∨ ∃ ps now, s1 = (s.create ps now).2) ∧ ∀ c, found = some c → c ∈ s1.chats := by
  rcases lookupConversation_cases db now user chatId recipientId s with
    h | h | ⟨found', s1', fx', h, hm, -, hst⟩
  · rw [h] at hl; cases hl
  · rw [h] at hl; cases hl; exact ⟨Or.inl rfl, by simp⟩
  · rw [h] at hl; cases hl
    refine ⟨?_, fun c hc => by cases hc; exact hm⟩
    rcases hst with ⟨rfl, -⟩ | ⟨r, -, -, -, -, rfl⟩
    · exact Or.inl rfl
    · exact Or.inr ⟨_, _, rfl⟩

theorem sendMessage_storeStep (db : Db) (now : Nat) (userSockets : Registry)
    (socket : Socket) (data : SendPayload) (s : Store) :
    StoreStep s (sendMessage db now userSockets socket data s).1 := by
  unfold sendMessage
  split
  · next s1 fx h => exact ⟨s, Or.inl rfl, Or.inl (lookup_threw_store _ _ _ _ _ h).1⟩
  · next s1 fx h => exact ⟨s1, (lookup_storeStep _ _ _ _ _ s h).1, Or.inl rfl⟩
  · next found s1 fx h =>
    obtain ⟨h1, h2⟩ := lookup_storeStep _ _ _ _ _ s h
    dsimp only
    split_ifs
    · exact ⟨s1, h1, Or.inr ⟨found, h2 _ rfl, Or.inl ⟨_, _, _, rfl⟩⟩⟩
    · exact ⟨s1, h1, Or.inr ⟨found, h2 _ rfl, Or.inl ⟨_, _, _, rfl⟩⟩⟩
    · exact ⟨s1, h1, Or.inl rfl⟩

theorem postMessage_storeStep (db : Db) (now : Nat) (user : UserId) (body : SendPayload)
    (s : Store) : StoreStep s (postMessage db now user body s).1 := by
  unfold postMessage
  split
  · next s1 fx h => exact ⟨s, Or.inl rfl, Or.inl (lookup_threw_store _ _ _ _ _ h).1⟩
  · next s1 fx h =>
    have : StoreStep s s1 := ⟨s1, (lookup_storeStep _ _ _ _ _ s h).1, Or.inl rfl⟩
    split_ifs <;> exact this
  · next found s1 fx h =>
    obtain ⟨h1, h2⟩ := lookup_storeStep _ _ _ _ _ s h
    dsimp only
    split_ifs
    · exact ⟨s1, h1, Or.inr ⟨found, h2 _ rfl, Or.inl ⟨_, _, _, rfl⟩⟩⟩
    · exact ⟨s1, h1, Or.inr ⟨found, h2 _ rfl, Or.inl ⟨_, _, _, rfl⟩⟩⟩
    · exact ⟨s1, h1, Or.inl rfl⟩

theorem getConversation_storeStep (db : Db) (now : Nat) (user userId : UserId) (s : Store) :
    StoreStep s (getConversation db now user userId s).1 := by
  have h0 : StoreStep s s := ⟨s, Or.inl rfl, Or.inl rfl⟩
  have h1 : StoreStep s (s.create [user, userId] now).2 :=
    ⟨_, Or.inr ⟨_, _, rfl⟩, Or.inl rfl⟩
  by_cases hu : userId = user
  · simpa [getConversation, hu] using h0
  · cases hf : db.find <;> cases hp : db.populate <;> cases hc : db.create <;>
      cases ho : s.findOne [user, userId] <;>
      simp [getConversation, hu, hf, hp, hc, ho, h0, h1]

theorem markRead_storeStep (db : Db) (userSockets : Registry) (socket : Socket)
    (chatId : ChatId) (s : Store) : StoreStep s (markRead db userSockets socket chatId s).1 := by
  rw [markRead_store]
  have h0 : StoreStep s s := ⟨s, Or.inl rfl, Or.inl rfl⟩
  split_ifs
  · split
    · next found h => exact ⟨s, Or.inl rfl, Or.inr ⟨found, findById_mem h, Or.inr ⟨_, rfl⟩⟩⟩
    · exact h0
  · exact h0

theorem putRead_storeStep (db : Db) (user : UserId) (chatId : ChatId) (s : Store) :
    StoreStep s (putRead db user chatId s).1 := by
  rw [putRead_store]
  have h0 : StoreStep s s := ⟨s, Or.inl rfl, Or.inl rfl⟩
  split_ifs
  · split
    · next found h => exact ⟨s, Or.inl rfl, Or.inr ⟨found, findById_mem h, Or.inr ⟨_, rfl⟩⟩⟩
    · exact h0
  · exact h0

theorem step_storeStep (s : Store) (op : Op) : StoreStep s (step s op) := by
  cases op with
  | sendMessage db now reg socket data => exact sendMessage_storeStep _ _ _ _ _ _
  | postMessage db now user body => exact postMessage_storeStep _ _ _ _ _
  | getConversation db now user userId => exact getConversation_storeStep _ _ _ _ _
  | markRead db reg socket chatId => exact markRead_storeStep _ _ _ _ _
  | putRead db user chatId => exact putRead_storeStep _ _ _ _

theorem messagesOf_create (s : Store) (ps : List UserId) (now : Nat)
    (id : ChatId) : (s.create ps now).2.messagesOf id = s.messagesOf id := by
  unfold Store.messagesOf Store.findById
  simp only [Store.create, List.find?_append]
  cases h : s.chats.find? (fun d => d.id == id) with
  | some c => simp
  | none =>
    by_cases hid : s.nextId = id
    · simp [List.find?_cons, hid]
    · simp [List.find?_cons, hid]

theorem messagesOf_save {s : Store} {found : Chat} (hmem : found ∈ s.chats)
    (c : Chat) (hid : c.id = found.id) (id : ChatId) :
    (s.save c).messagesOf id = if id = found.id then c.messages else s.messagesOf id := by
  by_cases h : id = found.id
  · subst h
    have hex : ∃ d ∈ s.chats, d.id = c.id := ⟨found, hmem, hid.symm⟩
    have := findById_save_self s c hex
    rw [hid] at this
    simp [Store.messagesOf, this]
  · have hne : id ≠ c.id := by rw [hid]; exact h
    have := find?_saveInto_other s.chats c id hne
    simp [Store.messagesOf, Store.findById, Store.save, this, h]

theorem messagesOf_of_mem {s : Store} (hwf : s.WF) {found : Chat} (hmem : found ∈ s.chats) :
    s.messagesOf found.id = found.messages := by
  simp [Store.messagesOf, findById_of_mem hwf hmem]

/-- One operation changes the messages stored under an id by nothing, by one appended
unread message, or by a read mark. -/
theorem step_messagesOf {s : Store} (hwf : s.WF) (op : Op) (id : ChatId) :
    MessagesStep (s.messagesOf id) ((step s op).messagesOf id) := by
  obtain ⟨s1, hs1, hs'⟩ := step_storeStep s op
  have hwf1 : s1.WF := by
    rcases hs1 with rfl | ⟨ps, now, rfl⟩
    · exact hwf
    · exact create_WF hwf _ _
  have hm1 : s1.messagesOf id = s.messagesOf id := by
    rcases hs1 with rfl | ⟨ps, now, rfl⟩
    · rfl
    · exact messagesOf_create s _ _ _
  rcases hs' with h | ⟨found, hmem, ⟨sender, t, now, h⟩ | ⟨u, h⟩⟩
  · rw [h, hm1]; exact Or.inl rfl
  · rw [h, messagesOf_save hmem (found.push sender t now) rfl, ← hm1]
    by_cases hid : id = found.id
    · subst hid
      rw [if_pos rfl, messagesOf_of_mem hwf1 hmem]
      exact Or.inr (Or.inl ⟨sender, t, now, rfl⟩)
    · rw [if_neg hid]; exact Or.inl rfl
  · rw [h, messagesOf_save hmem (found.markRead u) rfl, ← hm1]
    by_cases hid : id = found.id
    · subst hid
      rw [if_pos rfl, messagesOf_of_mem hwf1 hmem]
      exact Or.inr (Or.inr ⟨u, rfl⟩)
    · rw [if_neg hid]; exact Or.inl rfl

theorem laterOf_refl (m : Message) : m.laterOf m := ⟨rfl, rfl, rfl, id⟩

theorem laterOf_trans {a b c : Message} (h1 : a.laterOf b) (h2 : b.laterOf c) : a.laterOf c :=
  ⟨h2.1.trans h1.1, h2.2.1.trans h1.2.1, h2.2.2.1.trans h1.2.2.1, fun h => h2.2.2.2 (h1.2.2.2 h)⟩

theorem messagesStep_later {ms ms' : List Message} (h : MessagesStep ms ms') (i : Nat)
    (m : Message) (hm : ms[i]? = some m) : ∃ m', ms'[i]? = some m' ∧ m.laterOf m' := by
  rcases h with rfl | ⟨sender, t, now, rfl⟩ | ⟨u, rfl⟩
  · exact ⟨m, hm, laterOf_refl m⟩
  · refine ⟨m, ?_, laterOf_refl m⟩
    have hlt : i < ms.length := by
      rcases Nat.lt_or_ge i ms.length with h | h
      · exact h
      · rw [List.getElem?_eq_none h] at hm; cases hm
    rw [List.getElem?_append_left hlt, hm]
  · refine ⟨if m.sender ≠ u then { m with read := true } else m, by simp [hm], ?_⟩
    by_cases hs : m.sender = u
    · simp [hs, laterOf_refl]
    · simp only [ne_eq, hs, not_false_eq_true, if_true]
      exact ⟨rfl, rfl, rfl, fun _ => rfl⟩

theorem messagesStep_appended {ms ms' : List Message} (h : MessagesStep ms ms') (i : Nat)
    (m : Message) (hi : ms.length ≤ i) (hm : ms'[i]? = some m) : m.read = false := by
  rcases h with rfl | ⟨sender, t, now, rfl⟩ | ⟨u, rfl⟩
  · rw [List.getElem?_eq_none hi] at hm; cases hm
  · rw [List.getElem?_append_right hi] at hm
    rcases Nat.eq_zero_or_pos (i - ms.length) with h0 | hpos
    · rw [h0] at hm
      simp at hm
      rw [← hm]
    · have : ([({ sender := sender, text := t, read := false, createdAt := now } : Message)])[i - ms.length]? = none := by
        apply List.getElem?_eq_none
        simpa using Nat.succ_le_of_lt hpos
      rw [this] at hm; cases hm
  · rw [List.getElem?_eq_none (by simpa using hi)] at hm; cases hm

/-- C7. Read-flag monotonicity on a store whose ids are unique. A message that an
operation adds to a conversation has `read = false`; and along every sequential series
of chat operations (sends by socket or POST, read marks by either participant by socket
or PUT, get-or-create calls) a stored message stays at its place with its sender, text
and date, and once its read flag is true it stays true. -/
theorem read_flag_monotone (s : Store) (hwf : s.WF) :
    (∀ (op : Op) (id : ChatId) (i : Nat) (m : Message), (s.messagesOf id).length ≤ i →
      ((step s op).messagesOf id)[i]? = some m → m.read = false) ∧
    (∀ (ops : List Op) (id : ChatId) (i : Nat) (m : Message), (s.messagesOf id)[i]? = some m →
      ∃ m' : Message, ((run ops s).messagesOf id)[i]? = some m' ∧
        m'.sender = m.sender ∧ m'.text = m.text ∧ m'.createdAt = m.createdAt ∧
        (m.read = true → m'.read = true)) := by
  constructor
  · intro op id i m hi hm
    exact messagesStep_appended (step_messagesOf hwf op id) i m hi hm
  · intro ops
    induction ops generalizing s with
    | nil => intro id i m hm; exact ⟨m, hm, rfl, rfl, rfl, fun h => h⟩
    | cons op ops ih =>
      intro id i m hm
      obtain ⟨m1, hm1, hl1⟩ := messagesStep_later (step_messagesOf hwf op id) i m hm
      obtain ⟨m2, hm2, hl2⟩ := ih (step s op) (step_WF hwf op) id i m1 hm1
      exact ⟨m2, hm2, laterOf_trans hl1 hl2⟩

/-! ## C8 and C9 -/

theorem foldl_add_eq_sum (f : Chat → Nat) (l : List Chat) (a : Nat) :
    l.foldl (fun total conv => total + f conv) a = a + (l.map f).sum := by
  induction l generalizing a with
  | nil => simp
  | cons d ds ih => simp [List.foldl_cons, ih, Nat.add_assoc]

theorem unread_filter_length (c : Chat) (u : UserId) :
    (c.messages.filter (fun m => m.sender != u && !m.read)).length = c.unreadFor u := by
  rw [Chat.unreadFor, List.countP_eq_length_filter]
  congr 2
  funext m
  cases hr : m.read <;> by_cases hs : m.sender = u <;> simp [hr, hs]

theorem find_eq_filter_mem (s : Store) (u : UserId) :
    s.find u = s.chats.filter (fun c => decide (u ∈ c.participants)) := by
  unfold Store.find
  congr 1
  funext c
  simp

/-- The loop of `GET /api/chat/unread-count` computes `unreadMessageCount`. -/
theorem getUnreadCount_eq (db : Db) (u : UserId) (s : Store) :
    getUnreadCount db u s =
      if db.find then (s, ⟨200, .count (unreadMessageCount s u)⟩) else (s, ⟨500, .failure⟩) := by
  unfold getUnreadCount unreadMessageCount
  split_ifs
  · simp only [foldl_add_eq_sum, Nat.zero_add, find_eq_filter_mem]
    congr 5
    funext c
    exact unread_filter_length c u
  · rfl

/-- C8. `GET /api/chat/unread-count` changes no stored state and, on a store that
answers, returns exactly the number of messages, summed over all conversations in
which the user is a participant, whose sender is not the user and whose read flag is
false. -/
theorem unreadCount_is_unreadMessageCount (u : UserId) (s : Store) :
    (∀ db, (getUnreadCount db u s).1 = s) ∧
    (∀ db, db.find = true →
      (getUnreadCount db u s).2 = ⟨200, .count (unreadMessageCount s u)⟩) := by
  constructor
  · intro db
    rw [getUnreadCount_eq]
    split_ifs <;> rfl
  · intro db hf
    rw [getUnreadCount_eq, hf]
    rfl

theorem unreadFor_markRead (c : Chat) (u : UserId) : (c.markRead u).unreadFor u = 0 := by
  unfold Chat.unreadFor Chat.markRead
  rw [List.countP_eq_zero]
  intro m hm
  simp only [List.mem_map] at hm
  obtain ⟨m0, -, rfl⟩ := hm
  by_cases hs : m0.sender = u <;> simp [hs]

theorem unreadMessageCount_eq_sum (s : Store) (u : UserId) :
    unreadMessageCount s u =
      (s.chats.map (fun c => if u ∈ c.participants then c.unreadFor u else 0)).sum := by
  unfold unreadMessageCount
  induction s.chats with
  | nil => rfl
  | cons d ds ih =>
    by_cases h : u ∈ d.participants
    · simp [List.filter_cons, h, ih]
    · simp [List.filter_cons, h, ih]

theorem sum_saveInto (g : Chat → Nat) (l : List Chat) (c c' : Chat)
    (hfind : l.find? (fun d => d.id == c'.id) = some c) :
    ((saveInto l c').map g).sum + g c = (l.map g).sum + g c' := by
  induction l with
  | nil => simp at hfind
  | cons d ds ih =>
    by_cases hd : d.id = c'.id
    · have : d = c := by simpa [List.find?_cons, hd] using hfind
      subst this
      simp only [saveInto, hd, if_true, List.map_cons, List.sum_cons]
      omega
    · have hfind' : ds.find? (fun d => d.id == c'.id) = some c := by
        simpa [List.find?_cons, hd] using hfind
      have := ih hfind'
      simp only [saveInto, hd, if_false, List.map_cons, List.sum_cons]
      omega

/-- The unread total of a participant across a save of the read-marked conversation. -/
theorem unreadMessageCount_save_markRead (s : Store) (chatId : ChatId) (c : Chat) (u : UserId)
    (h : s.findById chatId = some c) (hpart : u ∈ c.participants) :
    unreadMessageCount (s.save (c.markRead u)) u + c.unreadFor u = unreadMessageCount s u := by
  rw [unreadMessageCount_eq_sum, unreadMessageCount_eq_sum]
  have hid : (c.markRead u).id = chatId := (findById_id h : c.id = chatId)
  have hfind : s.chats.find? (fun d => d.id == (c.markRead u).id) = some c := by
    rw [hid]; exact h
  have := sum_saveInto (fun c => if u ∈ c.participants then c.unreadFor u else 0)
    s.chats c (c.markRead u) hfind
  have hp' : u ∈ (c.markRead u).participants := hpart
  simp only [hpart, hp', if_true, unreadFor_markRead, Nat.add_zero] at this
  exact this

/-- C9. markRead clears a thread's unread contribution. For a participant `u` of the
stored conversation `c`, after a markRead by `u` (socket `mark-read` or
`PUT /api/chat/messages/:chatId/read`) on a store that answers, the stored conversation
counts no unread message for `u`, and the number returned by
`GET /api/chat/unread-count` for `u` has decreased by exactly the number of messages of
`c` that were unread and not sent by `u`. -/
theorem markRead_clears_unread (db : Db) (hf : db.find = true) (hs : db.save = true)
    (u : UserId) (chatId : ChatId) (s : Store) (c : Chat)
    (h : s.findById chatId = some c) (hpart : u ∈ c.participants) :
    (∀ userSockets socketId, ∃ c' n n',
      (markRead db userSockets ⟨socketId, u⟩ chatId s).1.findById chatId = some c' ∧
      c'.unreadFor u = 0 ∧
      (getUnreadCount db u s).2 = ⟨200, .count n⟩ ∧
      (getUnreadCount db u (markRead db userSockets ⟨socketId, u⟩ chatId s).1).2 =
        ⟨200, .count n'⟩ ∧
      n' + c.unreadFor u = n) ∧
    (∃ c' n n',
      (putRead db u chatId s).1.findById chatId = some c' ∧
      c'.unreadFor u = 0 ∧
      (getUnreadCount db u s).2 = ⟨200, .count n⟩ ∧
      (getUnreadCount db u (putRead db u chatId s).1).2 = ⟨200, .count n'⟩ ∧
      n' + c.unreadFor u = n) := by
  have hsock : ∀ userSockets socketId,
      (markRead db userSockets ⟨socketId, u⟩ chatId s).1 = s.save (c.markRead u) := by
    intro userSockets socketId
    rw [markRead_store]
    simp only [hf, hs, h, Bool.and_self, if_true]
  have hput : (putRead db u chatId s).1 = s.save (c.markRead u) := by
    rw [putRead_store]
    simp only [hf, hs, h, Bool.and_self, if_true]
  have key : ∃ c' n n',
      (s.save (c.markRead u)).findById chatId = some c' ∧
      c'.unreadFor u = 0 ∧
      (getUnreadCount db u s).2 = ⟨200, .count n⟩ ∧
      (getUnreadCount db u (s.save (c.markRead u))).2 = ⟨200, .count n'⟩ ∧
      n' + c.unreadFor u = n :=
    ⟨c.markRead u, unreadMessageCount s u, unreadMessageCount (s.save (c.markRead u)) u,
      findById_save_found h _ rfl, unreadFor_markRead c u,
      by rw [getUnreadCount_eq, hf]; rfl, by rw [getUnreadCount_eq, hf]; rfl,
      unreadMessageCount_save_markRead s chatId c u h hpart⟩
  constructor
  · intro userSockets socketId
    rw [hsock]
    exact key
  · rw [hput]
    exact key

/-! ## C10 -/

/-- C10, as the code has it. For a `createNotification` call with valid data for user
`b` (a type of the enum, a title, a message, optional `relatedItem`/`relatedModel`/
`fromUser`, no `read` or `readAt`) on a store that answers: exactly one notification is
added, it belongs to `b`, has `read = false`, no `readAt` and the requested type and
`fromUser`. Once `setIO` has been called and when `b` has a user document, exactly one
`new-notification` event is emitted, addressed to the room of `b`, carrying that record
with its `fromUser` populated, and the record is returned. When `b` has no user
document, nothing is emitted and `null` is returned, although the record is stored.
Before `setIO` has been called nothing is emitted and the record is returned. -/
theorem createNotification_persists_then_pushes (db : Db) (hc : db.create = true)
    (hp : db.populate = true) (ioInstance : Bool) (users : List UserId) (now : Nat)
    (data : NotificationData) (s : NotificationStore) (b : UserId)
    (hvalid : data.valid = true) (huser : data.user = some b)
    (hread : data.read = none) (hreadAt : data.readAt = none) :
    ∃ n : Notification,
      (createNotification db ioInstance users now data s).store.notifications =
        s.notifications ++ [n] ∧
      n.user = b ∧ n.read = false ∧ n.readAt = none ∧
      some n.type = data.type ∧ some n.title = data.title ∧ some n.message = data.message ∧
      n.fromUser = data.fromUser ∧ n.relatedItem = data.relatedItem ∧
      n.relatedModel = data.relatedModel ∧
      (ioInstance = true → b ∈ users →
        (createNotification db ioInstance users now data s).emitted =
          [(b, ⟨n, some b, data.fromUser.filter (fun f => users.contains f)⟩)] ∧
        (createNotification db ioInstance users now data s).returned =
          some ⟨n, some b, data.fromUser.filter (fun f => users.contains f)⟩) ∧
      (ioInstance = true → b ∉ users →
        (createNotification db ioInstance users now data s).emitted = [] ∧
        (createNotification db ioInstance users now data s).returned = none) ∧
      (ioInstance = false →
        (createNotification db ioInstance users now data s).emitted = [] ∧
        (createNotification db ioInstance users now data s).returned =
          some ⟨n, if b ∈ users then some b else none,
            data.fromUser.filter (fun f => users.contains f)⟩) := by
  obtain ⟨ty, hty⟩ : ∃ ty, data.type = some ty := by
    cases hd : data.type with
    | none => simp [NotificationData.valid, hd] at hvalid
    | some ty => exact ⟨ty, rfl⟩
  obtain ⟨ti, hti⟩ : ∃ ti, data.title = some ti := by
    cases hd : data.title with
    | none => simp [NotificationData.valid, hd, validText] at hvalid
    | some ti => exact ⟨ti, rfl⟩
  obtain ⟨me, hme⟩ : ∃ me, data.message = some me := by
    cases hd : data.message with
    | none => simp [NotificationData.valid, hd, validText] at hvalid
    | some me => exact ⟨me, rfl⟩
  refine ⟨⟨s.nextId, b, ty, ti, me, data.relatedItem, data.relatedModel, data.fromUser,
    false, none, now⟩, ?_⟩
  cases ioInstance <;> by_cases hb : b ∈ users <;>
    simp [createNotification, hc, hp, hvalid, huser, hb, hread, hreadAt, hty, hti, hme]

/-- C10 fails on the code. The data are valid and name user 4, who has no user document
(users 1, 2 and 3 exist); `setIO` has been called and the store answers. One notification
for user 4 is stored, no `new-notification` event is emitted and the call returns `null`
instead of the stored record. -/
theorem notification_for_missing_user_not_pushed :
    demoOrphanNotification.valid = true ∧
    createNotification Db.up true [1, 2, 3] 9 demoOrphanNotification ⟨[], 0⟩ =
      ⟨⟨[⟨0, 4, "reuseit_request", "New Exchange Request", "wants your item", some 7,
          some "ReUseIt", some 1, false, none, 9⟩], 1⟩, [], none⟩ := by
  decide

/-! ## The theorems at concrete inputs -/

/-- C1 at a send into conversation 0 that is delivered, at a send of an empty text, and
at a send to `recipientId` 2 on the empty store while saves are rejected. -/
theorem sendMessage_durable_before_delivery_witness :
    ((sendMessage Db.up 5 demoRegistry demoSocket demoSend demoStore).2[1]? =
        some (.emit 20 (.receiveMessage 0 (some ⟨1, "hi", false, 5⟩) demoSaved)) ∧
      ∃ conv text, demoSend.text = some text ∧
        Effect.saved conv ∈
          (sendMessage Db.up 5 demoRegistry demoSocket demoSend demoStore).2.take 1 ∧
        conv.messages.getLast? = some ⟨demoSocket.userId, text, false, 5⟩ ∧
        (Event.receiveMessage 0 (some ⟨1, "hi", false, 5⟩) demoSaved =
            .receiveMessage conv.id conv.messages.getLast? conv ∨
          Event.receiveMessage 0 (some ⟨1, "hi", false, 5⟩) demoSaved =
            .messageSent conv.id conv.messages.getLast?) ∧
        (sendMessage Db.up 5 demoRegistry demoSocket demoSend demoStore).1.findById conv.id =
          some conv) ∧
    ((Db.up.save && validText demoEmptySend.text) = false ∧
      (sendMessage Db.up 5 demoRegistry demoSocket demoEmptySend demoStore).2.filter
          Effect.isReceiveMessage = [] ∧
      ∃ msg, (sendMessage Db.up 5 demoRegistry demoSocket demoEmptySend demoStore).2.filter
          Effect.isEmit = [.emit demoSocket.id (.error msg)]) ∧
    (Store.empty.findOne [demoSocket.userId, 2] = none ∧
      (sendMessage ⟨true, true, false, true⟩ 5 demoRegistry demoSocket
        ⟨none, some "hi", some 2⟩ Store.empty).1 =
        ⟨Store.empty.chats ++ [⟨Store.empty.nextId, [demoSocket.userId, 2], [], "", 5⟩],
          Store.empty.nextId + 1⟩) :=
  ⟨⟨by decide,
      (sendMessage_durable_before_delivery Db.up 5 demoRegistry demoSocket demoSend
        demoStore).1 1 20 _ (by decide) rfl⟩,
    ⟨by decide, by decide,
      ((sendMessage_durable_before_delivery Db.up 5 demoRegistry demoSocket demoEmptySend
        demoStore).2 (by decide)).2.1⟩,
    by decide,
    ((sendMessage_durable_before_delivery ⟨true, true, false, true⟩ 5 demoRegistry demoSocket
      ⟨none, some "hi", some 2⟩ Store.empty).2 (by decide)).2.2.2.2.1 2 rfl rfl rfl rfl
      (by decide)⟩

/-- C2 at the send of "hi" by user 1 into the empty conversation 0. -/
theorem send_appends_witness :
    demoStore.WF ∧
    Op.acked demoStore (.sendMessage Db.up 5 demoRegistry demoSocket demoSend) = some 0 ∧
    (∃ conv msg,
      Op.submitted (.sendMessage Db.up 5 demoRegistry demoSocket demoSend) = some msg ∧
      msg.read = false ∧
      (step demoStore (.sendMessage Db.up 5 demoRegistry demoSocket demoSend)).findById 0 =
        some conv ∧
      conv.messages = demoStore.messagesOf 0 ++ [msg] ∧ conv.lastMessage = msg.text) :=
  ⟨by decide, by decide,
    (send_appends demoStore (by decide)).1
      (.sendMessage Db.up 5 demoRegistry demoSocket demoSend) 0 (by decide)⟩

/-- C4 at the send of "hi" by user 1 into conversation 0, on a store that answers and
on one that rejects the populate queries. -/
theorem sendMessage_acknowledges_sender_witness :
    Effect.saved demoSaved ∈
      (sendMessage Db.up 5 demoRegistry demoSocket demoSend demoStore).2 ∧
    Db.up.populate = true ∧
    (sendMessage Db.up 5 demoRegistry demoSocket demoSend demoStore).2.filter
        Effect.isMessageSent =
      [.emit demoSocket.id (.messageSent demoSaved.id demoSaved.messages.getLast?)] ∧
    (sendMessage Db.up 5 demoRegistry demoSocket demoSend demoStore).1.findById demoSaved.id =
      some demoSaved ∧
    (∃ text, demoSend.text = some text ∧
      demoSaved.messages.getLast? = some ⟨demoSocket.userId, text, false, 5⟩) ∧
    Effect.saved demoSaved ∈
      (sendMessage ⟨true, true, true, false⟩ 5 demoRegistry demoSocket demoSend demoStore).2 ∧
    (sendMessage ⟨true, true, true, false⟩ 5 demoRegistry demoSocket demoSend
      demoStore).2.filter Effect.isEmit =
        [.emit demoSocket.id (.error "Failed to send message")] :=
  ⟨by decide, rfl,
    (sendMessage_acknowledges_sender Db.up 5 demoRegistry demoSocket demoSend demoStore
      demoSaved (by decide)).2.2.1 rfl,
    (sendMessage_acknowledges_sender Db.up 5 demoRegistry demoSocket demoSend demoStore
      demoSaved (by decide)).1,
    (sendMessage_acknowledges_sender Db.up 5 demoRegistry demoSocket demoSend demoStore
      demoSaved (by decide)).2.1,
    by decide,
    ((sendMessage_acknowledges_sender ⟨true, true, true, false⟩ 5 demoRegistry demoSocket
      demoSend demoStore demoSaved (by decide)).2.2.2 rfl).1⟩

/-- C5 after a send from user 1 to user 2, an answer from user 2 to user 1, a
get-or-create of user 1 with user 3 and a send from user 1 to user 3, which leave two
conversations, and for a first send from user 3 to user 4. -/
theorem conversation_unique_per_pair_witness :
    (run demoPairOps Store.empty).chats.map Chat.participants = [[1, 2], [1, 3]] ∧
    (run demoPairOps Store.empty).chats.map (fun c => c.messages.length) = [2, 1] ∧
    (run demoPairOps Store.empty).chats.Pairwise (fun c d => samePair c d = false) ∧
    (run demoPairOps Store.empty).findOne [2, 1] =
      some ⟨0, [1, 2], [⟨1, "hi", false, 5⟩, ⟨2, "re", false, 6⟩], "re", 6⟩ ∧
    (run demoPairOps Store.empty).findOne [1, 2] = (run demoPairOps Store.empty).findOne [2, 1] ∧
    Db.up.find = true ∧ Db.up.create = true ∧
    (run demoPairOps Store.empty).findOne [3, 4] = none ∧
    (sendMessage Db.up 9 demoRegistry ⟨30, 3⟩ ⟨none, some "hello", some 4⟩
      (run demoPairOps Store.empty)).1.chats.countP (fun c => c.isBetween 3 4) = 1 :=
  ⟨by decide, by decide,
    (conversation_unique_per_pair demoPairOps).1,
    by decide,
    (conversation_unique_per_pair demoPairOps).2.1 1 2,
    rfl, rfl, by decide,
    (conversation_unique_per_pair demoPairOps).2.2.2.1 Db.up 9 demoRegistry 30 3 4
      (some "hello") rfl rfl (by decide)⟩

/-- C6 at a read mark by user 2 on a thread with one message of each participant. -/
theorem markRead_postcondition_witness :
    Db.up.find = true ∧ Db.up.save = true ∧
    demoThread.findById 0 = some ⟨0, [1, 2], [⟨1, "hi", false, 5⟩, ⟨2, "yo", false, 6⟩], "yo", 6⟩ ∧
    ∃ conv, (putRead Db.up 2 0 demoThread).1.findById 0 = some conv ∧
      (putRead Db.up 2 0 demoThread).2 = ⟨200, .message "Messages marked as read"⟩ ∧
      MarkedRead 2 ⟨0, [1, 2], [⟨1, "hi", false, 5⟩, ⟨2, "yo", false, 6⟩], "yo", 6⟩ conv :=
  ⟨rfl, rfl, by decide,
    (markRead_postcondition Db.up rfl rfl 2 0 demoThread _ (by decide)).2⟩

/-- C7 for a read message across two sends and two read marks. -/
theorem read_flag_monotone_witness :
    demoReadThread.WF ∧
    (demoReadThread.messagesOf 0)[0]? = some ⟨1, "hi", true, 5⟩ ∧
    ∃ m' : Message, ((run demoOps demoReadThread).messagesOf 0)[0]? = some m' ∧
      m'.sender = 1 ∧ m'.text = "hi" ∧ m'.createdAt = 5 ∧ (true = true → m'.read = true) :=
  ⟨by decide, by decide,
    (read_flag_monotone demoReadThread (by decide)).2 demoOps 0 0 ⟨1, "hi", true, 5⟩
      (by decide)⟩

/-- C8 for user 2 on a thread holding one unread message of user 1. -/
theorem unreadCount_is_unreadMessageCount_witness :
    Db.up.find = true ∧ unreadMessageCount demoThread 2 = 1 ∧
    (getUnreadCount Db.up 2 demoThread).2 = ⟨200, .count (unreadMessageCount demoThread 2)⟩ :=
  ⟨rfl, by decide, (unreadCount_is_unreadMessageCount 2 demoThread).2 Db.up rfl⟩

/-- C9 at a read mark by user 2 on a thread holding one unread message of user 1. -/
theorem markRead_clears_unread_witness :
    Db.up.find = true ∧ Db.up.save = true ∧
    demoThread.findById 0 = some ⟨0, [1, 2], [⟨1, "hi", false, 5⟩, ⟨2, "yo", false, 6⟩], "yo", 6⟩ ∧
    (2 : UserId) ∈ [1, 2] ∧
    ∃ c' n n', (putRead Db.up 2 0 demoThread).1.findById 0 = some c' ∧
      c'.unreadFor 2 = 0 ∧
      (getUnreadCount Db.up 2 demoThread).2 = ⟨200, .count n⟩ ∧
      (getUnreadCount Db.up 2 (putRead Db.up 2 0 demoThread).1).2 = ⟨200, .count n'⟩ ∧
      n' + Chat.unreadFor ⟨0, [1, 2], [⟨1, "hi", false, 5⟩, ⟨2, "yo", false, 6⟩], "yo", 6⟩ 2 = n :=
  ⟨rfl, rfl, by decide, by decide,
    (markRead_clears_unread Db.up rfl rfl 2 0 demoThread _ (by decide) (by decide)).2⟩

/-- C10 at an exchange request notified to user 2 on behalf of user 1, and at the same
request notified to user 4, who has no user document. -/
theorem createNotification_persists_then_pushes_witness :
    Db.up.create = true ∧ Db.up.populate = true ∧ demoNotification.valid = true ∧
    demoNotification.user = some 2 ∧ (2 : UserId) ∈ [1, 2, 3] ∧
    (∃ n : Notification,
      (createNotification Db.up true [1, 2, 3] 9 demoNotification ⟨[], 0⟩).store.notifications =
        [] ++ [n] ∧
      n.user = 2 ∧ n.read = false ∧ n.readAt = none ∧
      some n.type = demoNotification.type ∧ n.fromUser = demoNotification.fromUser ∧
      (createNotification Db.up true [1, 2, 3] 9 demoNotification ⟨[], 0⟩).emitted =
        [(2, ⟨n, some 2, some 1⟩)] ∧
      (createNotification Db.up true [1, 2, 3] 9 demoNotification ⟨[], 0⟩).returned =
        some ⟨n, some 2, some 1⟩) ∧
    demoOrphanNotification.valid = true ∧ (4 : UserId) ∉ [1, 2, 3] ∧
    (∃ n : Notification,
      (createNotification Db.up true [1, 2, 3] 9 demoOrphanNotification
        ⟨[], 0⟩).store.notifications = [] ++ [n] ∧
      n.user = 4 ∧
      (createNotification Db.up true [1, 2, 3] 9 demoOrphanNotification ⟨[], 0⟩).emitted = [] ∧
      (createNotification Db.up true [1, 2, 3] 9 demoOrphanNotification ⟨[], 0⟩).returned =
        none) :=
  ⟨rfl, rfl, by decide, rfl, by decide,
    (let ⟨n, h1, h2, h3, h4, h5, _, _, h8, _, _, h11, _⟩ :=
      createNotification_persists_then_pushes Db.up rfl rfl true [1, 2, 3] 9 demoNotification
        ⟨[], 0⟩ 2 (by decide) rfl rfl rfl
    ⟨n, h1, h2, h3, h4, h5, h8, (h11 rfl (by decide)).1, (h11 rfl (by decide)).2⟩),
    by decide, by decide,
    (let ⟨n, h1, h2, _, _, _, _, _, _, _, _, _, h12, _⟩ :=
      createNotification_persists_then_pushes Db.up rfl rfl true [1, 2, 3] 9
        demoOrphanNotification ⟨[], 0⟩ 4 (by decide) rfl rfl rfl
    ⟨n, h1, h2, (h12 rfl (by decide)).1, (h12 rfl (by decide)).2⟩)⟩

/-! ## C11 -/

/-- The function `createNotification` is its `try` block followed by its `catch`. -/
theorem createNotification_eq_catch (db : Db) (ioInstance : Bool) (users : List UserId)
    (now : Nat) (data : NotificationData) (s : NotificationStore) :
    createNotification db ioInstance users now data s =
      catchReturnNull (createNotificationTry db ioInstance users now data s) := by
  cases hv : data.valid <;> cases hc : db.create <;> cases hp : db.populate <;>
    cases hio : ioInstance <;>
    simp [createNotification, createNotificationTry, catchReturnNull, hv, hc, hp, hio]
  all_goals split <;> simp_all

/-- The answer and the item and user collections of the request route do not depend on
what `createNotification` meets. -/
theorem requestExchange_independent (rdb : RequestDb) (now : Nat) (reqUser : UserDoc)
    (itemId : Nat) (d : Domain) (ndb ndb' : Db) (ioInstance ioInstance' : Bool) :
    (requestExchange rdb ndb ioInstance now reqUser itemId d).2.2 =
      (requestExchange rdb ndb' ioInstance' now reqUser itemId d).2.2 ∧
    (requestExchange rdb ndb ioInstance now reqUser itemId d).1.items =
      (requestExchange rdb ndb' ioInstance' now reqUser itemId d).1.items ∧
    (requestExchange rdb ndb ioInstance now reqUser itemId d).1.users =
      (requestExchange rdb ndb' ioInstance' now reqUser itemId d).1.users := by
  unfold requestExchange
  cases rdb.find
  · simp
  · cases d.items.find? (fun i => i.id == itemId) with
    | none => simp
    | some found =>
      by_cases ho : found.owner = reqUser.id
      · simp [ho]
      · by_cases hs : found.status = "available"
        · cases rdb.save <;> cases rdb.update <;> cases rdb.refetch <;> simp [ho, hs]
        · simp [ho, hs]

theorem requestExchange_ok (rdb : RequestDb) (hf : rdb.find = true) (hs : rdb.save = true)
    (hu : rdb.update = true) (hr : rdb.refetch = true) (ndb : Db) (ioInstance : Bool)
    (now : Nat) (reqUser : UserDoc) (itemId : Nat) (d : Domain) (found : Item)
    (hfound : d.items.find? (fun i => i.id == itemId) = some found)
    (ho : found.owner ≠ reqUser.id) (ha : found.status = "available") :
    (requestExchange rdb ndb ioInstance now reqUser itemId d).2.2 =
      ⟨200, .item (some { found with status := "pending", requestedBy := some reqUser.id })⟩ := by
  have hid : found.id = itemId := by
    have := List.find?_some hfound
    simpa using this
  have hsave : ∀ (l : List Item) (i : Item), (∃ x ∈ l, x.id = i.id) →
      (saveItemInto l i).find? (fun x => x.id == i.id) = some i := by
    intro l i
    induction l with
    | nil => intro h; simp at h
    | cons x xs ih =>
      intro h
      by_cases hx : x.id = i.id
      · simp [saveItemInto, hx]
      · have : ∃ y ∈ xs, y.id = i.id := by
          obtain ⟨y, hy, hyi⟩ := h
          rcases List.mem_cons.1 hy with rfl | hy
          · exact absurd hyi hx
          · exact ⟨y, hy, hyi⟩
        simp [saveItemInto, hx, List.find?_cons, ih this]
  have := hsave d.items { found with status := "pending", requestedBy := some reqUser.id }
    ⟨found, List.mem_of_find?_eq_some hfound, rfl⟩
  simp only [requestExchange, hf, hs, hu, hr, hfound, ho, ha, if_true, if_false, ne_eq,
    not_true_eq_false, this]

/-- C11. Notification failure isolation. `createNotification` is a `try` block whose
every exception reaches its own `catch`: whatever it is given it returns a value, and
that value is `null` exactly when the `try` block threw (data the schema rejects, a
store call of `create` or `populate` that rejects, a `null` user on the emit line). A
calling domain route, here `PUT /api/reuseit/:id/request`, answers the same and leaves
the same items and users whatever `createNotification` met, and answers 200 whenever
its own store calls answer and the item can be requested. -/
theorem createNotification_never_raises (db : Db) (ioInstance : Bool) (users : List UserId)
    (now : Nat) (data : NotificationData) (s : NotificationStore) :
    createNotification db ioInstance users now data s =
      catchReturnNull (createNotificationTry db ioInstance users now data s) ∧
    ((createNotification db ioInstance users now data s).returned = none ↔
      ∃ e, (createNotificationTry db ioInstance users now data s).outcome = .threw e) ∧
    (data.valid = false →
      createNotification db ioInstance users now data s = ⟨s, [], none⟩) ∧
    (db.create = false →
      createNotification db ioInstance users now data s = ⟨s, [], none⟩) ∧
    (db.populate = false →
      (createNotification db ioInstance users now data s).returned = none ∧
      (createNotification db ioInstance users now data s).emitted = []) ∧
    (ioInstance = true → (∀ u, data.user = some u → u ∉ users) →
      (createNotification db ioInstance users now data s).returned = none ∧
      (createNotification db ioInstance users now data s).emitted = []) ∧
    (∀ rdb reqUser itemId d ndb' ioInstance',
      (requestExchange rdb db ioInstance now reqUser itemId d).2.2 =
        (requestExchange rdb ndb' ioInstance' now reqUser itemId d).2.2 ∧
      (requestExchange rdb db ioInstance now reqUser itemId d).1.items =
        (requestExchange rdb ndb' ioInstance' now reqUser itemId d).1.items ∧
      (requestExchange rdb db ioInstance now reqUser itemId d).1.users =
        (requestExchange rdb ndb' ioInstance' now reqUser itemId d).1.users) ∧
    (∀ rdb reqUser itemId d found, rdb.find = true → rdb.save = true → rdb.update = true →
      rdb.refetch = true → d.items.find? (fun i => i.id == itemId) = some found →
      found.owner ≠ reqUser.id → found.status = "available" →
      (requestExchange rdb db ioInstance now reqUser itemId d).2.2.status = 200) := by
  refine ⟨createNotification_eq_catch _ _ _ _ _ _, ?_, ?_, ?_, ?_, ?_, ?_, ?_⟩
  · rw [createNotification_eq_catch]
    cases h : (createNotificationTry db ioInstance users now data s).outcome <;>
      simp [catchReturnNull, h]
  · intro hv
    simp [createNotification, hv]
  · intro hc
    simp [createNotification, hc]
  · intro hp
    cases hc : db.create <;> cases hv : data.valid <;> simp [createNotification, hp, hc, hv]
  · intro hio hu
    subst hio
    cases hc : db.create <;> cases hv : data.valid <;> cases hp : db.populate <;>
      simp [createNotification, hc, hv, hp]
    cases hd : data.user with
    | none => simp [NotificationData.valid, hd] at hv
    | some u => simp [hu u hd]
  · intro rdb reqUser itemId d ndb' ioInstance'
    exact requestExchange_independent rdb now reqUser itemId d db ndb' ioInstance ioInstance'
  · intro rdb reqUser itemId d found hf hs hu hr hfound ho ha
    rw [requestExchange_ok rdb hf hs hu hr db ioInstance now reqUser itemId d found hfound ho ha]

/-! ## C12 and C13 -/

theorem countDocuments_updateMany (s : NotificationStore) (user : UserId) (now : Nat) :
    (s.updateMany user now).countDocuments user = 0 := by
  unfold NotificationStore.countDocuments NotificationStore.updateMany
  rw [List.countP_eq_zero]
  intro n hn
  simp only [List.mem_map] at hn
  obtain ⟨m, -, rfl⟩ := hn
  by_cases hu : m.user = user
  · cases hr : m.read <;> simp [hu, hr]
  · simp [hu]

/-- C12. markAllRead postcondition, on a store that answers. After
`PUT /api/notifications/read-all` by user `u`, `GET /api/notifications/unread-count`
for `u` returns 0; the collection has the same notifications at the same places; each
one of `u` that was unread has `read = true` and `readAt` set and is otherwise as
before; every other notification (of another user, or of `u` and already read) is not
modified. -/
theorem putReadAll_postcondition (db : Db) (hs : db.save = true) (hf : db.find = true)
    (now : Nat) (u : UserId) (s : NotificationStore) :
    (putReadAll db now u s).2 = ⟨200, .message "All notifications marked as read"⟩ ∧
    (getUnreadNotificationCount db u (putReadAll db now u s).1).2 = ⟨200, .count 0⟩ ∧
    (putReadAll db now u s).1.notifications.length = s.notifications.length ∧
    (∀ (i : Nat) (n : Notification), s.notifications[i]? = some n →
      ∃ n' : Notification, (putReadAll db now u s).1.notifications[i]? = some n' ∧
        (n.user = u → n.read = false →
          n'.read = true ∧ n'.readAt = some now ∧
          n' = { n with read := true, readAt := some now }) ∧
        (n.user ≠ u → n' = n) ∧
        (n.read = true → n' = n)) := by
  refine ⟨by simp [putReadAll, hs], ?_, by simp [putReadAll, hs, NotificationStore.updateMany], ?_⟩
  · simp [putReadAll, hs, getUnreadNotificationCount, hf, countDocuments_updateMany]
  · intro i n hn
    refine ⟨if n.user = u ∧ n.read = false then { n with read := true, readAt := some now }
      else n, ?_, ?_, ?_, ?_⟩
    · simp [putReadAll, hs, NotificationStore.updateMany, List.getElem?_map, hn]
    · intro hu hr
      simp [hu, hr]
    · intro hu
      simp [hu]
    · intro hr
      simp [hr]

theorem saveNotificationInto_mem (l : List Notification) (n x : Notification)
    (h : x ∈ saveNotificationInto l n) : x ∈ l ∨ x = n := by
  induction l with
  | nil => simp [saveNotificationInto] at h
  | cons d ds ih =>
    by_cases hd : d.id = n.id
    · simp only [saveNotificationInto, hd, if_true, List.mem_cons] at h
      rcases h with rfl | h
      · exact Or.inr rfl
      · exact Or.inl (List.mem_cons_of_mem _ h)
    · simp only [saveNotificationInto, hd, if_false, List.mem_cons] at h
      rcases h with rfl | h
      · exact Or.inl (List.mem_cons_self _ _)
      · rcases ih h with h | h
        · exact Or.inl (List.mem_cons_of_mem _ h)
        · exact Or.inr h

theorem createNotification_store (db : Db) (ioInstance : Bool) (users : List UserId)
    (now : Nat) (data : NotificationData) (s : NotificationStore) :
    (createNotification db ioInstance users now data s).store = s ∨
    (createNotification db ioInstance users now data s).store =
      ⟨s.notifications ++ [⟨s.nextId, data.user.getD 0, data.type.getD "", data.title.getD "",
        data.message.getD "", data.relatedItem, data.relatedModel, data.fromUser,
        data.read.getD false, data.readAt, now⟩], s.nextId + 1⟩ := by
  cases hc : db.create <;> cases hv : data.valid <;> cases hp : db.populate <;>
    cases hio : ioInstance <;> simp [createNotification, hc, hv, hp, hio]
  split <;> simp

theorem notificationStep_invariant (s : NotificationStore) (op : NotificationOp)
    (hop : op.asRoutesCall) (h : ∀ n ∈ s.notifications, n.readIffReadAt) :
    ∀ n ∈ (notificationStep s op).notifications, n.readIffReadAt := by
  cases op with
  | create db ioInstance users now data =>
    obtain ⟨hread, hreadAt⟩ := hop
    intro n hn
    rcases createNotification_store db ioInstance users now data s with he | he
    · rw [notificationStep, he] at hn; exact h n hn
    · rw [notificationStep, he] at hn
      simp only [List.mem_append, List.mem_singleton] at hn
      rcases hn with hn | rfl
      · exact h n hn
      · simp [Notification.readIffReadAt, hread, hreadAt]
  | read db now user id =>
    intro n hn
    unfold notificationStep putNotificationRead at hn
    cases hf : db.find
    · simp [hf] at hn; exact h n hn
    · cases ho : s.findById id with
      | none => simp [hf, ho] at hn; exact h n hn
      | some found =>
        by_cases hu : found.user = user
        · cases hs : db.save
          · simp [hf, ho, hu, hs] at hn; exact h n hn
          · simp only [hf, ho, hu, hs, if_true, bne_self_eq_false, Bool.false_eq_true,
              if_false] at hn
            rcases saveNotificationInto_mem _ _ _ hn with hn | rfl
            · exact h n hn
            · simp [Notification.readIffReadAt]
        · simp [hf, ho, hu] at hn; exact h n hn
  | readAll db now user =>
    intro n hn
    unfold notificationStep putReadAll at hn
    cases hs : db.save
    · simp [hs] at hn; exact h n hn
    · simp only [hs, if_true, NotificationStore.updateMany, List.mem_map] at hn
      obtain ⟨m, hm, rfl⟩ := hn
      by_cases hc : m.user = user ∧ m.read = false
      · simp [hc, Notification.readIffReadAt]
      · simp only [hc, if_false]; exact h m hm

/-- C13. Notification read/readAt invariant. In every state reached from the empty
collection by a series of `createNotification` calls that supply neither `read` nor
`readAt`, `PUT /api/notifications/:id/read` calls and
`PUT /api/notifications/read-all` calls, whatever their other arguments and whether or
not the store answers, every stored notification has `read = true` if and only if its
`readAt` is set. -/
theorem notification_read_iff_readAt (ops : List NotificationOp)
    (hops : ∀ op ∈ ops, op.asRoutesCall) :
    ∀ n ∈ (notificationRun ops ⟨[], 0⟩).notifications,
      n.read = true ↔ n.readAt.isSome = true := by
  have key : ∀ (ops : List NotificationOp) (s : NotificationStore),
      (∀ op ∈ ops, op.asRoutesCall) → (∀ n ∈ s.notifications, n.readIffReadAt) →
      ∀ n ∈ (notificationRun ops s).notifications, n.readIffReadAt := by
    intro ops
    induction ops with
    | nil => intro s _ h; exact h
    | cons op ops ih =>
      intro s hops h
      exact ih (notificationStep s op)
        (fun o ho => hops o (List.mem_cons_of_mem _ ho))
        (notificationStep_invariant s op (hops op (List.mem_cons_self _ _)) h)
  intro n hn
  exact key ops ⟨[], 0⟩ hops (by simp) n hn

/-! ## C14, C15 and C16 -/

theorem get_set_self (r : Registry) (u : UserId) (h : SocketId) :
    Registry.get (Registry.set r u h) u = some h := by
  induction r with
  | nil => simp [Registry.set, Registry.get, List.lookup]
  | cons e r ih =>
    obtain ⟨k, v⟩ := e
    by_cases hk : k = u
    · subst hk
      simp [Registry.set, Registry.get, List.lookup]
    · have hne : (u == k) = false := by simpa using fun e => hk e.symm
      simp only [Registry.set, hk, if_false, Registry.get, List.lookup, hne]
      exact ih

theorem get_set_other (r : Registry) (u : UserId) (h : SocketId) (v : UserId) (hv : v ≠ u) :
    Registry.get (Registry.set r u h) v = Registry.get r v := by
  induction r with
  | nil =>
    have hne : (v == u) = false := by simpa using hv
    simp [Registry.set, Registry.get, List.lookup, hne]
  | cons e r ih =>
    obtain ⟨k, w⟩ := e
    by_cases hk : k = u
    · subst hk
      have hne : (v == k) = false := by simpa using hv
      simp [Registry.set, Registry.get, List.lookup, hne]
    · simp only [Registry.set, hk, if_false, Registry.get, List.lookup]
      cases hvk : (v == k)
      · exact ih
      · rfl

theorem mem_set (r : Registry) (u : UserId) (h : SocketId) (e : UserId × SocketId)
    (he : e ∈ Registry.set r u h) : e ∈ r ∨ e = (u, h) := by
  induction r with
  | nil => simpa [Registry.set] using he
  | cons x r ih =>
    obtain ⟨k, w⟩ := x
    by_cases hk : k = u
    · subst hk
      simp only [Registry.set, if_true, List.mem_cons] at he
      rcases he with rfl | he
      · exact Or.inr rfl
      · exact Or.inl (List.mem_cons_of_mem _ he)
    · simp only [Registry.set, hk, if_false, List.mem_cons] at he
      rcases he with rfl | he
      · exact Or.inl (List.mem_cons_self _ _)
      · rcases ih he with h1 | h1
        · exact Or.inl (List.mem_cons_of_mem _ h1)
        · exact Or.inr h1

theorem keys_set (r : Registry) (u : UserId) (h : SocketId) (k : UserId)
    (hk : k ∈ (Registry.set r u h).map Prod.fst) : k ∈ r.map Prod.fst ∨ k = u := by
  obtain ⟨e, he, rfl⟩ := List.mem_map.1 hk
  rcases mem_set r u h e he with h1 | rfl
  · exact Or.inl (List.mem_map_of_mem _ h1)
  · exact Or.inr rfl

theorem nodup_set (r : Registry) (u : UserId) (h : SocketId)
    (hnd : (r.map Prod.fst).Nodup) : ((Registry.set r u h).map Prod.fst).Nodup := by
  induction r with
  | nil => simp [Registry.set]
  | cons x r ih =>
    obtain ⟨k, w⟩ := x
    simp only [List.map_cons, List.nodup_cons] at hnd
    by_cases hk : k = u
    · simp only [Registry.set, hk, if_true, List.map_cons, List.nodup_cons]
      exact ⟨hk ▸ hnd.1, hnd.2⟩
    · simp only [Registry.set, hk, if_false, List.map_cons, List.nodup_cons]
      refine ⟨?_, ih hnd.2⟩
      intro hmem
      rcases keys_set r u h k hmem with h1 | h1
      · exact hnd.1 h1
      · exact hk h1

theorem nodup_delete (r : Registry) (u : UserId) (hnd : (r.map Prod.fst).Nodup) :
    ((Registry.delete r u).map Prod.fst).Nodup := by
  unfold Registry.delete
  exact List.Nodup.sublist (List.Sublist.map _ (List.filter_sublist _)) hnd

theorem get_delete_self (r : Registry) (u : UserId) :
    Registry.get (Registry.delete r u) u = none := by
  induction r with
  | nil => rfl
  | cons e r ih =>
    obtain ⟨k, w⟩ := e
    by_cases hk : k = u
    · subst hk
      simpa [Registry.delete, Registry.get, List.filter_cons] using ih
    · have hne : (u == k) = false := by simpa using fun e => hk e.symm
      simp only [Registry.delete, Registry.get, List.filter_cons, bne_iff_ne, ne_eq, hk,
        not_false_eq_true, decide_True, if_true, List.lookup, hne]
      exact ih

theorem get_delete_other (r : Registry) (u v : UserId) (hv : v ≠ u) :
    Registry.get (Registry.delete r u) v = Registry.get r v := by
  induction r with
  | nil => rfl
  | cons e r ih =>
    obtain ⟨k, w⟩ := e
    by_cases hk : k = u
    · subst hk
      have hne : (v == k) = false := by simpa using hv
      simp only [Registry.delete, Registry.get, List.filter_cons, bne_self_eq_false,
        Bool.false_eq_true, if_false, List.lookup, hne]
      exact ih
    · simp only [Registry.delete, Registry.get, List.filter_cons, bne_iff_ne, ne_eq, hk,
        not_false_eq_true, decide_True, if_true, List.lookup]
      cases hvk : (v == k)
      · exact ih
      · rfl

theorem mem_of_get (r : Registry) (u : UserId) (h : SocketId)
    (hg : Registry.get r u = some h) : (u, h) ∈ r := by
  induction r with
  | nil => simp [Registry.get, List.lookup] at hg
  | cons e r ih =>
    obtain ⟨k, w⟩ := e
    simp only [Registry.get, List.lookup] at hg
    cases hvk : (u == k)
    · rw [hvk] at hg
      exact List.mem_cons_of_mem _ (ih hg)
    · rw [hvk] at hg
      have : u = k := by simpa using hvk
      cases hg
      subst this
      exact List.mem_cons_self _ _

/-- What the middleware accepts: a non-empty token that verifies to the identity. -/
theorem authenticate_accepted (verify : String → Option UserId) (token : Option String)
    (u : UserId) (h : authenticate verify token = .accepted u) :
    ∃ t, t ≠ "" ∧ token = some t ∧ verify t = some u := by
  cases token with
  | none => simp [authenticate] at h
  | some t =>
    by_cases ht : t = ""
    · simp [authenticate, ht] at h
    · cases hv : verify t with
      | none => simp [authenticate, ht, hv] at h
      | some w =>
        simp [authenticate, ht, hv] at h
        exact ⟨t, ht, rfl, by rw [hv, h]⟩

theorem registryRun_provenance (verify : String → Option UserId)
    (events seen : List ConnectionEvent) (r : Registry)
    (hr : ∀ e ∈ r, ∃ t, t ≠ "" ∧ ConnectionEvent.connect e.2 (some t) ∈ seen ∧
      verify t = some e.1) :
    ∀ e ∈ registryRun verify events r,
      ∃ t, t ≠ "" ∧ ConnectionEvent.connect e.2 (some t) ∈ seen ++ events ∧
        verify t = some e.1 := by
  induction events generalizing seen r with
  | nil => simpa [registryRun] using hr
  | cons ev events ih =>
    intro e he
    have hstep : ∀ x ∈ registryStep verify r ev,
        ∃ t, t ≠ "" ∧ ConnectionEvent.connect x.2 (some t) ∈ seen ++ [ev] ∧
          verify t = some x.1 := by
      intro x hx
      cases ev with
      | connect socketId token =>
        simp only [registryStep, connect] at hx
        cases ha : authenticate verify token with
        | rejected err =>
          rw [ha] at hx
          obtain ⟨t, ht, hm, hv⟩ := hr x hx
          exact ⟨t, ht, List.mem_append_left _ hm, hv⟩
        | accepted u =>
          rw [ha] at hx
          rcases mem_set r u socketId x hx with hx | rfl
          · obtain ⟨t, ht, hm, hv⟩ := hr x hx
            exact ⟨t, ht, List.mem_append_left _ hm, hv⟩
          · obtain ⟨t, ht, rfl, hv⟩ := authenticate_accepted verify token u ha
            exact ⟨t, ht, by simp, hv⟩
      | disconnect socket =>
        simp only [registryStep, disconnect, Registry.delete] at hx
        obtain ⟨t, ht, hm, hv⟩ := hr x (List.mem_of_mem_filter hx)
        exact ⟨t, ht, List.mem_append_left _ hm, hv⟩
    have := ih (seen ++ [ev]) (registryStep verify r ev) hstep e
      (by simpa [registryRun] using he)
    simpa using this

/-- C14. Handshake authentication. A connection attempt whose handshake carries no
token (absent or empty), or a token that fails verification, is answered with
`Authentication error` and leaves the registry unchanged; and in every registry
reached from the empty one by connection attempts and disconnects, an entry of user
`u` with socket `h` comes from an attempt on socket `h` whose token verified and
decoded to `u`. -/
theorem handshake_authentication (verify : String → Option UserId) :
    (∀ socketId token r,
      (token = none ∨ token = some "" ∨ ∃ t, token = some t ∧ verify t = none) →
      connect verify socketId token r = (r, .rejected "Authentication error")) ∧
    (∀ events u h, Registry.get (registryRun verify events []) u = some h →
      ∃ t, t ≠ "" ∧ ConnectionEvent.connect h (some t) ∈ events ∧ verify t = some u) := by
  constructor
  · intro socketId token r h
    rcases h with rfl | rfl | ⟨t, rfl, hv⟩
    · simp [connect, authenticate]
    · simp [connect, authenticate]
    · by_cases ht : t = "" <;> simp [connect, authenticate, ht, hv]
  · intro events u h hg
    have := registryRun_provenance verify events [] [] (by simp) (u, h)
      (mem_of_get _ u h hg)
    simpa using this

theorem registryRun_nodup (verify : String → Option UserId) (events : List ConnectionEvent)
    (r : Registry) (hnd : (r.map Prod.fst).Nodup) :
    ((registryRun verify events r).map Prod.fst).Nodup := by
  induction events generalizing r with
  | nil => exact hnd
  | cons ev events ih =>
    apply ih
    cases ev with
    | connect socketId token =>
      simp only [registryStep, connect]
      cases authenticate verify token with
      | rejected err => exact hnd
      | accepted u => exact nodup_set r u socketId hnd
    | disconnect socket => exact nodup_delete r socket.userId hnd

/-- C15. Last-connect-wins registry. After a connection attempt on socket `h` that was
accepted for user `u`, the registry maps `u` to `h`, whatever it held for `u` before,
and the entry of every other user is unchanged; in every registry reached from the
empty one by connection attempts and disconnects no user has two entries. -/
theorem last_connect_wins (verify : String → Option UserId) :
    (∀ h token r u, (connect verify h token r).2 = .accepted u →
      Registry.get (connect verify h token r).1 u = some h ∧
      ∀ v, v ≠ u → Registry.get (connect verify h token r).1 v = Registry.get r v) ∧
    (∀ events, ((registryRun verify events []).map Prod.fst).Nodup) := by
  constructor
  · intro h token r u hacc
    unfold connect at hacc ⊢
    cases ha : authenticate verify token with
    | rejected err => rw [ha] at hacc; cases hacc
    | accepted w =>
      rw [ha] at hacc
      cases hacc
      exact ⟨get_set_self r u h, fun v hv => get_set_other r u h v hv⟩
  · intro events
    exact registryRun_nodup verify events [] (by simp)

/-- C16, what the code does. The `disconnect` handler removes the registry entry of the
socket's user whatever socket that entry holds, and leaves the entries of all other
users unchanged. -/
theorem disconnect_removes_entry (socket : Socket) (r : Registry) :
    Registry.get (disconnect socket r) socket.userId = none ∧
    ∀ v, v ≠ socket.userId → Registry.get (disconnect socket r) v = Registry.get r v :=
  ⟨get_delete_self r socket.userId, fun v hv => get_delete_other r socket.userId v hv⟩

/-- C16 fails on the code. User 7 connects on socket 1, connects again on socket 2, so
that the registry maps 7 to socket 2; then socket 1 disconnects and the registry has no
entry for user 7, instead of still mapping 7 to socket 2. -/
theorem stale_disconnect_evicts_newer :
    Registry.get (registryRun demoVerify (demoReconnect.take 2) []) 7 = some 2 ∧
    Registry.get (registryRun demoVerify demoReconnect []) 7 = none ∧
    ¬ (Registry.get (registryRun demoVerify demoReconnect []) 7 = some 2) := by
  decide

/-! ## C17, C18 and C19: the code evaluated -/

/-- C17, evaluated on the code. Conversation 0 is between users 1 and 2; users 2 and 3
are connected on sockets 20 and 30. User 1 sends "hi" with `chatId` 0 and `recipientId`
3: the message is appended to conversation 0, and the one `receive-message` event,
which carries the message and the whole conversation, goes to socket 30 of user 3, who
is not a participant; nothing goes to socket 20. -/
theorem sendMessage_pushes_to_payload_recipient :
    (demoStore.findById 0).map Chat.participants = some [1, 2] ∧
    Registry.get demoRegistry3 2 = some 20 ∧ Registry.get demoRegistry3 3 = some 30 ∧
    (sendMessage Db.up 5 demoRegistry3 demoSocket ⟨some 0, some "hi", some 3⟩ demoStore).1.findById 0 =
      some demoSaved ∧
    (sendMessage Db.up 5 demoRegistry3 demoSocket ⟨some 0, some "hi", some 3⟩
      demoStore).2.filter Effect.isReceiveMessage =
      [.emit 30 (.receiveMessage 0 (some ⟨1, "hi", false, 5⟩) demoSaved)] := by
  decide

/-- C18, evaluated on the code. Conversation 0 is between users 1 and 2 and holds one
unread message of each. User 3 names it by id: the socket send is acknowledged and the
POST answered 200, each appending a message of user 3 and replacing `lastMessage`; the
socket `mark-read` and the PUT (answered 200) set every message read. The sibling
`GET /api/chat/messages/0` answers 403 to user 3. -/
theorem outsider_mutates_conversation :
    (demoThread.findById 0).map Chat.participants = some [1, 2] ∧
    (sendMessage Db.up 9 demoRegistry demoOutsider ⟨some 0, some "hi", none⟩ demoThread) =
      (⟨[demoIntruded], 1⟩,
        [.saved demoIntruded, .emit 30 (.messageSent 0 (some ⟨3, "hi", false, 9⟩))]) ∧
    (postMessage Db.up 9 3 ⟨some 0, some "hi", none⟩ demoThread) =
      (⟨[demoIntruded], 1⟩, ⟨200, .sent (some ⟨3, "hi", false, 9⟩) demoIntruded⟩) ∧
    (markRead Db.up demoRegistry demoOutsider 0 demoThread).1 = ⟨[demoAllRead], 1⟩ ∧
    (putRead Db.up 3 0 demoThread) =
      (⟨[demoAllRead], 1⟩, ⟨200, .message "Messages marked as read"⟩) ∧
    (getMessages Db.up 3 0 demoThread).2 = ⟨403, .message "Not authorized"⟩ := by
  decide

/-- C19, evaluated on the code. User 1, connected on socket 10, sends "hi" with
`recipientId` 1. On the empty store a conversation with participants `[1, 1]` is
created, the message is appended to it, and `receive-message` is emitted to socket 10;
the POST does the same and answers 200. On a store holding the conversation of users 1
and 2 the message is appended to that conversation. The sibling
`GET /api/chat/conversation/1` answers 400 to user 1. -/
theorem self_send_is_accepted :
    (sendMessage Db.up 5 [(1, 10)] demoSocket ⟨none, some "hi", some 1⟩ Store.empty) =
      (⟨[⟨0, [1, 1], [⟨1, "hi", false, 5⟩], "hi", 5⟩], 1⟩,
        [.created ⟨0, [1, 1], [], "", 5⟩,
          .saved ⟨0, [1, 1], [⟨1, "hi", false, 5⟩], "hi", 5⟩,
          .emit 10 (.receiveMessage 0 (some ⟨1, "hi", false, 5⟩)
            ⟨0, [1, 1], [⟨1, "hi", false, 5⟩], "hi", 5⟩),
          .emit 10 (.messageSent 0 (some ⟨1, "hi", false, 5⟩))]) ∧
    (postMessage Db.up 5 1 ⟨none, some "hi", some 1⟩ Store.empty) =
      (⟨[⟨0, [1, 1], [⟨1, "hi", false, 5⟩], "hi", 5⟩], 1⟩,
        ⟨200, .sent (some ⟨1, "hi", false, 5⟩) ⟨0, [1, 1], [⟨1, "hi", false, 5⟩], "hi", 5⟩⟩) ∧
    (sendMessage Db.up 5 [(1, 10)] demoSocket ⟨none, some "hi", some 1⟩ demoStore).1 =
      ⟨[demoSaved], 1⟩ ∧
    (getConversation Db.up 5 1 1 Store.empty) =
      (Store.empty, ⟨400, .message "Cannot chat with yourself"⟩) := by
  decide

/-! ## C20 -/

theorem lookup_store_shape (db : Db) (now : Nat) (user : UserId) (chatId : Option ChatId)
    (recipientId : Option UserId) (s : Store) :
    (lookupConversation db now user chatId recipientId s).store.chats = s.chats ∨
    ∃ ps, (lookupConversation db now user chatId recipientId s).store.chats =
      s.chats ++ [⟨s.nextId, ps, [], "", now⟩] := by
  rcases lookupConversation_cases db now user chatId recipientId s with
    h | h | ⟨found, s1, fx, h, -, -, hst⟩
  · rw [h]; exact Or.inl rfl
  · rw [h]; exact Or.inl rfl
  · rw [h]
    rcases hst with ⟨rfl, -⟩ | ⟨r, -, -, -, -, rfl⟩
    · exact Or.inl rfl
    · exact Or.inr ⟨[user, r], rfl⟩

theorem validText_false {text : Option String} (h : text = none ∨ text = some "") :
    validText text = false := by
  rcases h with rfl | rfl <;> simp [validText]

theorem sendMessage_invalid_store (db : Db) (now : Nat) (userSockets : Registry)
    (socket : Socket) (data : SendPayload) (s : Store) (h : validText data.text = false) :
    (sendMessage db now userSockets socket data s).1 =
      (lookupConversation db now socket.userId data.chatId data.recipientId s).store := by
  unfold sendMessage
  split
  · next s1 fx hl => rw [hl]; rfl
  · next s1 fx hl => rw [hl]; rfl
  · next found s1 fx hl => simp [hl, h, Lookup.store]

theorem postMessage_invalid (db : Db) (now : Nat) (user : UserId) (body : SendPayload)
    (s : Store) (h : validText body.text = false) :
    (postMessage db now user body s).1 =
      (lookupConversation db now user body.chatId body.recipientId s).store ∧
    ((postMessage db now user body s).2 = ⟨500, .failure⟩ ∨
      (postMessage db now user body s).2 = ⟨404, .message "Conversation not found"⟩ ∨
      (postMessage db now user body s).2 = ⟨400, .message "chatId or recipientId required"⟩) := by
  unfold postMessage
  split
  · next s1 fx hl => rw [hl]; exact ⟨rfl, Or.inl rfl⟩
  · next s1 fx hl =>
    rw [hl]
    cases body.chatId <;> simp [Lookup.store]
  · next found s1 fx hl => simp [hl, h, Lookup.store]

theorem chats_unchanged_or_fresh {s s' : Store} {now : Nat}
    (h : s'.chats = s.chats ∨ ∃ ps, s'.chats = s.chats ++ [⟨s.nextId, ps, [], "", now⟩]) :
    (∀ id conv, s.findById id = some conv → s'.findById id = some conv) ∧
    (∀ conv ∈ s'.chats, conv ∈ s.chats ∨ (conv.messages = [] ∧ conv.lastMessage = "")) := by
  rcases h with he | ⟨ps, he⟩
  · refine ⟨fun id conv hf => ?_, fun conv hc => Or.inl (he ▸ hc)⟩
    unfold Store.findById at hf ⊢
    rw [he]; exact hf
  · refine ⟨fun id conv hf => ?_, fun conv hc => ?_⟩
    · unfold Store.findById at hf ⊢
      rw [he, List.find?_append, hf]; rfl
    · rw [he, List.mem_append, List.mem_singleton] at hc
      rcases hc with hc | rfl
      · exact Or.inl hc
      · exact Or.inr ⟨rfl, rfl⟩

/-- C20. Empty text is rejected. For a send whose text is absent or the empty string,
by socket or by POST: every stored conversation is stored unchanged afterwards
(messages and `lastMessage` included), and a conversation that was not stored before
has no message and an empty `lastMessage`; the socket handler emits no
`receive-message` and no `message-sent` and exactly one `error` event, on the sender's
socket; the POST is answered with an error status (500, 404 or 400). -/
theorem empty_text_rejected (db : Db) (now : Nat) (data : SendPayload) (s : Store)
    (h : data.text = none ∨ data.text = some "") :
    (∀ userSockets socket,
      (∀ id conv, s.findById id = some conv →
        (sendMessage db now userSockets socket data s).1.findById id = some conv) ∧
      (∀ conv ∈ (sendMessage db now userSockets socket data s).1.chats,
        conv ∈ s.chats ∨ (conv.messages = [] ∧ conv.lastMessage = "")) ∧
      (∀ target ev, Effect.emit target ev ∈ (sendMessage db now userSockets socket data s).2 →
        ev.isDelivery = false) ∧
      ∃ msg, (sendMessage db now userSockets socket data s).2.filter Effect.isEmit =
        [.emit socket.id (.error msg)]) ∧
    (∀ user,
      (∀ id conv, s.findById id = some conv →
        (postMessage db now user data s).1.findById id = some conv) ∧
      (∀ conv ∈ (postMessage db now user data s).1.chats,
        conv ∈ s.chats ∨ (conv.messages = [] ∧ conv.lastMessage = "")) ∧
      ((postMessage db now user data s).2 = ⟨500, .failure⟩ ∨
        (postMessage db now user data s).2 = ⟨404, .message "Conversation not found"⟩ ∨
        (postMessage db now user data s).2 =
          ⟨400, .message "chatId or recipientId required"⟩)) := by
  have hv := validText_false h
  constructor
  · intro userSockets socket
    have hst := sendMessage_invalid_store db now userSockets socket data s hv
    have hshape := lookup_store_shape db now socket.userId data.chatId data.recipientId s
    rw [← hst] at hshape
    obtain ⟨h1, h2⟩ := chats_unchanged_or_fresh hshape
    obtain ⟨⟨msg, hmsg⟩, -, -⟩ :=
      (sendMessage_trace_facts db now userSockets socket data s).2 (by simp [hv])
    refine ⟨h1, h2, ?_, msg, hmsg⟩
    intro target ev hmem
    have := mem_filter_isEmit hmem
    rw [hmsg] at this
    simp only [List.mem_singleton, Effect.emit.injEq] at this
    obtain ⟨-, rfl⟩ := this
    rfl
  · intro user
    obtain ⟨hst, hresp⟩ := postMessage_invalid db now user data s hv
    have hshape := lookup_store_shape db now user data.chatId data.recipientId s
    rw [← hst] at hshape
    obtain ⟨h1, h2⟩ := chats_unchanged_or_fresh hshape
    exact ⟨h1, h2, hresp⟩

/-! ## The theorems of the gateway, the notifications and the rejections at concrete inputs -/

/-- C11 at a notification whose type is outside the enum, and at a request of item 7
by user 1 while every store call of `createNotification` rejects. -/
theorem createNotification_never_raises_witness :
    demoBadNotification.valid = false ∧
    createNotification Db.up true [1, 2] 9 demoBadNotification ⟨[], 0⟩ = ⟨⟨[], 0⟩, [], none⟩ ∧
    (requestExchange ⟨true, true, true, true⟩ Db.down true 9 ⟨1, "Ann", 0⟩ 7
      demoDomain).2.2.status = 200 :=
  ⟨by decide,
    (createNotification_never_raises Db.up true [1, 2] 9 demoBadNotification ⟨[], 0⟩).2.2.1
      (by decide),
    (createNotification_never_raises Db.down true [1, 2] 9 demoBadNotification
      ⟨[], 0⟩).2.2.2.2.2.2.2 ⟨true, true, true, true⟩ ⟨1, "Ann", 0⟩ 7 demoDomain
      ⟨7, 2, "Lamp", "available", none⟩ rfl rfl rfl rfl (by decide) (by decide) rfl⟩

/-- C12 at a mark-all-read by user 2 who has one unread and one read notification. -/
theorem putReadAll_postcondition_witness :
    Db.up.save = true ∧ Db.up.find = true ∧
    (getUnreadNotificationCount Db.up 2 demoNotifications).2 = ⟨200, .count 1⟩ ∧
    (getUnreadNotificationCount Db.up 2 (putReadAll Db.up 8 2 demoNotifications).1).2 =
      ⟨200, .count 0⟩ :=
  ⟨rfl, rfl, by decide, (putReadAll_postcondition Db.up rfl rfl 8 2 demoNotifications).2.1⟩

/-- C13 after a creation, a read and a mark-all-read. -/
theorem notification_read_iff_readAt_witness :
    (∀ op ∈ demoNotificationOps, op.asRoutesCall) ∧
    (notificationRun demoNotificationOps ⟨[], 0⟩).notifications.length = 1 ∧
    ∀ n ∈ (notificationRun demoNotificationOps ⟨[], 0⟩).notifications,
      n.read = true ↔ n.readAt.isSome = true :=
  ⟨by decide, by decide, notification_read_iff_readAt demoNotificationOps (by decide)⟩

/-- C14 at an attempt with a token that does not verify, and at the entry of user 7
after two accepted attempts. -/
theorem handshake_authentication_witness :
    demoVerify "forged" = none ∧
    connect demoVerify 5 (some "forged") [(7, 1)] = ([(7, 1)], .rejected "Authentication error") ∧
    Registry.get (registryRun demoVerify (demoReconnect.take 2) []) 7 = some 2 ∧
    ∃ t, t ≠ "" ∧ ConnectionEvent.connect 2 (some t) ∈ demoReconnect.take 2 ∧
      demoVerify t = some 7 :=
  ⟨by decide,
    (handshake_authentication demoVerify).1 5 (some "forged") [(7, 1)]
      (Or.inr (Or.inr ⟨"forged", rfl, by decide⟩)),
    by decide,
    (handshake_authentication demoVerify).2 (demoReconnect.take 2) 7 2 (by decide)⟩

/-- C15 at a second connection of user 7 while user 8 is connected. -/
theorem last_connect_wins_witness :
    (connect demoVerify 2 (some "token-7") [(7, 1), (8, 3)]).2 = .accepted 7 ∧
    Registry.get (connect demoVerify 2 (some "token-7") [(7, 1), (8, 3)]).1 7 = some 2 ∧
    (8 : UserId) ≠ 7 ∧
    Registry.get (connect demoVerify 2 (some "token-7") [(7, 1), (8, 3)]).1 8 =
      Registry.get [(7, 1), (8, 3)] 8 :=
  ⟨by decide,
    ((last_connect_wins demoVerify).1 2 (some "token-7") [(7, 1), (8, 3)] 7 (by decide)).1,
    by decide,
    ((last_connect_wins demoVerify).1 2 (some "token-7") [(7, 1), (8, 3)] 7 (by decide)).2 8
      (by decide)⟩

/-- The amended C16 at the disconnect of socket 1 of user 7 while the registry maps 7 to
socket 2 and user 8 to socket 3. -/
theorem disconnect_removes_entry_witness :
    Registry.get (disconnect ⟨1, 7⟩ [(7, 2), (8, 3)]) 7 = none ∧
    (8 : UserId) ≠ 7 ∧
    Registry.get (disconnect ⟨1, 7⟩ [(7, 2), (8, 3)]) 8 = Registry.get [(7, 2), (8, 3)] 8 :=
  ⟨(disconnect_removes_entry ⟨1, 7⟩ [(7, 2), (8, 3)]).1, by decide,
    (disconnect_removes_entry ⟨1, 7⟩ [(7, 2), (8, 3)]).2 8 (by decide)⟩

/-- C20 at a send of the empty string into conversation 0. -/
theorem empty_text_rejected_witness :
    (demoEmptySend.text = none ∨ demoEmptySend.text = some "") ∧
    (sendMessage Db.up 5 demoRegistry demoSocket demoEmptySend demoStore).1 = demoStore ∧
    (∃ msg, (sendMessage Db.up 5 demoRegistry demoSocket demoEmptySend demoStore).2.filter
      Effect.isEmit = [.emit demoSocket.id (.error msg)]) ∧
    ((postMessage Db.up 5 1 demoEmptySend demoStore).2 = ⟨500, .failure⟩ ∨
      (postMessage Db.up 5 1 demoEmptySend demoStore).2 =
        ⟨404, .message "Conversation not found"⟩ ∨
      (postMessage Db.up 5 1 demoEmptySend demoStore).2 =
        ⟨400, .message "chatId or recipientId required"⟩) :=
  ⟨Or.inr rfl, by decide,
    ((empty_text_rejected Db.up 5 demoEmptySend demoStore (Or.inr rfl)).1 demoRegistry
      demoSocket).2.2.2,
    ((empty_text_rejected Db.up 5 demoEmptySend demoStore (Or.inr rfl)).2 1).2.2⟩

/-! ## C21 and C22: the code evaluated -/

theorem participantsStep_length {s s' : Store} (hstep : ParticipantsStep s s')
    (h : ∀ ps ∈ s.chats.map Chat.participants, ps.length = 2) :
    ∀ ps ∈ s'.chats.map Chat.participants, ps.length = 2 := by
  rcases hstep with he | ⟨a, b, -, he⟩
  · rw [he]; exact h
  · rw [he]
    intro ps hps
    rcases List.mem_append.1 hps with hps | hps
    · exact h ps hps
    · rw [List.mem_singleton] at hps
      rw [hps]; rfl

/-- In every store reached from the empty one the participants list of each stored
conversation has length two. -/
theorem participants_length_two (ops : List Op) :
    ∀ c ∈ (run ops Store.empty).chats, c.participants.length = 2 := by
  have key : ∀ (ops : List Op) (s : Store), s.WF →
      (∀ ps ∈ s.chats.map Chat.participants, ps.length = 2) →
      ∀ ps ∈ (run ops s).chats.map Chat.participants, ps.length = 2 := by
    intro ops
    induction ops with
    | nil => intro s _ h; exact h
    | cons op ops ih =>
      intro s hwf h
      exact ih (step s op) (step_WF hwf op) (participantsStep_length (step_participants hwf op) h)
  intro c hc
  exact key ops Store.empty empty_WF (by simp [Store.empty]) c.participants
    (List.mem_map_of_mem _ hc)

/-- C21, evaluated on the code. On the empty store user 1 sends "hi" with `recipientId`
1, by socket or by POST: the conversation that is created and stored has the
participants list `[1, 1]`, of length two but with equal entries. -/
theorem self_send_stores_equal_participants :
    (sendMessage Db.up 5 [] demoSocket demoSelfSend Store.empty).1.chats.map Chat.participants =
      [[1, 1]] ∧
    (postMessage Db.up 5 1 demoSelfSend Store.empty).1.chats.map Chat.participants = [[1, 1]] ∧
    (run [.sendMessage Db.up 5 [] demoSocket demoSelfSend] Store.empty).chats.all
      (fun c => decide (c.participants.length = 2) && decide (c.participants.Nodup)) = false := by
  decide

/-- C22, evaluated on the code. User 1 sends "hello" to user 2 on a fresh pair. The
entry of user 2 in `GET /api/chat/conversations` shows `unreadCount` 1 and
`lastMessage` "hello"; the entry of user 1, who sent the only message, shows
`unreadCount` 1 too, while `GET /api/chat/unread-count` answers 0 to user 1. -/
theorem conversation_list_counts_own_messages :
    (getConversations Db.up [1, 2] 2 (step Store.empty demoHello)).2 =
      (200, .list [⟨0, some 1, "hello", 5, 1⟩]) ∧
    (getConversations Db.up [1, 2] 1 (step Store.empty demoHello)).2 =
      (200, .list [⟨0, some 2, "hello", 5, 1⟩]) ∧
    (getUnreadCount Db.up 1 (step Store.empty demoHello)).2 = ⟨200, .count 0⟩ ∧
    ((step Store.empty demoHello).chats.map (fun c => c.unreadFor 1)) = [0] := by
  decide

/-! ## C23 -/

/-- The emissions of the `mark-read` handler once the conversation is found and saved. -/
theorem markRead_emissions (db : Db) (hf : db.find = true) (hs : db.save = true)
    (userSockets : Registry) (socket : Socket) (chatId : ChatId) (s : Store) (found : Chat)
    (h : s.findById chatId = some found) :
    (markRead db userSockets socket chatId s).2.filter Effect.isEmit =
      match found.participants.find? (fun p => p != socket.userId) with
      | some other =>
        match Registry.get userSockets other with
        | some otherSocketId => [.emit otherSocketId (.messagesRead chatId)]
        | none => []
      | none => [] := by
  have hp : (found.markRead socket.userId).participants = found.participants := rfl
  cases hfind : found.participants.find? (fun p => p != socket.userId) with
  | none => simp [markRead, hf, hs, h, hp, hfind, Effect.isEmit]
  | some other =>
    cases hr : Registry.get userSockets other <;>
      simp [markRead, hf, hs, h, hp, hfind, hr, Effect.isEmit]

/-- C23. messages-read goes to the reader's peer, on a store that answers. After a socket
`mark-read` by reader `r` on a stored conversation whose participants are `r` and `p`,
the emissions of the handler are exactly one `messages-read` event naming the
conversation, on the socket registered for `p`, when the registry has an entry for
`p`, and none at all when it has not. -/
theorem messagesRead_goes_to_peer (db : Db) (hf : db.find = true) (hs : db.save = true)
    (userSockets : Registry) (socket : Socket) (chatId : ChatId) (s : Store) (found : Chat)
    (p : UserId) (h : s.findById chatId = some found) (hne : p ≠ socket.userId)
    (hpart : found.participants = [socket.userId, p] ∨ found.participants = [p, socket.userId]) :
    (markRead db userSockets socket chatId s).2.filter Effect.isEmit =
      match Registry.get userSockets p with
      | some peerSocketId => [.emit peerSocketId (.messagesRead chatId)]
      | none => [] := by
  rw [markRead_emissions db hf hs userSockets socket chatId s found h]
  have hfind : found.participants.find? (fun q => q != socket.userId) = some p := by
    rcases hpart with hp | hp <;> rw [hp] <;> simp [List.find?_cons, hne]
  rw [hfind]

/-! ## C24 -/

theorem markRead_markRead (c : Chat) (u : UserId) : (c.markRead u).markRead u = c.markRead u := by
  simp only [Chat.markRead, List.map_map]
  congr 1
  apply List.map_congr_left
  intro m _
  by_cases h : m.sender = u <;> simp [h]

theorem markRead_of_all_read (c : Chat) (u : UserId)
    (h : ∀ m ∈ c.messages, m.sender ≠ u → m.read = true) : c.markRead u = c := by
  have : c.messages.map
      (fun msg => if msg.sender ≠ u then { msg with read := true } else msg) = c.messages := by
    conv_rhs => rw [← List.map_id c.messages]
    apply List.map_congr_left
    intro m hm
    by_cases hs : m.sender = u
    · simp [hs]
    · have := h m hm hs
      simp only [ne_eq, hs, not_false_eq_true, if_true, id]
      cases m
      simp_all
  simp only [Chat.markRead, this]

theorem saveInto_self (l : List Chat) (c : Chat)
    (h : l.find? (fun d => d.id == c.id) = some c) : saveInto l c = l := by
  induction l with
  | nil => rfl
  | cons d ds ih =>
    by_cases hd : d.id = c.id
    · have : d = c := by simpa [List.find?_cons, hd] using h
      simp [saveInto, hd, this]
    · have h' : ds.find? (fun d => d.id == c.id) = some c := by
        simpa [List.find?_cons, hd] using h
      simp [saveInto, hd, ih h']

theorem save_self {s : Store} {chatId : ChatId} {c : Chat} (h : s.findById chatId = some c) :
    s.save c = s := by
  have hid : c.id = chatId := findById_id h
  have : saveInto s.chats c = s.chats := saveInto_self s.chats c (by rw [hid]; exact h)
  simp [Store.save, this]

/-- C24. markRead is idempotent, on a store that answers. For the socket `mark-read` and
for `PUT /api/chat/messages/:chatId/read`: a second markRead by the same reader leaves
the store as the first one left it, and a markRead on a conversation whose messages of
other senders are all read leaves the store unchanged; the PUT answers 200 each time. -/
theorem markRead_idempotent (db : Db) (hf : db.find = true) (hs : db.save = true)
    (u : UserId) (chatId : ChatId) (s : Store) (c : Chat) (h : s.findById chatId = some c) :
    (∀ userSockets socketId,
      (markRead db userSockets ⟨socketId, u⟩ chatId
        (markRead db userSockets ⟨socketId, u⟩ chatId s).1).1 =
        (markRead db userSockets ⟨socketId, u⟩ chatId s).1) ∧
    putRead db u chatId (putRead db u chatId s).1 =
      ((putRead db u chatId s).1, ⟨200, .message "Messages marked as read"⟩) ∧
    ((∀ m ∈ c.messages, m.sender ≠ u → m.read = true) →
      (∀ userSockets socketId, (markRead db userSockets ⟨socketId, u⟩ chatId s).1 = s) ∧
      putRead db u chatId s = (s, ⟨200, .message "Messages marked as read"⟩)) := by
  have h1 : (s.save (c.markRead u)).findById chatId = some (c.markRead u) :=
    findById_save_found h _ rfl
  have hsock : ∀ (userSockets : Registry) (socketId : SocketId) (s' : Store) (c' : Chat),
      s'.findById chatId = some c' →
      (markRead db userSockets ⟨socketId, u⟩ chatId s').1 = s'.save (c'.markRead u) := by
    intro userSockets socketId s' c' h'
    rw [markRead_store]
    simp only [hf, hs, h', Bool.and_self, if_true]
  have hput : ∀ (s' : Store) (c' : Chat), s'.findById chatId = some c' →
      putRead db u chatId s' =
        (s'.save (c'.markRead u), ⟨200, .message "Messages marked as read"⟩) := by
    intro s' c' h'
    simp [putRead, hf, hs, h']
  have htwice : (s.save (c.markRead u)).save ((c.markRead u).markRead u) =
      s.save (c.markRead u) := by
    rw [markRead_markRead]
    exact save_self h1
  refine ⟨?_, ?_, ?_⟩
  · intro userSockets socketId
    rw [hsock userSockets socketId s c h, hsock userSockets socketId _ _ h1, htwice]
  · rw [hput s c h, hput _ _ h1, htwice]
  · intro hall
    have hc : c.markRead u = c := markRead_of_all_read c u hall
    refine ⟨fun userSockets socketId => ?_, ?_⟩
    · rw [hsock userSockets socketId s c h, hc, save_self h]
    · rw [hput s c h, hc, save_self h]

/-! ## C25 and C26 -/

/-- C25. Reading a thread is participant-only, on a store that answers.
`GET /api/chat/messages/:chatId` never changes the store; it answers 404 when no
conversation has the id; it answers 403 exactly when the conversation exists and the
requesting user is not one of its participants; otherwise it answers 200 with the
conversation's messages as they are stored, in stored order. -/
theorem getMessages_participant_only (db : Db) (hf : db.find = true)
    (hp : db.populate = true) (u : UserId) (chatId : ChatId) (s : Store) :
    (getMessages db u chatId s).1 = s ∧
    (s.findById chatId = none →
      (getMessages db u chatId s).2 = ⟨404, .message "Conversation not found"⟩) ∧
    ((getMessages db u chatId s).2.status = 403 ↔
      ∃ c, s.findById chatId = some c ∧ u ∉ c.participants) ∧
    (∀ c, s.findById chatId = some c → u ∉ c.participants →
      (getMessages db u chatId s).2 = ⟨403, .message "Not authorized"⟩) ∧
    (∀ c, s.findById chatId = some c → u ∈ c.participants →
      (getMessages db u chatId s).2 = ⟨200, .messages c.messages⟩) := by
  cases hc : s.findById chatId with
  | none => simp [getMessages, hf, hc]
  | some c =>
    by_cases hu : u ∈ c.participants
    · simp [getMessages, hf, hp, hc, hu]
    · simp [getMessages, hf, hp, hc, hu]

theorem saveNotificationInto_length (l : List Notification) (n : Notification) :
    (saveNotificationInto l n).length = l.length := by
  induction l with
  | nil => rfl
  | cons d ds ih => by_cases h : d.id = n.id <;> simp [saveNotificationInto, h, ih]

/-- The write of `notification.save()` changes the found notification and no other. -/
theorem saveNotificationInto_getElem? (l : List Notification) (n n' : Notification)
    (hid : n'.id = n.id) (hfind : l.find? (fun d => d.id == n.id) = some n) :
    (saveNotificationInto l n').find? (fun d => d.id == n.id) = some n' ∧
    ∀ (i : Nat) (m : Notification), l[i]? = some m →
      ∃ m' : Notification, (saveNotificationInto l n')[i]? = some m' ∧
        (m' = m ∨ (m = n ∧ m' = n')) := by
  induction l with
  | nil => simp at hfind
  | cons d ds ih =>
    by_cases hd : d.id = n.id
    · have hdn : d = n := by simpa [List.find?_cons, hd] using hfind
      subst hdn
      have hd' : d.id = n'.id := hid.symm
      have hbeq : (n'.id == d.id) = true := by rw [hid]; exact beq_self_eq_true _
      refine ⟨?_, ?_⟩
      · simp only [saveNotificationInto, hd', if_true, List.find?_cons, beq_self_eq_true]
      intro i m hm
      cases i with
      | zero =>
        simp only [List.getElem?_cons_zero, Option.some.injEq] at hm
        refine ⟨n', ?_, Or.inr ⟨hm.symm, rfl⟩⟩
        simp only [saveNotificationInto, hd', if_true, List.getElem?_cons_zero]
      | succ i =>
        simp only [List.getElem?_cons_succ] at hm
        refine ⟨m, ?_, Or.inl rfl⟩
        simp only [saveNotificationInto, hd', if_true, List.getElem?_cons_succ, hm]
    · have hfind' : ds.find? (fun d => d.id == n.id) = some n := by
        simpa [List.find?_cons, hd] using hfind
      obtain ⟨ih1, ih2⟩ := ih hfind'
      have hd' : ¬ d.id = n'.id := by rw [hid]; exact hd
      have hbeq : (d.id == n.id) = false := by simpa using hd
      refine ⟨?_, ?_⟩
      · simp only [saveNotificationInto, hd', if_false, List.find?_cons, hbeq]
        exact ih1
      intro i m hm
      cases i with
      | zero =>
        simp only [List.getElem?_cons_zero, Option.some.injEq] at hm
        subst hm
        refine ⟨d, ?_, Or.inl rfl⟩
        simp only [saveNotificationInto, hd', if_false, List.getElem?_cons_zero]
      | succ i =>
        simp only [List.getElem?_cons_succ] at hm
        obtain ⟨m', hm', hor⟩ := ih2 i m hm
        refine ⟨m', ?_, hor⟩
        simp only [saveNotificationInto, hd', if_false, List.getElem?_cons_succ, hm']

/-- C26. A notification is mutated only by its owner, on a store that answers.
`PUT /api/notifications/:id/read` answers 404 when the id names no notification and
403 when the notification's user is not the requester, in both cases leaving the
collection unchanged; for the owner it answers 200 with the notification, which is
then stored with `read = true` and `readAt` set, and every other stored notification
is unchanged at its place. -/
theorem putNotificationRead_owner_only (db : Db) (hf : db.find = true) (now : Nat)
    (u : UserId) (id : Nat) (s : NotificationStore) :
    (s.findById id = none →
      putNotificationRead db now u id s = (s, ⟨404, .message "Notification not found"⟩)) ∧
    (∀ n, s.findById id = some n → n.user ≠ u →
      putNotificationRead db now u id s = (s, ⟨403, .message "Not authorized"⟩)) ∧
    (∀ n, s.findById id = some n → n.user = u → db.save = true →
      (putNotificationRead db now u id s).2 =
        ⟨200, .notification { n with read := true, readAt := some now }⟩ ∧
      (putNotificationRead db now u id s).1.findById id =
        some { n with read := true, readAt := some now } ∧
      (putNotificationRead db now u id s).1.notifications.length = s.notifications.length ∧
      ∀ (i : Nat) (m : Notification), s.notifications[i]? = some m →
        ∃ m' : Notification,
          (putNotificationRead db now u id s).1.notifications[i]? = some m' ∧
          (m' = m ∨ (m = n ∧ m' = { n with read := true, readAt := some now }))) := by
  refine ⟨?_, ?_, ?_⟩
  · intro h
    simp [putNotificationRead, hf, h]
  · intro n h hu
    simp [putNotificationRead, hf, h, hu]
  · intro n h hu hs
    have hid : n.id = id := by
      have := List.find?_some h
      simpa using this
    subst hid
    obtain ⟨h1, h2⟩ := saveNotificationInto_getElem? s.notifications n
      { n with read := true, readAt := some now } rfl h
    have hst : (putNotificationRead db now u n.id s).1 =
        ⟨saveNotificationInto s.notifications { n with read := true, readAt := some now },
          s.nextId⟩ := by
      simp [putNotificationRead, hf, h, hu, hs]
    refine ⟨by simp [putNotificationRead, hf, h, hu, hs], ?_, ?_, ?_⟩
    · rw [hst]; exact h1
    · rw [hst]; exact saveNotificationInto_length _ _
    · rw [hst]; exact h2

/-! ## C27 -/

theorem find?_applyPush (l : List Chat) (id : ChatId) (pushed : List Message)
    (lastMessage : String) (lastMessageAt : Nat) (c : Chat)
    (h : l.find? (fun d => d.id == id) = some c) :
    (applyPush l id pushed lastMessage lastMessageAt).find? (fun d => d.id == id) =
      some { c with messages := c.messages ++ pushed, lastMessage := lastMessage,
                    lastMessageAt := lastMessageAt } := by
  induction l with
  | nil => simp at h
  | cons d ds ih =>
    by_cases hd : d.id = id
    · have : d = c := by simpa [List.find?_cons, hd] using h
      subst this
      simp [applyPush, hd]
    · have h' : ds.find? (fun d => d.id == id) = some c := by
        simpa [List.find?_cons, hd] using h
      simp [applyPush, hd, List.find?_cons, ih h']

theorem applyPush_eq_saveInto (l : List Chat) (id : ChatId) (m : Message) (c : Chat)
    (hr : m.read = false) (h : l.find? (fun d => d.id == id) = some c) :
    applyPush l id [m] m.text m.createdAt = saveInto l (c.push m.sender m.text m.createdAt) := by
  induction l with
  | nil => rfl
  | cons d ds ih =>
    by_cases hd : d.id = id
    · have hdc : d = c := by simpa [List.find?_cons, hd] using h
      subst hdc
      cases m
      simp only at hr
      subst hr
      simp [applyPush, saveInto, hd, Chat.push]
    · have h' : ds.find? (fun d => d.id == id) = some c := by
        simpa [List.find?_cons, hd] using h
      have hcid : c.id = id := by
        have := List.find?_some h'
        simpa using this
      have hd' : ¬ d.id = (c.push m.sender m.text m.createdAt).id := by
        show ¬ d.id = c.id
        rw [hcid]; exact hd
      simp only [applyPush, saveInto, hd, hd', if_false, ih h']

/-- On a store that has not changed since the load, the save of the pushed message is the
`Store.save` of the sequential handlers. -/
theorem savePushed_eq_save (t : SendTask) (s : Store) (c : Chat)
    (h : s.findById t.chatId = some c) :
    s.savePushed t.chatId [t.message] t.text t.now =
      s.save (c.push t.socket.userId t.text t.now) := by
  have := applyPush_eq_saveInto s.chats t.chatId t.message c rfl h
  simp only [Store.savePushed, Store.save]
  rw [show t.text = t.message.text from rfl, show t.now = t.message.createdAt from rfl, this]
  rfl

theorem findById_savePushed (t : SendTask) (s : Store) (c : Chat)
    (h : s.findById t.chatId = some c) :
    (s.savePushed t.chatId [t.message] t.text t.now).findById t.chatId =
      some (c.push t.socket.userId t.text t.now) :=
  find?_applyPush s.chats t.chatId [t.message] t.text t.now c h

theorem pushAll_append (c : Chat) (ms : List Message) (m : Message) :
    pushAll c (ms ++ [m]) = (pushAll c ms).push m.sender m.text m.createdAt := by
  simp [pushAll, List.foldl_append]

/-- The invariant of two interleaved sends into one stored conversation: the store holds
the conversation with the messages saved so far pushed in the order of the saves. -/
theorem interleave_invariant (a b : SendTask) (chatId : ChatId) (c0 : Chat)
    (ha : a.chatId = chatId) (hb : b.chatId = chatId) (schedule : List Bool) :
    ∀ (pa pb : SendPhase) (s : Store) (saved : List Message),
      s.findById chatId = some (pushAll c0 saved) → SavedSoFar a b pa pb saved →
      pa.pending ≤ schedule.count true → pb.pending ≤ schedule.count false →
      ∃ final,
        interleave a b schedule (pa, pb, s) = (.finished, .finished, final) ∧
        (final.findById chatId = some (pushAll c0 [a.message, b.message]) ∨
          final.findById chatId = some (pushAll c0 [b.message, a.message])) := by
  induction schedule with
  | nil =>
    intro pa pb s saved hs hsaved hpa hpb
    cases pa <;> cases pb <;> simp [SendPhase.pending] at hpa hpb
    simp only [SavedSoFar] at hsaved
    refine ⟨s, rfl, ?_⟩
    rcases hsaved with h | h <;> rw [h] at hs
    · exact Or.inl hs
    · exact Or.inr hs
  | cons x rest ih =>
    intro pa pb s saved hs hsaved hpa hpb
    cases x with
    | true =>
      simp only [List.count_cons_self, List.count_cons_of_ne (by decide : (true : Bool) ≠ false)]
        at hpa hpb
      cases pa with
      | start =>
        have hfind : s.findById a.chatId = some (pushAll c0 saved) := by rw [ha]; exact hs
        simp only [interleave, SendTask.advance, hfind]
        refine ih _ pb s saved hs ?_ ?_ hpb
        · cases pb <;> simpa [SavedSoFar] using hsaved
        · simp only [SendPhase.pending] at hpa ⊢
          omega
      | loaded c =>
        have hfind : s.findById a.chatId = some (pushAll c0 saved) := by rw [ha]; exact hs
        have hnew := findById_savePushed a s _ hfind
        simp only [interleave, SendTask.advance]
        refine ih .finished pb _ (saved ++ [a.message]) ?_ ?_ ?_ hpb
        · rw [pushAll_append, ← ha]; exact hnew
        · cases pb <;> simp only [SavedSoFar] at hsaved ⊢ <;> simp [hsaved]
        · simp [SendPhase.pending]
      | finished =>
        simp only [interleave, SendTask.advance]
        exact ih .finished pb s saved hs hsaved (by simp [SendPhase.pending]) hpb
    | false =>
      simp only [List.count_cons_self, List.count_cons_of_ne (by decide : (false : Bool) ≠ true)]
        at hpa hpb
      cases pb with
      | start =>
        have hfind : s.findById b.chatId = some (pushAll c0 saved) := by rw [hb]; exact hs
        simp only [interleave, SendTask.advance, hfind]
        refine ih pa _ s saved hs ?_ hpa ?_
        · cases pa <;> simpa [SavedSoFar] using hsaved
        · simp only [SendPhase.pending] at hpb ⊢
          omega
      | loaded c =>
        have hfind : s.findById b.chatId = some (pushAll c0 saved) := by rw [hb]; exact hs
        have hnew := findById_savePushed b s _ hfind
        simp only [interleave, SendTask.advance]
        refine ih pa .finished _ (saved ++ [b.message]) ?_ ?_ hpa ?_
        · rw [pushAll_append, ← hb]; exact hnew
        · cases pa <;> simp only [SavedSoFar] at hsaved ⊢ <;> simp [hsaved]
        · simp [SendPhase.pending]
      | finished =>
        simp only [interleave, SendTask.advance]
        exact ih pa .finished s saved hs hsaved hpa (by simp [SendPhase.pending])

/-- C27. Concurrent sends are serialized without loss. Two `send-message` handlers that
name the same stored conversation by id are resumed in any order, each at least at its
two awaits (the load and the save). Both handlers finish, and the stored conversation
then holds its previous messages followed by the two new messages, in one of the two
orders, with `lastMessage` the text of the message that is last. The save is the
update Mongoose sends for a pushed array (`$push` with `$set`); on a store unchanged
since the load it is the save of the sequential handler. -/
theorem concurrent_sends_serialized (a b : SendTask) (chatId : ChatId) (s : Store) (c0 : Chat)
    (ha : a.chatId = chatId) (hb : b.chatId = chatId) (h : s.findById chatId = some c0)
    (schedule : List Bool) (hca : 2 ≤ schedule.count true) (hcb : 2 ≤ schedule.count false) :
    ∃ final first second stored,
      interleave a b schedule (.start, .start, s) = (.finished, .finished, final) ∧
      ((first = a.message ∧ second = b.message) ∨ (first = b.message ∧ second = a.message)) ∧
      final.findById chatId = some stored ∧
      stored.messages = c0.messages ++ [first, second] ∧
      stored.lastMessage = second.text ∧
      stored.participants = c0.participants ∧
      (∀ c, s.findById a.chatId = some c →
        s.savePushed a.chatId [a.message] a.text a.now =
          s.save (c.push a.socket.userId a.text a.now)) := by
  obtain ⟨final, hrun, hfinal⟩ := interleave_invariant a b chatId c0 ha hb schedule
    .start .start s [] (by simpa [pushAll] using h) (by simp [SavedSoFar])
    (by simpa [SendPhase.pending] using hca) (by simpa [SendPhase.pending] using hcb)
  rcases hfinal with hf | hf
  · exact ⟨final, a.message, b.message, _, hrun, Or.inl ⟨rfl, rfl⟩, hf,
      by simp [pushAll, Chat.push, SendTask.message], rfl, rfl, fun c hc => savePushed_eq_save a s c hc⟩
  · exact ⟨final, b.message, a.message, _, hrun, Or.inr ⟨rfl, rfl⟩, hf,
      by simp [pushAll, Chat.push, SendTask.message], rfl, rfl, fun c hc => savePushed_eq_save a s c hc⟩

/-! ## C28, C29 and C30 -/

/-- C28, evaluated on the code. Three active announcements are targeted at `students`,
`alumni` and `admins`. A user whose role is `student` gets none of them from
`GET /api/announcements`, and 403 from `GET /api/announcements/0` for the one targeted
at `students`; likewise a user whose role is `admin` and the one targeted at `admins`.
A user whose role is `alumni` gets the one targeted at `alumni`. -/
theorem audience_filter_compares_role_with_group :
    audienceOf "student" = "students" ∧ audienceOf "admin" = "admins" ∧
    audienceOf "alumni" = "alumni" ∧
    getAnnouncements Db.up 20 ⟨5, "student"⟩ demoAnnouncements = (200, .list []) ∧
    getAnnouncement Db.up ⟨5, "student"⟩ 0 demoAnnouncements =
      (403, .message "Not authorized") ∧
    getAnnouncements Db.up 20 ⟨6, "admin"⟩ demoAnnouncements = (200, .list []) ∧
    getAnnouncement Db.up ⟨6, "admin"⟩ 2 demoAnnouncements =
      (403, .message "Not authorized") ∧
    getAnnouncements Db.up 20 ⟨7, "alumni"⟩ demoAnnouncements =
      (200, .list [⟨⟨1, "Reunion", "text", 9, "alumni", "medium", true, [], 2⟩, false⟩]) := by
  decide

/-- Known binary64 values, computed by the embedding: the literals 0.1 and 0.3, the sum
0.1 + 0.2, which is the Number above 0.3, the tie 2 ^ 53 + 1, which rounds to the even
mantissa, 5000 / 100, and the quotients by zero. -/
theorem binary64_examples :
    Number.ofDecimal false 1 10 = .finite false 7205759403792794 (-56) ∧
    Number.ofDecimal false 3 10 = .finite false 5404319552844595 (-54) ∧
    (Number.ofDecimal false 1 10).add (Number.ofDecimal false 2 10) =
      .finite false 5404319552844596 (-54) ∧
    Number.ofNat 9007199254740993 = Number.ofNat 9007199254740992 ∧
    (Number.ofNat 5000).div (Number.ofNat 100) = Number.ofNat 50 ∧
    (Number.ofNat 100).add (Number.ofNat 50) = Number.ofNat 150 ∧
    (Number.ofNat 1).div (Number.ofNat 0) = .infinite false ∧
    (Number.ofNat 0).div (Number.ofNat 0) = .nan ∧
    ((Number.ofDecimal false 3 10).sub (Number.ofDecimal false 1 10)).sub
      (Number.ofDecimal false 1 10) = .finite false 7205759403792792 (-56) := by
  decide

/-- What `POST /api/wallet/withdraw` can answer: `Insufficient balance` or a failure,
with the collection unchanged, or success for a wallet whose balance is not below the
amount, with the balance less the amount and one appended pending debit. The amount is
not compared with zero. -/
theorem withdraw_outcomes (accepts : Wallet → Bool) (db : Db) (user : UserId)
    (amount : Number) (w : WalletStore) :
    withdraw accepts db user amount w = (w, ⟨400, .message "Insufficient balance"⟩) ∨
    withdraw accepts db user amount w = (w, ⟨500, .failure⟩) ∨
    ∃ found, w.findOne user = some found ∧ found.balance.lt amount = false ∧
      (withdraw accepts db user amount w).2 =
        ⟨200, .success
          { found with
            balance := found.balance.sub amount
            transactions := found.transactions ++
              [⟨"debit", amount, "Withdrawal", "pending", none⟩] }⟩ := by
  cases hf : db.find
  · simp [withdraw, hf]
  · cases ho : w.findOne user with
    | none => simp [withdraw, hf, ho]
    | some found =>
      cases hlt : found.balance.lt amount
      · cases hs : db.save
        · simp [withdraw, hf, ho, hlt, hs]
        · cases ha : accepts (found.debit amount)
          · simp [withdraw, hf, ho, hlt, hs, ha]
          · refine Or.inr (Or.inr ⟨found, rfl, hlt, ?_⟩)
            simp [withdraw, hf, ho, hlt, hs, ha]
            rfl
      · simp [withdraw, hf, ho, hlt]

/-- The withdrawals compute as the route does, in binary64: from a balance of 0.3 two
withdrawals of 0.1 succeed and the third is refused, since the balance left is just
below 0.1. -/
theorem withdraw_rounds_as_binary64 :
    (withdraw acceptsAll Db.up 1 (Number.ofDecimal false 1 10) demoCents).2.status = 200 ∧
    (withdraw acceptsAll Db.up 1 (Number.ofDecimal false 1 10)
      (withdraw acceptsAll Db.up 1 (Number.ofDecimal false 1 10) demoCents).1).2.status = 200 ∧
    (withdraw acceptsAll Db.up 1 (Number.ofDecimal false 1 10)
      (withdraw acceptsAll Db.up 1 (Number.ofDecimal false 1 10)
        (withdraw acceptsAll Db.up 1 (Number.ofDecimal false 1 10) demoCents).1).1).2 =
      ⟨400, .message "Insufficient balance"⟩ := by
  decide

/-- C29, evaluated on the code, with a schema that puts no bound on the amount. The
wallet of user 1 holds 100. A withdrawal of -50 is answered with success and leaves the
balance 150, with one pending debit of -50; a withdrawal of 0 is answered with success
and leaves the balance 100. -/
theorem withdraw_accepts_nonpositive_amount :
    demoWallets.findOne 1 = some ⟨0, 1, Number.ofNat 100, []⟩ ∧
    withdraw acceptsAll Db.up 1 (Number.ofNat 50).neg demoWallets =
      (⟨[⟨0, 1, Number.ofNat 150,
          [⟨"debit", (Number.ofNat 50).neg, "Withdrawal", "pending", none⟩]⟩], 1⟩,
        ⟨200, .success ⟨0, 1, Number.ofNat 150,
          [⟨"debit", (Number.ofNat 50).neg, "Withdrawal", "pending", none⟩]⟩⟩) ∧
    withdraw acceptsAll Db.up 1 (Number.ofNat 0) demoWallets =
      (⟨[⟨0, 1, Number.ofNat 100,
          [⟨"debit", Number.ofNat 0, "Withdrawal", "pending", none⟩]⟩], 1⟩,
        ⟨200, .success ⟨0, 1, Number.ofNat 100,
          [⟨"debit", Number.ofNat 0, "Withdrawal", "pending", none⟩]⟩⟩) ∧
    (Number.ofNat 100).lt (Number.ofNat 150) = true := by
  decide

theorem find?_saveWalletInto_other (l : List Wallet) (x : Wallet) (p : Wallet → Bool)
    (hx : p x = false) (hl : ∀ d ∈ l, d.id = x.id → p d = false) :
    (saveWalletInto l x).find? p = l.find? p := by
  induction l with
  | nil => rfl
  | cons d ds ih =>
    by_cases hd : d.id = x.id
    · have hpd := hl d (List.mem_cons_self _ _) hd
      simp [saveWalletInto, hd, List.find?_cons, hx, hpd]
    · have := ih (fun e he => hl e (List.mem_cons_of_mem _ he))
      simp [saveWalletInto, hd, List.find?_cons, this]

theorem find?_saveWalletInto_self (l : List Wallet) (x found : Wallet) (p : Wallet → Bool)
    (hid : x.id = found.id) (hx : p x = true) (hfind : l.find? p = some found)
    (huniq : ∀ d ∈ l, d.id = found.id → d = found) :
    (saveWalletInto l x).find? p = some x := by
  induction l with
  | nil => simp at hfind
  | cons d ds ih =>
    by_cases hd : d.id = x.id
    · simp [saveWalletInto, hd, List.find?_cons, hx]
    · have hpd : p d = false := by
        cases hp : p d
        · rfl
        · have : d = found := by simpa [List.find?_cons, hp] using hfind
          exact absurd (by rw [this, hid]) hd
      have hfind' : ds.find? p = some found := by
        simpa [List.find?_cons, hpd] using hfind
      have := ih hfind' (fun e he => huniq e (List.mem_cons_of_mem _ he))
      simp [saveWalletInto, hd, List.find?_cons, hpd, this]

theorem saveWalletInto_map_id (l : List Wallet) (x : Wallet) :
    (saveWalletInto l x).map Wallet.id = l.map Wallet.id := by
  induction l with
  | nil => rfl
  | cons d ds ih =>
    by_cases hd : d.id = x.id
    · simp [saveWalletInto, hd]
    · simp [saveWalletInto, hd, ih]

/-- A save of a wallet keeps the ids of the collection unique and below the next id. -/
theorem saveWalletInto_WF (w : WalletStore) (x : Wallet) (hwf : w.WF) :
    WalletStore.WF ⟨saveWalletInto w.wallets x, w.nextId⟩ := by
  refine ⟨by rw [saveWalletInto_map_id]; exact hwf.1, ?_⟩
  intro d hd
  have hmem : d.id ∈ (saveWalletInto w.wallets x).map Wallet.id := List.mem_map_of_mem _ hd
  rw [saveWalletInto_map_id] at hmem
  obtain ⟨e, he, hid⟩ := List.mem_map.1 hmem
  rw [← hid]
  exact hwf.2 e he

/-- The creation of a wallet keeps the ids of the collection unique and below the next
id. -/
theorem fresh_WF (w : WalletStore) (user : UserId) (hwf : w.WF) :
    WalletStore.WF ⟨w.wallets ++ [w.fresh user], w.nextId + 1⟩ := by
  refine ⟨?_, ?_⟩
  · rw [List.map_append, List.nodup_append]
    refine ⟨hwf.1, by simp, ?_⟩
    intro a ha hb
    obtain ⟨e, he, hid⟩ := List.mem_map.1 ha
    have hlt := hwf.2 e he
    have : a = w.nextId := by simpa [WalletStore.fresh] using hb
    rw [hid, this] at hlt
    exact Nat.lt_irrefl _ hlt
  · intro d hd
    rcases List.mem_append.1 hd with h | h
    · exact Nat.lt_succ_of_lt (hwf.2 d h)
    · have : d = w.fresh user := by simpa using h
      rw [this]
      exact Nat.lt_succ_self _

/-- C30, what the code does. For a reference whose verification reports success with
amount `m`, every `POST /api/wallet/verify-payment`, on a store that answers and a schema
that accepts the writes, takes the wallet of the caller, or creates one with balance 0
and no transaction when the caller has none, sets its balance to the Number sum of the
balance and `m / 100`, and appends one completed credit transaction of `m / 100`
carrying the reference, whether or not the wallet already holds a credit with that
reference; the wallets of other users are as before. -/
theorem verifyPayment_credits_each_call (paystack : String → Option PaystackData)
    (accepts : Wallet → Bool) (db : Db) (hf : db.find = true) (hs : db.save = true)
    (user : UserId) (reference : String) (m : Number) (w : WalletStore) (hwf : w.WF)
    (hpay : paystack reference = some ⟨"success", m⟩)
    (hc : w.findOne user = none → db.create = true ∧ accepts (w.fresh user) = true)
    (hacc : accepts ((w.walletOf user).credit m reference) = true) :
    (verifyPayment paystack accepts db user reference w).2 =
      ⟨200, .success ((w.walletOf user).credit m reference)⟩ ∧
    (verifyPayment paystack accepts db user reference w).1.findOne user =
      some ((w.walletOf user).credit m reference) ∧
    ((w.walletOf user).credit m reference).balance =
      (w.walletOf user).balance.add (m.div (Number.ofNat 100)) ∧
    ((w.walletOf user).credit m reference).transactions =
      (w.walletOf user).transactions ++
        [⟨"credit", m.div (Number.ofNat 100), "Fund added via Paystack", "completed",
          some reference⟩] ∧
    (∀ found, w.findOne user = some found → w.walletOf user = found) ∧
    (w.findOne user = none →
      (w.walletOf user).balance = Number.ofNat 0 ∧ (w.walletOf user).transactions = []) ∧
    (∀ v, v ≠ user →
      (verifyPayment paystack accepts db user reference w).1.findOne v = w.findOne v) ∧
    (verifyPayment paystack accepts db user reference w).1.WF := by
  cases ho : w.findOne user with
  | some found =>
    have hw : w.walletOf user = found := by simp [WalletStore.walletOf, ho]
    rw [hw] at hacc ⊢
    have hmem : found ∈ w.wallets := List.mem_of_find?_eq_some ho
    have huser : found.user = user := by simpa using List.find?_some ho
    have huniq : ∀ d ∈ w.wallets, d.id = found.id → d = found :=
      fun d hd hid => List.inj_on_of_nodup_map hwf.1 hd hmem hid
    have hst : verifyPayment paystack accepts db user reference w =
        (⟨saveWalletInto w.wallets (found.credit m reference), w.nextId⟩,
          ⟨200, .success (found.credit m reference)⟩) := by
      simp [verifyPayment, hpay, hf, hs, ho, hacc]
    rw [hst]
    refine ⟨rfl, ?_, rfl, rfl, fun f h => (Option.some.inj h), fun h => by simp at h, ?_,
      saveWalletInto_WF w _ hwf⟩
    · exact find?_saveWalletInto_self w.wallets _ found (fun d => d.user == user) rfl
        (by simp [Wallet.credit, huser]) ho huniq
    · intro v hv
      have hother : (found.user == v) = false := by
        simpa [huser] using fun e => hv e.symm
      apply find?_saveWalletInto_other
      · exact hother
      · intro d hd hid
        rw [huniq d hd hid]
        exact hother
  | none =>
    obtain ⟨hcr, hfr⟩ := hc ho
    have hw : w.walletOf user = w.fresh user := by simp [WalletStore.walletOf, ho]
    rw [hw] at hacc ⊢
    have hwf1 := fresh_WF w user hwf
    have hst : verifyPayment paystack accepts db user reference w =
        (⟨saveWalletInto (w.wallets ++ [w.fresh user]) ((w.fresh user).credit m reference),
            w.nextId + 1⟩,
          ⟨200, .success ((w.fresh user).credit m reference)⟩) := by
      simp [verifyPayment, hpay, hf, hs, ho, hacc, hcr, hfr]
    have hnone : w.wallets.find? (fun d => d.user == user) = none := ho
    have huniq : ∀ d ∈ w.wallets ++ [w.fresh user], d.id = (w.fresh user).id →
        d = w.fresh user := by
      intro d hd hid
      rcases List.mem_append.1 hd with h | h
      · have := hwf.2 d h
        rw [hid] at this
        exact absurd this (Nat.lt_irrefl _)
      · simpa using h
    rw [hst]
    refine ⟨rfl, ?_, rfl, rfl, fun f h => by simp at h, fun _ => ⟨rfl, rfl⟩, ?_,
      saveWalletInto_WF ⟨w.wallets ++ [w.fresh user], w.nextId + 1⟩ _ hwf1⟩
    · exact find?_saveWalletInto_self (w.wallets ++ [w.fresh user]) _ (w.fresh user)
        (fun d => d.user == user) rfl (by simp [Wallet.credit, WalletStore.fresh])
        (by simp [List.find?_append, hnone, WalletStore.fresh]) huniq
    · intro v hv
      have hother : ((w.fresh user).user == v) = false := by
        simpa [WalletStore.fresh] using fun e => hv e.symm
      show (saveWalletInto (w.wallets ++ [w.fresh user])
        ((w.fresh user).credit m reference)).find? (fun d => d.user == v) =
          w.wallets.find? (fun d => d.user == v)
      rw [find?_saveWalletInto_other _ _ _ hother]
      · cases hfv : w.wallets.find? (fun d => d.user == v) <;>
          simp [List.find?_append, hfv, hother]
      · intro d hd hid
        rw [huniq d hd hid]
        exact hother

/-- C30 fails on the code. Paystack reports the reference "ref-1" paid, 5000 kobo, and
user 1 holds 100. The first verify-payment leaves the balance 150 with one credit
carrying the reference; the second one with the same reference does not leave the
wallet unchanged: the balance is 200 and a second credit carries the reference. -/
theorem same_reference_credited_twice :
    (verifyPayment demoPaystack acceptsAll Db.up 1 "ref-1" demoWallets).1 =
      ⟨[⟨0, 1, Number.ofNat 150,
        [⟨"credit", Number.ofNat 50, "Fund added via Paystack", "completed",
          some "ref-1"⟩]⟩], 1⟩ ∧
    (verifyPayment demoPaystack acceptsAll Db.up 1 "ref-1"
      (verifyPayment demoPaystack acceptsAll Db.up 1 "ref-1" demoWallets).1).1 =
      ⟨[⟨0, 1, Number.ofNat 200,
        [⟨"credit", Number.ofNat 50, "Fund added via Paystack", "completed", some "ref-1"⟩,
          ⟨"credit", Number.ofNat 50, "Fund added via Paystack", "completed",
            some "ref-1"⟩]⟩], 1⟩ ∧
    ¬ ((verifyPayment demoPaystack acceptsAll Db.up 1 "ref-1"
        (verifyPayment demoPaystack acceptsAll Db.up 1 "ref-1" demoWallets).1).1 =
      (verifyPayment demoPaystack acceptsAll Db.up 1 "ref-1" demoWallets).1) := by
  decide

/-! ## The theorems of the read marks, the guards, the two sends and the wallet at concrete inputs -/

/-- C23 at a read mark of user 1 on conversation 0 while the peer 2 is connected on
socket 20. -/
theorem messagesRead_goes_to_peer_witness :
    Db.up.find = true ∧ Db.up.save = true ∧
    demoThread.findById 0 =
      some ⟨0, [1, 2], [⟨1, "hi", false, 5⟩, ⟨2, "yo", false, 6⟩], "yo", 6⟩ ∧
    (2 : UserId) ≠ demoSocket.userId ∧
    (markRead Db.up demoRegistry demoSocket 0 demoThread).2.filter Effect.isEmit =
      [.emit 20 (.messagesRead 0)] :=
  ⟨rfl, rfl, by decide, by decide,
    messagesRead_goes_to_peer Db.up rfl rfl demoRegistry demoSocket 0 demoThread
      ⟨0, [1, 2], [⟨1, "hi", false, 5⟩, ⟨2, "yo", false, 6⟩], "yo", 6⟩ 2 (by decide)
      (by decide) (Or.inl rfl)⟩

/-- C24 at two read marks of user 1 on the thread of `demoThread`, and at a read mark of
user 2 on a thread whose only message is read. -/
theorem markRead_idempotent_witness :
    demoThread.findById 0 =
      some ⟨0, [1, 2], [⟨1, "hi", false, 5⟩, ⟨2, "yo", false, 6⟩], "yo", 6⟩ ∧
    putRead Db.up 1 0 (putRead Db.up 1 0 demoThread).1 =
      ((putRead Db.up 1 0 demoThread).1, ⟨200, .message "Messages marked as read"⟩) ∧
    demoReadThread.findById 0 = some ⟨0, [1, 2], [⟨1, "hi", true, 5⟩], "hi", 5⟩ ∧
    putRead Db.up 2 0 demoReadThread = (demoReadThread, ⟨200, .message "Messages marked as read"⟩) :=
  ⟨by decide,
    (markRead_idempotent Db.up rfl rfl 1 0 demoThread
      ⟨0, [1, 2], [⟨1, "hi", false, 5⟩, ⟨2, "yo", false, 6⟩], "yo", 6⟩ (by decide)).2.1,
    by decide,
    ((markRead_idempotent Db.up rfl rfl 2 0 demoReadThread
      ⟨0, [1, 2], [⟨1, "hi", true, 5⟩], "hi", 5⟩ (by decide)).2.2 (by decide)).2⟩

/-- C25 at a request of user 3, who is not a participant of conversation 0, and at a
request of user 2, who is. -/
theorem getMessages_participant_only_witness :
    Db.up.find = true ∧ Db.up.populate = true ∧
    demoThread.findById 0 =
      some ⟨0, [1, 2], [⟨1, "hi", false, 5⟩, ⟨2, "yo", false, 6⟩], "yo", 6⟩ ∧
    (getMessages Db.up 3 0 demoThread).2 = ⟨403, .message "Not authorized"⟩ ∧
    (getMessages Db.up 3 0 demoThread).1 = demoThread ∧
    (getMessages Db.up 2 0 demoThread).2 =
      ⟨200, .messages [⟨1, "hi", false, 5⟩, ⟨2, "yo", false, 6⟩]⟩ :=
  ⟨rfl, rfl, by decide,
    (getMessages_participant_only Db.up rfl rfl 3 0 demoThread).2.2.2.1
      ⟨0, [1, 2], [⟨1, "hi", false, 5⟩, ⟨2, "yo", false, 6⟩], "yo", 6⟩ (by decide) (by decide),
    (getMessages_participant_only Db.up rfl rfl 3 0 demoThread).1,
    (getMessages_participant_only Db.up rfl rfl 2 0 demoThread).2.2.2.2
      ⟨0, [1, 2], [⟨1, "hi", false, 5⟩, ⟨2, "yo", false, 6⟩], "yo", 6⟩ (by decide) (by decide)⟩

/-- C26 at a request of user 1 on notification 0, which belongs to user 2, and at the
request of user 2 on it at time 8. -/
theorem putNotificationRead_owner_only_witness :
    Db.up.find = true ∧
    demoNotifications.findById 0 =
      some ⟨0, 2, "chat_message", "t", "m", none, none, none, false, none, 1⟩ ∧
    putNotificationRead Db.up 8 1 0 demoNotifications =
      (demoNotifications, ⟨403, .message "Not authorized"⟩) ∧
    (putNotificationRead Db.up 8 2 0 demoNotifications).1.findById 0 =
      some ⟨0, 2, "chat_message", "t", "m", none, none, none, true, some 8, 1⟩ :=
  ⟨rfl, by decide,
    (putNotificationRead_owner_only Db.up rfl 8 1 0 demoNotifications).2.1
      ⟨0, 2, "chat_message", "t", "m", none, none, none, false, none, 1⟩ (by decide) (by decide),
    ((putNotificationRead_owner_only Db.up rfl 8 2 0 demoNotifications).2.2
      ⟨0, 2, "chat_message", "t", "m", none, none, none, false, none, 1⟩ (by decide) rfl rfl).2.1⟩

/-- C27 at the sends of users 1 and 2 into the empty conversation 0, both handlers
loading the conversation before either saves. -/
theorem concurrent_sends_serialized_witness :
    demoTaskA.chatId = 0 ∧ demoTaskB.chatId = 0 ∧
    demoStore.findById 0 = some ⟨0, [1, 2], [], "", 0⟩ ∧
    ∃ final first second stored,
      interleave demoTaskA demoTaskB [true, false, true, false] (.start, .start, demoStore) =
        (.finished, .finished, final) ∧
      ((first = demoTaskA.message ∧ second = demoTaskB.message) ∨
        (first = demoTaskB.message ∧ second = demoTaskA.message)) ∧
      final.findById 0 = some stored ∧
      stored.messages = [] ++ [first, second] ∧
      stored.lastMessage = second.text ∧
      stored.participants = [1, 2] :=
  ⟨rfl, rfl, by decide,
    let ⟨final, first, second, stored, h1, h2, h3, h4, h5, h6, _⟩ :=
      concurrent_sends_serialized demoTaskA demoTaskB 0 demoStore ⟨0, [1, 2], [], "", 0⟩
        rfl rfl (by decide) [true, false, true, false] (by decide) (by decide)
    ⟨final, first, second, stored, h1, h2, h3, h4, h5, h6⟩⟩

/-- The amended C30 at a verify-payment of user 1 with the reference "ref-1" on a wallet
that already holds a credit carrying that reference, and at one of user 2, who has no
wallet yet. -/
theorem verifyPayment_credits_each_call_witness :
    Db.up.find = true ∧ Db.up.save = true ∧ Db.up.create = true ∧
    demoPaystack "ref-1" = some ⟨"success", Number.ofNat 5000⟩ ∧
    (verifyPayment demoPaystack acceptsAll Db.up 1 "ref-1" demoWallets).1.WF ∧
    (verifyPayment demoPaystack acceptsAll Db.up 1 "ref-1"
      (verifyPayment demoPaystack acceptsAll Db.up 1 "ref-1" demoWallets).1).1.findOne 1 =
      some (Wallet.credit
        ⟨0, 1, Number.ofNat 150,
          [⟨"credit", Number.ofNat 50, "Fund added via Paystack", "completed",
            some "ref-1"⟩]⟩
        (Number.ofNat 5000) "ref-1") ∧
    demoWallets.findOne 2 = none ∧
    (verifyPayment demoPaystack acceptsAll Db.up 2 "ref-1" demoWallets).2 =
      ⟨200, .success (Wallet.credit ⟨1, 2, Number.ofNat 0, []⟩ (Number.ofNat 5000) "ref-1")⟩ :=
  ⟨rfl, rfl, rfl, by decide, by decide,
    (verifyPayment_credits_each_call demoPaystack acceptsAll Db.up rfl rfl 1 "ref-1"
      (Number.ofNat 5000) (verifyPayment demoPaystack acceptsAll Db.up 1 "ref-1" demoWallets).1
      (by decide) (by decide) (by decide) rfl).2.1,
    by decide,
    (verifyPayment_credits_each_call demoPaystack acceptsAll Db.up rfl rfl 2 "ref-1"
      (Number.ofNat 5000) demoWallets (by decide) (by decide) (fun _ => ⟨rfl, rfl⟩) rfl).1⟩

end CampusConnect
